import Mathlib

/-!
# FlexNBD: a shallow embedding of the NBD server and its mirror engine

The development follows the C sources.  Memory (the mapped backing file, the
allocation bitmap, stack buffers) is a total function from byte addresses to
byte values; sockets are byte streams; C integers are `Nat`/`Int` with the
truncations written out.
-/

namespace FlexNBD

/-! ## Machine integers -/

/-- Conversion of an integer value to a C `int` (32-bit two's complement). -/
def int32 (x : Int) : Int := (x + 2147483648) % 4294967296 - 2147483648

/-- Conversion of an integer value to a C `off64_t` (64-bit two's complement). -/
def int64 (x : Int) : Int := (x + 9223372036854775808) % 18446744073709551616 - 9223372036854775808

/-- Conversion of an integer value to a C `uint64_t`. -/
def uint64 (x : Nat) : Nat := x % 18446744073709551616

/-- Conversion of an integer value to a C `size_t` (64-bit unsigned). -/
def size_t (x : Int) : Nat := (x % 18446744073709551616).toNat

/-! ## Byte order -/

/-- Big-endian bytes of a 32-bit value (`htobe32` followed by a byte-wise view). -/
def htobe32 (v : Nat) : List Nat :=
  [v / 16777216 % 256, v / 65536 % 256, v / 256 % 256, v % 256]

/-- Big-endian bytes of a 64-bit value (`htobe64` followed by a byte-wise view). -/
def htobe64 (v : Nat) : List Nat :=
  [v / 72057594037927936 % 256, v / 281474976710656 % 256, v / 1099511627776 % 256,
   v / 4294967296 % 256, v / 16777216 % 256, v / 65536 % 256, v / 256 % 256, v % 256]

/-- Value of a big-endian byte string (`be32toh` / `be64toh` of a wire field). -/
def betoh (bytes : List Nat) : Nat := bytes.foldl (fun acc b => acc * 256 + b) 0

/-! ## Memory -/

/-- A region of memory: byte value at each address. -/
abbrev Mem := Nat → Nat

/-- The `n` bytes of `m` starting at `pos`. -/
def mem_read (m : Mem) (pos n : Nat) : List Nat := (List.range n).map (fun i => m (pos + i))

/-- `memcpy(m + pos, src, |src|)`: store the bytes `src` at `pos`. -/
def mem_write (m : Mem) (pos : Nat) (src : List Nat) : Mem :=
  fun a => if pos ≤ a ∧ a < pos + src.length then src.getD (a - pos) 0 else m a

/-- `memcmp(m + p, m + q, n) != 0`: some of the `n` byte pairs differ. -/
def memcmp_ne (m : Mem) (p q n : Nat) : Bool :=
  (List.range n).any (fun i => m (p + i) != m (q + i))

/-! ## Bit arrays (bitset.h)

bitset.h is not among the sources; its bit-level helpers are fixed by
tests/unit/check_bitset.c (`test_bit_set`, `test_bit_tests`, `test_bit_runs`).
-/

/-- Modelled from the spec: bitset.h is missing.  `bit_is_set(b, idx)`: bit
`idx % 8` (least significant first) of byte `idx / 8`, as `test_bit_tests` has it. -/
def bit_is_set (b : Mem) (idx : Nat) : Bool := (b (idx / 8)).testBit (idx % 8)

/-- Modelled from the spec: bitset.h is missing.  `bit_set(b, idx)` as exercised by
`test_bit_set`: bit 7 gives 0x80 in byte 0, bit 63 gives 0x80 in byte 7. -/
def bit_set (b : Mem) (idx : Nat) : Mem :=
  fun a => if a = idx / 8 then b a ||| 2 ^ (idx % 8) else b a

/-- Modelled from the spec: bitset.h is missing.  `bit_clear(b, idx)` as exercised by
`test_bit_clear`. -/
def bit_clear (b : Mem) (idx : Nat) : Mem :=
  fun a => if a = idx / 8 then b a &&& (255 - 2 ^ (idx % 8)) else b a

/-- Loop of `bit_run_count`: number of leading bits among `len` bits from `from_`
whose value is `first_value`. -/
def bit_run_count_loop (b : Mem) (first_value : Bool) : Nat → Nat → Nat
  | _, 0 => 0
  | from_, len + 1 =>
    if bit_is_set b from_ == first_value then 1 + bit_run_count_loop b first_value (from_ + 1) len
    else 0

/-- Modelled from the spec: bitset.h is missing.  `bit_run_count(b, from, len)`: the
number of contiguous bits, starting at `from` and at most `len`, that have the
value of the bit at `from` (`test_bit_runs`). -/
def bit_run_count (b : Mem) (from_ len : Nat) : Nat :=
  bit_run_count_loop b (bit_is_set b from_) from_ len

/-! ## Sockets and file transfer (ioutil.c) -/

/-- `readloop(fd, buffer, size)` on a stream whose pending bytes are `stream`:
the status (0, or -1 when the stream ends first), the bytes stored in the
buffer, and the rest of the stream. -/
def readloop (stream : List Nat) (size : Nat) : Int × List Nat × List Nat :=
  if size ≤ stream.length then (0, stream.take size, stream.drop size)
  else (-1, stream, [])

/-- One call `sendfile64(out_fd, in_fd, offset, count)` on a file of `size` bytes
with contents `file`: `none` for the error return (negative offset), otherwise
the bytes transferred, which are all the requested bytes the file still has. -/
def sendfile64 (file : Mem) (size : Nat) (offset : Int) (count : Nat) : Option (List Nat) :=
  if offset < 0 then none
  else some (mem_read file offset.toNat (min count (size - offset.toNat)))

/-- Result of `sendfileloop`. -/
inductive SendResult where
  | done (sent : List Nat)
  | failed (sent : List Nat)
  | stuck (sent : List Nat)
deriving DecidableEq

/-- The `while (sent < count)` loop of `sendfileloop`; `out` collects what went to
the socket.  A call that transfers nothing leaves the loop state as it was, so
the loop spins: `stuck`. -/
def sendfileloop_go (file : Mem) (size : Nat) (count : Nat) :
    Nat → Int → Nat → List Nat → SendResult
  | 0, _, _, out => .stuck out
  | fuel + 1, offset, sent, out =>
    if sent < count then
      match sendfile64 file size offset (count - sent) with
      | none => .failed out
      | some bytes =>
        if bytes.length = 0 then .stuck out
        else sendfileloop_go file size count fuel (offset + bytes.length) (sent + bytes.length)
          (out ++ bytes)
    else .done out

/-- `sendfileloop(out_fd, in_fd, &offset, count)`.  Every pass of the loop that
does not spin adds at least one byte, so `count + 1` passes are enough. -/
def sendfileloop (file : Mem) (size : Nat) (offset : Int) (count : Nat) : SendResult :=
  sendfileloop_go file size count (count + 1) offset 0 []

/-! ## NBD wire types (nbdtypes.h) -/

/-- Modelled from the spec: nbdtypes.h is missing.  Magic of a request header. -/
def REQUEST_MAGIC : Nat := 0x25609513

/-- Modelled from the spec: nbdtypes.h is missing.  Magic of a reply header. -/
def REPLY_MAGIC : Nat := 0x67446698

/-- Modelled from the spec: nbdtypes.h is missing.  Magic of the hello frame. -/
def INIT_MAGIC : Nat := 0x00420281861253

/-- Modelled from the spec: nbdtypes.h is missing.  The string literal "NBDMAGIC"
with its terminating NUL, so that `sizeof(INIT_PASSWD)` is its length. -/
def INIT_PASSWD : List Nat := [78, 66, 68, 77, 65, 71, 73, 67, 0]

/-- Modelled from the spec: nbdtypes.h is missing.  Request type READ. -/
def REQUEST_READ : Nat := 0

/-- Modelled from the spec: nbdtypes.h is missing.  Request type WRITE. -/
def REQUEST_WRITE : Nat := 1

/-- Modelled from the spec: nbdtypes.h is missing.  Request type DISCONNECT. -/
def REQUEST_DISCONNECT : Nat := 2

/-- Modelled from the spec: nbdtypes.h is missing.  `struct nbd_request`, 28 bytes
on the wire: magic, type, handle, from, len.  The integer fields hold the values
after `be32toh` / `be64toh`. -/
structure nbd_request where
  magic : Nat
  type : Nat
  handle : List Nat
  from_ : Nat
  len : Nat
deriving DecidableEq

/-- Modelled from the spec: nbdtypes.h is missing.  The request header held in
the 28 bytes `raw`: magic at 0, type at 4, handle at 8, from at 16, len at 24. -/
def nbd_request_of_bytes (raw : List Nat) : nbd_request :=
  { magic := betoh (raw.take 4)
    type := betoh ((raw.drop 4).take 4)
    handle := (raw.drop 8).take 8
    from_ := betoh ((raw.drop 16).take 8)
    len := betoh ((raw.drop 24).take 4) }

/-- Modelled from the spec: nbdtypes.h is missing.  The 16 bytes of a
`struct nbd_reply` whose magic and error fields hold `htobe32 magic` and
`htobe32 error`. -/
def nbd_reply_bytes (magic error : Nat) (handle : List Nat) : List Nat :=
  htobe32 magic ++ htobe32 error ++ handle

/-! ## Client session (serve.c) -/

/-- Resolution of the allocation map: one bit for this many bytes of the file. -/
def block_allocation_resolution : Int := 4096

/-- What a session works on.  params.h is not among the sources; the fields are
those serve.c uses.  `size`, `mapped` and `block_allocation_map` are the fields
of `struct client_params` (`block_allocation_map = none` is the NULL pointer;
the file behind `fileno` is the shared mapping `mapped`; `size` is an `off64_t`
that is not negative).  The field `socket` is the pair of byte streams
`socket_in` (what the peer has sent and the server has not read yet; after it
the stream is at its end) and `socket_out` (what the server has written; a
write to the socket goes through in full).  `errno` is the thread's `errno`. -/
structure client_params where
  socket_in : List Nat
  socket_out : List Nat
  errno : Int
  size : Nat
  mapped : Mem
  block_allocation_map : Option Mem

/-- How far a function has got. -/
inductive Status where
  | ok
  | client_error
  | out_of_fuel
deriving DecidableEq

/-- The variables of `write_not_zeroes`: the socket input, the mapped file, the
allocation map `map`, the stack array `zerobuffer` (an address function, so that
the byte after its 4096 elements is there too), and the locals `from`, `len`
and `run`.  `status` is `client_error` once a `DO_READ` has failed. -/
structure wnz where
  socket_in : List Nat
  mapped : Mem
  map : Mem
  zerobuffer : Mem
  from_ : Int
  len : Int
  run : Int
  status : Status

/-- The loop `while (run > 0)` of the unallocated branch of `write_not_zeroes`.
`from` is not negative here, so `/` and `%` are those of C. -/
def write_not_zeroes_blocks : Nat → wnz → wnz
  | 0, s => if s.run > 0 then { s with status := .out_of_fuel } else s
  | fuel + 1, s =>
    if s.run > 0 then
      let bit := int32 (s.from_ / block_allocation_resolution)
      let blockrun := int32 (block_allocation_resolution - s.from_ % block_allocation_resolution)
      let blockrun := if blockrun > s.run then s.run else blockrun
      let r := readloop s.socket_in (size_t blockrun)
      let zerobuffer := mem_write s.zerobuffer 0 r.2.1
      if r.1 = -1 then
        { s with socket_in := r.2.2, zerobuffer := zerobuffer, status := .client_error }
      else
        let nonzero : Bool := zerobuffer 0 != 0 || memcmp_ne zerobuffer 0 1 (size_t blockrun)
        write_not_zeroes_blocks fuel
          { socket_in := r.2.2
            mapped := if nonzero then
                mem_write s.mapped s.from_.toNat (mem_read zerobuffer 0 (size_t blockrun))
              else s.mapped
            map := if nonzero then bit_set s.map bit.toNat else s.map
            zerobuffer := zerobuffer
            from_ := s.from_ + blockrun
            len := s.len - blockrun
            run := s.run - blockrun
            status := s.status }
    else s

/-- The loop `while (len > 0)` of `write_not_zeroes`. -/
def write_not_zeroes_loop : Nat → wnz → wnz
  | 0, s => if s.len > 0 then { s with status := .out_of_fuel } else s
  | fuel + 1, s =>
    if s.len > 0 then
      let first_bit := int32 (s.from_ / block_allocation_resolution)
      let last_bit := int32 ((s.from_ + s.len + block_allocation_resolution - 1) /
        block_allocation_resolution)
      let run := int32 (bit_run_count s.map first_bit.toNat (last_bit - first_bit).toNat *
        block_allocation_resolution)
      let run := int32 (run - s.from_ % block_allocation_resolution)
      let run := if first_bit = last_bit then
          int32 (run - (block_allocation_resolution -
            (s.from_ + s.len) % block_allocation_resolution))
        else run
      if bit_is_set s.map (int32 (s.from_ / 8)).toNat then
        let r := readloop s.socket_in (size_t run)
        let s1 : wnz := { s with
          socket_in := r.2.2, mapped := mem_write s.mapped s.from_.toNat r.2.1, run := run }
        if r.1 = -1 then { s1 with status := .client_error }
        else write_not_zeroes_loop fuel { s1 with len := s.len - run, from_ := s.from_ + run }
      else
        let s1 := write_not_zeroes_blocks run.toNat { s with run := run }
        if s1.status = .ok then write_not_zeroes_loop fuel s1 else s1
    else s

/-- `write_not_zeroes(client, from, len)` with allocation map `map`; `stack` is
what the memory of `zerobuffer` holds on entry.  Every pass of the outer loop
takes at least one byte off `len`, so `len` passes are enough. -/
def write_not_zeroes (socket_in : List Nat) (mapped map stack : Mem) (from_ len : Int) : wnz :=
  write_not_zeroes_loop len.toNat
    { socket_in := socket_in, mapped := mapped, map := map, zerobuffer := stack,
      from_ := from_, len := len, run := 0, status := .ok }

/-- How `client_serve_request` ends: it returns `v`, it leaves through
`CLIENT_ERROR`, it spins in `sendfileloop`, or it addresses memory outside the
mapping (`fault`, when `from` is negative as an `off64_t`). -/
inductive Outcome where
  | ret (v : Int)
  | client_error
  | hang
  | fault
deriving DecidableEq

/-- `client_serve_request(client)`; `stack` is what the stack memory holds. -/
def client_serve_request (client : client_params) (stack : Mem) : Outcome × client_params :=
  let r := readloop client.socket_in 28
  let client := { client with socket_in := r.2.2 }
  if r.1 = -1 then
    if client.errno = 0 then (.ret 1, client) else (.client_error, client)
  else
    let request := nbd_request_of_bytes r.2.1
    if request.magic ≠ REQUEST_MAGIC then (.client_error, client)
    else if request.type = REQUEST_READ ∨ request.type = REQUEST_WRITE then
      if request.from_ < 0 ∨ uint64 (request.from_ + request.len) > client.size then
        (.ret 0, { client with
          socket_out := client.socket_out ++ nbd_reply_bytes REPLY_MAGIC 1 request.handle })
      else if request.type = REQUEST_READ then
        let client := { client with
          socket_out := client.socket_out ++ nbd_reply_bytes REPLY_MAGIC 0 request.handle }
        match sendfileloop client.mapped client.size (int64 request.from_) request.len with
        | .done sent => (.ret 0, { client with socket_out := client.socket_out ++ sent })
        | .failed sent => (.client_error, { client with socket_out := client.socket_out ++ sent })
        | .stuck sent => (.hang, { client with socket_out := client.socket_out ++ sent })
      else if int64 request.from_ < 0 then (.fault, client)
      else
        match client.block_allocation_map with
        | some map =>
          let w := write_not_zeroes client.socket_in client.mapped map stack
            (int64 request.from_) (int32 request.len)
          let client := { client with
            socket_in := w.socket_in, mapped := w.mapped, block_allocation_map := some w.map }
          if w.status = .ok then
            (.ret 0, { client with
              socket_out := client.socket_out ++ nbd_reply_bytes REPLY_MAGIC 0 request.handle })
          else if w.status = .client_error then (.client_error, client)
          else (.hang, client)
        | none =>
          let r := readloop client.socket_in request.len
          let client := { client with
            socket_in := r.2.2, mapped := mem_write client.mapped request.from_ r.2.1 }
          if r.1 = -1 then (.client_error, client)
          else
            (.ret 0, { client with
              socket_out := client.socket_out ++ nbd_reply_bytes REPLY_MAGIC 0 request.handle })
    else if request.type = REQUEST_DISCONNECT then (.ret 1, client)
    else (.client_error, client)

/-- `client_send_hello(client)`: `init` is the memory of the local
`struct nbd_init` (passwd at 0, magic at 8, size at 16, reserved at 24;
152 bytes) as it is on entry. -/
def client_send_hello (client : client_params) (init : Mem) : client_params :=
  let init := mem_write init 0 INIT_PASSWD
  let init := mem_write init 8 (htobe64 INIT_MAGIC)
  let init := mem_write init 16 (htobe64 (uint64 client.size))
  let init := mem_write init 24 (List.replicate 128 0)
  { client with socket_out := client.socket_out ++ mem_read init 0 152 }

/-! ## Access control (serve.c) -/

/-- Address families of a `struct sockaddr` that `is_included_in_acl` takes an
address pointer for. -/
inductive sa_family_t where
  | AF_INET
  | AF_INET6
deriving DecidableEq

/-- Number of address bits of a family. -/
def sa_family_t.bits : sa_family_t → Nat
  | .AF_INET => 32
  | .AF_INET6 => 128

/-- A socket address: the family and the raw address bytes in network order
(`sin_addr`, 4 bytes, or `sin6_addr`, 16 bytes). -/
structure sockaddr where
  sa_family : sa_family_t
  raw_address : List Nat
deriving DecidableEq

/-- An ACL entry, `struct ip_and_mask` (params.h is not among the sources; the
fields are those `is_included_in_acl` uses): an address and the number of
leading bits that count. -/
structure ip_and_mask where
  ip : sockaddr
  mask : Int
deriving DecidableEq

/-- The table `testmasks`. -/
def testmasks : List Nat := [0, 128, 192, 224, 240, 248, 252, 254, 255]

/-- The loop `for (testbits = entry->mask; testbits > 0; testbits -= 8)` of
`is_included_in_acl`, entered with `testbits` and the two byte pointers;
`false` is the jump to `no_match`, `true` is falling out of the loop. -/
def acl_testbits_loop (testbits : Int) (raw_address1 raw_address2 : List Nat) : Bool :=
  if h : testbits > 0 then
    if testbits ≥ 8 then
      if raw_address1.headD 0 ≠ raw_address2.headD 0 then false
      else acl_testbits_loop (testbits - 8) raw_address1.tail raw_address2.tail
    else
      if raw_address1.headD 0 &&& testmasks.getD (testbits % 8).toNat 0 ≠
          raw_address2.headD 0 &&& testmasks.getD (testbits % 8).toNat 0 then false
      else acl_testbits_loop (testbits - 8) raw_address1.tail raw_address2.tail
  else true
termination_by testbits.toNat
decreasing_by all_goals omega

/-- `is_included_in_acl(list_length, list, test)`, the list holding its length. -/
def is_included_in_acl : List ip_and_mask → sockaddr → Int
  | [], _ => 0
  | entry :: list, test =>
    if test.sa_family ≠ entry.ip.sa_family then is_included_in_acl list test
    else if acl_testbits_loop entry.mask test.raw_address entry.ip.raw_address then 1
    else is_included_in_acl list test

/-- Bit `i` of an address, counted from the most significant bit of its first byte. -/
def address_bit (raw : List Nat) (i : Nat) : Bool := (raw.getD (i / 8) 0).testBit (7 - i % 8)

/-- The ACL rule in the words of the specification: the first `mask` bits of the
two addresses are equal. -/
def leading_bits_equal (mask : Nat) (a b : List Nat) : Prop :=
  ∀ i, i < mask → address_bit a i = address_bit b i

instance (mask : Nat) (a b : List Nat) : Decidable (leading_bits_equal mask a b) :=
  inferInstanceAs (Decidable (∀ i, i < mask → address_bit a i = address_bit b i))

/-- The ACL rule in the words of the specification: some entry has the family of
`test` and agrees with it on the entry's leading bits. -/
def acl_spec_includes (list : List ip_and_mask) (test : sockaddr) : Prop :=
  ∃ entry ∈ list, entry.ip.sa_family = test.sa_family ∧
    leading_bits_equal entry.mask.toNat entry.ip.raw_address test.raw_address

/-- An address has the length of its family and holds bytes. -/
def sockaddr.wf (a : sockaddr) : Prop :=
  a.raw_address.length * 8 = a.sa_family.bits ∧ ∀ b ∈ a.raw_address, b < 256

/-- An entry holds a well-formed address and a mask between 0 and the width of its family. -/
def ip_and_mask.wf (e : ip_and_mask) : Prop :=
  e.ip.wf ∧ 0 ≤ e.mask ∧ e.mask ≤ e.ip.sa_family.bits

instance (list : List ip_and_mask) (test : sockaddr) : Decidable (acl_spec_includes list test) :=
  inferInstanceAs (Decidable (∃ entry ∈ list, entry.ip.sa_family = test.sa_family ∧
    leading_bits_equal entry.mask.toNat entry.ip.raw_address test.raw_address))

instance (a : sockaddr) : Decidable a.wf :=
  inferInstanceAs (Decidable
    (a.raw_address.length * 8 = a.sa_family.bits ∧ ∀ b ∈ a.raw_address, b < 256))

instance (e : ip_and_mask) : Decidable e.wf :=
  inferInstanceAs (Decidable (e.ip.wf ∧ 0 ≤ e.mask ∧ e.mask ≤ e.ip.sa_family.bits))

/-- The entry 10.0.0.0/8. -/
def acl_10_0_0_0_8 : ip_and_mask := { ip := { sa_family := .AF_INET, raw_address := [10, 0, 0, 0] }, mask := 8 }

/-- The IPv4 address `a.b.c.d`. -/
def ipv4 (a b c d : Nat) : sockaddr := { sa_family := .AF_INET, raw_address := [a, b, c, d] }

/-! ## Bitsets with a resolution (bitset.h) -/

/-- Modelled from the spec: bitset.h is missing.  `bit_set_range(b, from, len)`:
set the `len` bits from `from` on (`test_bit_ranges`). -/
def bit_set_range (b : Mem) : Nat → Nat → Mem
  | _, 0 => b
  | from_, len + 1 => bit_set_range (bit_set b from_) (from_ + 1) len

/-- Modelled from the spec: bitset.h is missing.  `bit_clear_range(b, from, len)`:
clear the `len` bits from `from` on (`test_bit_ranges`). -/
def bit_clear_range (b : Mem) : Nat → Nat → Mem
  | _, 0 => b
  | from_, len + 1 => bit_clear_range (bit_clear b from_) (from_ + 1) len

/-- Modelled from the spec: bitset.h is missing.  `struct bitset_mapping`: a bit
buffer in which bit `i` stands for the bytes `[i * resolution, (i+1) * resolution)`
of a space of `size` bytes. -/
structure bitset_mapping where
  size : Nat
  resolution : Nat
  bits : Mem

/-- Modelled from the spec: bitset.h is missing.  `bitset_alloc(size, resolution)`:
a bitset with every bit clear. -/
def bitset_alloc (size resolution : Nat) : bitset_mapping :=
  { size := size, resolution := resolution, bits := fun _ => 0 }

/-- Modelled from the spec: bitset.h is missing.  `bitset_set_range(map, from, len)`:
the range is converted by dividing the start down and start + len up, and
those bits are set. -/
def bitset_set_range (map : bitset_mapping) (from_ len : Nat) : bitset_mapping :=
  { map with
    bits := bit_set_range map.bits (from_ / map.resolution)
      ((from_ + len + map.resolution - 1) / map.resolution - from_ / map.resolution) }

/-- Modelled from the spec: bitset.h is missing.  `bitset_clear_range(map, from, len)`:
the range is converted by dividing the start down and start + len up, and
those bits are cleared. -/
def bitset_clear_range (map : bitset_mapping) (from_ len : Nat) : bitset_mapping :=
  { map with
    bits := bit_clear_range map.bits (from_ / map.resolution)
      ((from_ + len + map.resolution - 1) / map.resolution - from_ / map.resolution) }

/-- Modelled from the spec: bitset.h is missing.  `bitset_is_set_at(map, at)`: the
bit of the block that holds byte `at`. -/
def bitset_is_set_at (map : bitset_mapping) (at_ : Nat) : Bool :=
  bit_is_set map.bits (at_ / map.resolution)

/-- Modelled from the spec: bitset.h is missing.  `bitset_run_count(map, from, len)`:
the number of bytes from `from` before the bit value changes, capped at `len`. -/
def bitset_run_count (map : bitset_mapping) (from_ len : Nat) : Nat :=
  min len
    (bit_run_count map.bits (from_ / map.resolution)
        ((from_ + len + map.resolution - 1) / map.resolution - from_ / map.resolution)
      * map.resolution - from_ % map.resolution)

/-! ## Mirror engine (control.c) -/

/-- The mirror code splits NBD writes, making them this long as a maximum. -/
def mirror_longest_write : Nat := 8 * 2 ^ 20

/-- A pass that has sent fewer bytes than this is taken as the sign to finish. -/
def mirror_last_pass_after_bytes_written : Nat := 100 * 2 ^ 20

/-- The largest number of full passes. -/
def mirror_maximum_passes : Int := 7

/-- What the mirror does when it has finished (`action_at_finish`); serve.h is
not among the sources, the two values are those `mirror_runner` switches on. -/
inductive mirror_action where
  | ACTION_EXIT
  | ACTION_NOTHING
deriving DecidableEq

/-- The calls `mirror_runner` makes, and the start of each round of its `for`
loop with the value `pass` has there. -/
inductive mirror_event where
  | pass_start (pass : Int)
  | server_lock_io
  | server_unlock_io
  | socket_nbd_write (from_ : Nat) (len : Int) (mapped_offset : Nat)
  | close_client
  | serve_signal_close
  | mirror_freed
deriving DecidableEq

/-- What the other threads do while the mirror runs, by the number `tick` of the
round of the inner loop: the value `signal_abandon` has when that round reads
it, and the ranges client sessions mark dirty (`server_dirty`) before that
round, which they can do only while the mirror does not hold `l_io`. -/
structure mirror_env where
  signal_abandon : Nat → Bool
  client_dirty : Nat → List (Nat × Nat)

/-- The variables of `mirror_runner`: the dirty map, `current`, `written`, whether
the mirror thread holds `l_io`, the rounds of the inner loop so far, and the
calls made so far. -/
structure mirror_vars where
  map : bitset_mapping
  current : Nat
  written : Nat
  holds_io : Bool
  tick : Nat
  trace : List mirror_event

/-- How the inner loop of a pass ends. -/
inductive pass_exit where
  | finished
  | abandoned
  | spinning
deriving DecidableEq

/-- The loop `while (current < serve->size)` of `mirror_runner` in pass `pass`. -/
def mirror_pass_loop (env : mirror_env) (size : Nat) (pass : Int) :
    Nat → mirror_vars → pass_exit × mirror_vars
  | 0, v => (if v.current < size then .spinning else .finished, v)
  | fuel + 1, v =>
    if v.current < size then
      let round := v.tick
      let map := if v.holds_io then v.map
        else (env.client_dirty round).foldl (fun m w => bitset_set_range m w.1 w.2) v.map
      let run := int32 (bitset_run_count map v.current mirror_longest_write)
      let v : mirror_vars :=
        if bitset_is_set_at map v.current then
          let locked := decide (pass < mirror_maximum_passes - 1)
          { v with
            map := bitset_clear_range map v.current run.toNat
            written := uint64 (v.written + run).toNat
            trace := v.trace ++ (if locked then [.server_lock_io] else []) ++
              [.socket_nbd_write v.current run v.current] ++
              (if locked then [.server_unlock_io] else []) }
        else { v with map := map }
      let v := { v with current := uint64 (v.current + run).toNat, tick := round + 1 }
      if env.signal_abandon round then
        if pass = mirror_maximum_passes - 1 then
          (.abandoned, { v with
            holds_io := false, trace := v.trace ++ [.server_unlock_io, .close_client] })
        else (.abandoned, { v with trace := v.trace ++ [.close_client] })
      else if run ≤ 0 then (.spinning, v)
      else mirror_pass_loop env size pass fuel v
    else (.finished, v)

/-- The end of `mirror_runner` from the label `abandon_mirror` on. -/
def mirror_abandon (v : mirror_vars) : mirror_vars :=
  { v with trace := v.trace ++ [.mirror_freed] }

/-- The end of `mirror_runner` after the `for` loop: the switch on
`action_at_finish`, the unlock, and the code after `abandon_mirror`. -/
def mirror_finish (action : mirror_action) (v : mirror_vars) : mirror_vars :=
  let calls : List mirror_event :=
    match action with
    | .ACTION_EXIT => [.close_client, .serve_signal_close, .close_client]
    | .ACTION_NOTHING => [.close_client]
  mirror_abandon { v with holds_io := false, trace := v.trace ++ calls ++ [.server_unlock_io] }

/-- How `mirror_runner` ends. -/
inductive mirror_result where
  | success
  | abandoned
  | spinning
deriving DecidableEq

/-- The loop `for (pass=0; pass < mirror_maximum_passes; pass++)` of
`mirror_runner`, entered with `pass`, and what follows it. -/
def mirror_passes (env : mirror_env) (size : Nat) (action : mirror_action) :
    Nat → Int → mirror_vars → mirror_result × mirror_vars
  | 0, _, v => (.spinning, v)
  | fuel + 1, pass, v =>
    if pass < mirror_maximum_passes then
      let v := { v with current := 0, written := 0, trace := v.trace ++ [.pass_start pass] }
      let v := if pass = mirror_maximum_passes - 1 then
          { v with holds_io := true, trace := v.trace ++ [.server_lock_io] }
        else v
      match mirror_pass_loop env size pass size v with
      | (.abandoned, v) => (.abandoned, mirror_abandon v)
      | (.spinning, v) => (.spinning, v)
      | (.finished, v) =>
        let pass := if v.written < mirror_last_pass_after_bytes_written then
            mirror_maximum_passes - 1
          else pass
        mirror_passes env size action fuel (pass + 1) v
    else (.success, mirror_finish action v)

/-- `mirror_runner(serve)` on a server whose file has `size` bytes and whose
mirror has the dirty map `dirty_map` and the finish action `action`.  `pass`
grows with every round of the `for` loop, so 8 rounds are enough. -/
def mirror_runner (env : mirror_env) (size : Nat) (dirty_map : bitset_mapping)
    (action : mirror_action) : mirror_result × mirror_vars :=
  mirror_passes env size action 8 0
    { map := dirty_map, current := 0, written := 0, holds_io := false, tick := 0, trace := [] }

/-- The dirty map `control_mirror` gives a new mirror: every block of the file dirty. -/
def mirror_initial_dirty_map (size : Nat) : bitset_mapping :=
  bitset_set_range (bitset_alloc size 4096) 0 size

/-- Nobody else does anything: no client writes, no abandon signal. -/
def mirror_env_quiet : mirror_env :=
  { signal_abandon := fun _ => false, client_dirty := fun _ => [] }

/-- Whether the mirror thread holds `l_io` after the calls in `trace`, holding
it before them or not as `held` says. -/
def holds_io_after (held : Bool) : List mirror_event → Bool
  | [] => held
  | .server_lock_io :: trace => holds_io_after true trace
  | .server_unlock_io :: trace => holds_io_after false trace
  | _ :: trace => holds_io_after held trace

/-- Whether `trace`, from its start up to the next round of the `for` loop or
the close of the upstream socket, is run with `l_io` held throughout, it being
held or not at the start as `held` says. -/
def pass_is_frozen (held : Bool) : List mirror_event → Bool
  | [] => held
  | .pass_start _ :: _ => held
  | .close_client :: _ => held
  | .server_lock_io :: trace => held && pass_is_frozen true trace
  | .server_unlock_io :: _ => false
  | _ :: trace => held && pass_is_frozen held trace

/-- Whether `trace` has a round of the `for` loop with `pass = mirror_maximum_passes - 1`
that takes `l_io` at its start and keeps it for the whole scan. -/
def has_frozen_final_pass : List mirror_event → Bool
  | [] => false
  | .pass_start pass :: .server_lock_io :: trace =>
    (pass == mirror_maximum_passes - 1 && pass_is_frozen true trace) ||
      has_frozen_final_pass trace
  | _ :: trace => has_frozen_final_pass trace

/-! ## Inputs used below -/

/-- A request header on the wire. -/
def request_bytes (type : Nat) (handle : List Nat) (from_ len : Nat) : List Nat :=
  htobe32 REQUEST_MAGIC ++ htobe32 type ++ handle ++ htobe64 from_ ++ htobe32 len

/-- The handle of the example requests. -/
def handle0 : List Nat := [1, 2, 3, 4, 5, 6, 7, 8]

/-- A session on a file of `size` zero bytes, with `socket_in` waiting on the socket. -/
def session0 (size : Nat) (map : Option Mem) (socket_in : List Nat) : client_params :=
  { socket_in := socket_in, socket_out := [], errno := 0, size := size,
    mapped := fun _ => 0, block_allocation_map := map }

/-- A file whose byte at address `a` is `a % 251`. -/
def file_pattern : Mem := fun a => a % 251

/-- A session without allocation map on a file of `size` bytes with contents
`mapped`, with `socket_in` waiting on the socket. -/
def session1 (mapped : Mem) (size : Nat) (socket_in : List Nat) : client_params :=
  { socket_in := socket_in, socket_out := [], errno := 0, size := size,
    mapped := mapped, block_allocation_map := none }

/-- Memory that holds zero everywhere: an allocation map with every bit clear, a
file of zero bytes, a zeroed stack. -/
def zeroes : Mem := fun _ => 0

/-- An allocation map with every bit set. -/
def all_allocated : Mem := fun _ => 255

/-- A pipelined WRITE of the single byte 7 at offset 4094 followed by a READ of
the same byte. -/
def write_then_read_stream : List Nat :=
  request_bytes REQUEST_WRITE handle0 4094 1 ++ [7] ++ request_bytes REQUEST_READ handle0 4094 1

/-- Whether one of the calls in `trace` raises the server's close signal. -/
def close_signal_raised (trace : List mirror_event) : Bool :=
  decide (mirror_event.serve_signal_close ∈ trace)

/-- Whether `serve->mirror` is NULL after the calls in `trace`: the last thing
done is the code after `abandon_mirror`, which frees the mirror and clears the
pointer. -/
def server_mirror_is_null (trace : List mirror_event) : Bool :=
  decide (trace.getLast? = some mirror_event.mirror_freed)

/-- The abandon signal is up from the first round on; no client writes. -/
def mirror_env_abandon : mirror_env :=
  { signal_abandon := fun _ => true, client_dirty := fun _ => [] }

/-- The dirty map a round of the inner loop of `mirror_runner` sees: the map
left by the round before, with what client sessions have marked dirty since. -/
def mirror_round_map (env : mirror_env) (v : mirror_vars) : bitset_mapping :=
  if v.holds_io then v.map
  else (env.client_dirty v.tick).foldl (fun m w => bitset_set_range m w.1 w.2) v.map

/-- The value of `run` in a round of the inner loop of `mirror_runner`. -/
def mirror_round_run (env : mirror_env) (v : mirror_vars) : Int :=
  int32 (bitset_run_count (mirror_round_map env v) v.current mirror_longest_write)

/-- The calls a round of the inner loop of `mirror_runner` makes before it looks
at `signal_abandon`. -/
def mirror_round_calls (env : mirror_env) (pass : Int) (v : mirror_vars) : List mirror_event :=
  if bitset_is_set_at (mirror_round_map env v) v.current then
    (if pass < mirror_maximum_passes - 1 then [.server_lock_io] else []) ++
      [.socket_nbd_write v.current (mirror_round_run env v) v.current] ++
      (if pass < mirror_maximum_passes - 1 then [.server_unlock_io] else [])
  else []

/-- The variables of `mirror_runner` after a round of the inner loop, before it
looks at `signal_abandon`. -/
def mirror_round (env : mirror_env) (pass : Int) (v : mirror_vars) : mirror_vars :=
  { map := if bitset_is_set_at (mirror_round_map env v) v.current then
        bitset_clear_range (mirror_round_map env v) v.current (mirror_round_run env v).toNat
      else mirror_round_map env v
    current := uint64 (v.current + mirror_round_run env v).toNat
    written := if bitset_is_set_at (mirror_round_map env v) v.current then
        uint64 (v.written + mirror_round_run env v).toNat
      else v.written
    holds_io := v.holds_io
    tick := v.tick + 1
    trace := v.trace ++ mirror_round_calls env pass v }

/-- The variables of `mirror_runner` at the top of the inner loop of the round
of the `for` loop entered with `pass`. -/
def mirror_pass_begin (pass : Int) (v : mirror_vars) : mirror_vars :=
  { map := v.map
    current := 0
    written := 0
    holds_io := if pass = mirror_maximum_passes - 1 then true else v.holds_io
    tick := v.tick
    trace := v.trace ++ [.pass_start pass] ++
      (if pass = mirror_maximum_passes - 1 then [.server_lock_io] else []) }

/-- The value of `pass` the `for` loop of `mirror_runner` goes on with after a
round entered with `pass` that has written `written` bytes. -/
def mirror_next_pass (pass : Int) (written : Nat) : Int :=
  (if written < mirror_last_pass_after_bytes_written then mirror_maximum_passes - 1 else pass) + 1

/-- The upstream writes among the calls in `trace`: offset, length, and the
offset into the mapping of the buffer that is sent. -/
def mirror_writes : List mirror_event → List (Nat × Int × Nat)
  | [] => []
  | .socket_nbd_write from_ len mapped_offset :: trace =>
    (from_, len, mapped_offset) :: mirror_writes trace
  | _ :: trace => mirror_writes trace

/-- The number of rounds of the `for` loop of `mirror_runner` in `trace`. -/
def passes_started : List mirror_event → Nat
  | [] => 0
  | .pass_start _ :: trace => passes_started trace + 1
  | _ :: trace => passes_started trace

/-- The writes `ws` are consecutive chunks, each not empty and at most
`mirror_longest_write` long, each sending the bytes of the mapping at its own
offset, the first one starting at `start` and the last one ending at `stop`. -/
def chunks_cover : Nat → Nat → List (Nat × Int × Nat) → Prop
  | start, stop, [] => start = stop
  | start, stop, w :: ws =>
    w.1 = start ∧ 0 < w.2.1 ∧ w.2.1 ≤ mirror_longest_write ∧ w.2.2 = w.1 ∧
      chunks_cover (start + w.2.1.toNat) stop ws

instance chunks_cover_decidable :
    ∀ (start stop : Nat) (ws : List (Nat × Int × Nat)), Decidable (chunks_cover start stop ws)
  | start, stop, [] => inferInstanceAs (Decidable (start = stop))
  | start, stop, w :: ws =>
    have := chunks_cover_decidable (start + w.2.1.toNat) stop ws
    inferInstanceAs (Decidable (w.1 = start ∧ 0 < w.2.1 ∧ w.2.1 ≤ mirror_longest_write ∧
      w.2.2 = w.1 ∧ chunks_cover (start + w.2.1.toNat) stop ws))

/-- The bits of `map` that are set are exactly the bits from `lo` up to, and
without, `hi`. -/
def dirty_between (map : bitset_mapping) (lo hi : Nat) : Prop :=
  ∀ i, bit_is_set map.bits i = decide (lo ≤ i ∧ i < hi)

/-! ## Control socket (control.c, ioutil.c) -/

/-- The bytes of a string literal, without its terminating NUL. -/
def ascii (s : String) : List Nat := s.toList.map Char.toNat

/-- The loop of `read_until_newline(fd, buf, bufsize)`, entered with `cur`, the
buffer and what the descriptor still has to deliver (a `read` at the end of the
stream gives 0): the return value, the buffer and the rest of the stream. -/
def read_until_newline_loop (bufsize : Int) : List Nat → Int → Mem → Int × Mem × List Nat
  | [], cur, buf => if cur < bufsize then (-1, buf, []) else (cur + 1, buf, [])
  | c :: stream, cur, buf =>
    if cur < bufsize then
      if c = 10 then (cur + 1, mem_write buf cur.toNat [0], stream)
      else read_until_newline_loop bufsize stream (cur + 1) (mem_write buf cur.toNat [c])
    else (cur + 1, buf, c :: stream)

/-- `read_until_newline(fd, buf, bufsize)`. -/
def read_until_newline (stream : List Nat) (buf : Mem) (bufsize : Int) : Int × Mem × List Nat :=
  read_until_newline_loop bufsize stream 0 buf

/-- The C string at `pos`: the bytes before the first NUL, looking at `limit`
bytes at most. -/
def c_string (buf : Mem) : Nat → Nat → List Nat
  | _, 0 => []
  | pos, limit + 1 => if buf pos = 0 then [] else buf pos :: c_string buf (pos + 1) limit

/-- The `while (1)` loop of `read_lines_until_blankline`, entered with the
stream, the array `line` and the lines kept so far: the lines and the rest of
the stream.  Every round that goes on has read a byte, so `fuel` above the
length of the stream is enough; `none` is running out of it. -/
def read_lines_loop (max_line_length : Int) :
    Nat → List Nat → Mem → List (List Nat) → Option (List (List Nat) × List Nat)
  | 0, _, _, _ => none
  | fuel + 1, stream, line, lines =>
    let readden := read_until_newline stream line max_line_length
    if readden.1 ≤ 1 then some (lines, readden.2.2)
    else
      let copy := c_string readden.2.1 0 (max_line_length.toNat + 1)
      if copy.headD 0 = 0 then some (lines, readden.2.2)
      else read_lines_loop max_line_length fuel readden.2.2 readden.2.1 (lines ++ [copy])

/-- `read_lines_until_blankline(fd, max_line_length, &lines)`: the lines (their
number is the return value) and the rest of the stream. -/
def read_lines_until_blankline (stream : List Nat) (max_line_length : Int) :
    Option (List (List Nat) × List Nat) :=
  read_lines_loop max_line_length (stream.length + 1) stream (fun _ => 0) []

/-- `struct acl` (acl.h is not among the sources; the fields are those
`control_acl` uses): the entries, `len` being their number, and `default_deny`. -/
structure acl where
  entries : List ip_and_mask
  default_deny : Int
deriving DecidableEq

/-- `struct mirror_status` (serve.h is not among the sources; the fields are
those `control_mirror`, `mirror_runner` and `status_create` use). -/
structure mirror_status where
  client : Int
  max_bytes_per_second : Nat
  action_at_finish : mirror_action
  dirty_map : bitset_mapping
  pass : Int

/-- `struct server` (serve.h is not among the sources; the fields are those
control.c, status.c and `server_acl_accepts` use).  `acl_updated_signal` counts
the times the signal of that name has been raised. -/
structure server where
  size : Nat
  success : Int
  has_control : Int
  acl : Option acl
  mirror : Option mirror_status
  acl_updated_signal : Nat

/-- A control connection, `struct control_params`: the socket as what the peer
has sent and the server has not read yet (`socket_in`) and what the server has
written (`socket_out`), the server, and the calls of `socket_connect` (address,
port, bind address) and of `pthread_create` made for this connection. -/
structure control_params where
  socket_in : List Nat
  socket_out : List Nat
  serve : server
  connects : List (sockaddr × Int × Option sockaddr)
  mirror_threads : Nat

/-- What control.c takes from elsewhere: the parser `acl_create` applies to a
line and `parse_ip_to_sockaddr` (parse.h and acl.c are not among the sources),
the descriptor `socket_connect` returns, and the bytes the program image holds
after the terminating NUL of a string literal. -/
structure control_env where
  acl_entry : List Nat → Option ip_and_mask
  parse_ip_to_sockaddr : List Nat → Option sockaddr
  socket_connect : Int
  after_literal : Nat → Nat

/-- `write(fd, literal, count)` for a string literal: its first `count` bytes in
memory, which are its characters, then its terminating NUL, then what follows. -/
def write_literal (after : Nat → Nat) : List Nat → Nat → List Nat
  | _, 0 => []
  | [], count + 1 => 0 :: (List.range count).map after
  | c :: literal, count + 1 => c :: write_literal after literal count

/-- The macro `write_socket(msg)`:
`write(client->socket, (msg "\n"), strlen((msg))+1)`. -/
def write_socket (env : control_env) (client : control_params) (msg : List Nat) :
    control_params :=
  { client with
    socket_out := client.socket_out ++ write_literal env.after_literal (msg ++ [10]) (msg.length + 1) }

/-- `isspace` in the C locale. -/
def isspace (c : Nat) : Bool := c = 32 ∨ (9 ≤ c ∧ c ≤ 13)

/-- The value of the leading decimal digits of a string, after `acc`. -/
def strtol_digits : List Nat → Nat → Nat
  | [], acc => acc
  | c :: s, acc => if 48 ≤ c ∧ c ≤ 57 then strtol_digits s (acc * 10 + (c - 48)) else acc

/-- `strtol(nptr, NULL, 10)` on a 64-bit `long`: white space, a sign, digits;
the value is clamped to the range of `long`. -/
def strtol (nptr : List Nat) : Int :=
  max (-9223372036854775808) (min 9223372036854775807
    (match nptr.dropWhile isspace with
      | 45 :: s => -(strtol_digits s 0 : Int)
      | 43 :: s => (strtol_digits s 0 : Int)
      | s => (strtol_digits s 0 : Int)))

/-- `atoi(nptr)`, which is `(int) strtol(nptr, NULL, 10)`. -/
def atoi (nptr : List Nat) : Int := int32 (strtol nptr)

/-- Modelled from the spec: acl.c is missing.  The entries `acl_create(len, lines,
default_deny)` builds: those of the leading lines that parse, so that `len` of
the result is the index of the first line that does not. -/
def acl_create_entries (parse : List Nat → Option ip_and_mask) : List (List Nat) → List ip_and_mask
  | [] => []
  | line :: lines =>
    match parse line with
    | none => []
    | some entry => entry :: acl_create_entries parse lines

/-- Modelled from the spec: acl.c is missing.  `acl_create(len, lines, default_deny)`. -/
def acl_create (env : control_env) (lines : List (List Nat)) (default_deny : Int) : acl :=
  { entries := acl_create_entries env.acl_entry lines, default_deny := default_deny }

/-- `server_replace_acl(serve, new_acl)` of src/src/serve.c. -/
def server_replace_acl (serve : server) (new_acl : acl) : server :=
  { serve with acl := some new_acl, acl_updated_signal := serve.acl_updated_signal + 1 }

/-- `control_acl(client, linesc, lines)`, `linesc` being the number of `lines`. -/
def control_acl (env : control_env) (client : control_params) (lines : List (List Nat)) :
    Int × control_params :=
  let old_acl := client.serve.acl
  let new_acl := acl_create env lines
    (match old_acl with
      | some a => a.default_deny
      | none => 0)
  if (new_acl.entries.length : Int) ≠ (lines.length : Int) then
    (0, { client with
          socket_out := client.socket_out ++ write_literal env.after_literal (ascii "1: bad spec: ") 13
            ++ lines.getD new_acl.entries.length [] ++ write_literal env.after_literal (ascii "\n") 1 })
  else
    (0, write_socket env { client with serve := server_replace_acl client.serve new_acl }
          (ascii "0: updated"))

/-- The rest of `control_mirror` once the arguments are through: connect, build
the mirror with every block dirty, install it, start the thread, reply.  The
calls that end the process when they fail are taken to succeed. -/
def control_mirror_start (env : control_env) (client : control_params) (connect_to : sockaddr)
    (raw_port : Int) (connect_from : Option sockaddr) (max_bytes_per_second : Nat)
    (action_at_finish : mirror_action) : Int × control_params :=
  let mirror : mirror_status :=
    { client := env.socket_connect
      max_bytes_per_second := max_bytes_per_second
      action_at_finish := action_at_finish
      dirty_map := bitset_set_range (bitset_alloc client.serve.size 4096) 0 client.serve.size
      pass := 0 }
  (0, write_socket env
        { client with
          connects := client.connects ++ [(connect_to, raw_port, connect_from)]
          serve := { client.serve with mirror := some mirror }
          mirror_threads := client.mirror_threads + 1 }
        (ascii "0: mirror started"))

/-- `control_mirror(client, linesc, lines)`, `linesc` being the number of `lines`. -/
def control_mirror (env : control_env) (client : control_params) (lines : List (List Nat)) :
    Int × control_params :=
  let linesc : Int := lines.length
  if linesc < 2 then
    (-1, write_socket env client (ascii "1: mirror takes at least two parameters"))
  else
    match env.parse_ip_to_sockaddr (lines.getD 0 []) with
    | none => (-1, write_socket env client (ascii "1: bad IP address"))
    | some connect_to =>
      let raw_port := atoi (lines.getD 1 [])
      if raw_port < 0 ∨ raw_port > 65535 then
        (-1, write_socket env client (ascii "1: bad IP port number"))
      else
        let connect_from : Option sockaddr :=
          if linesc > 2 then env.parse_ip_to_sockaddr (lines.getD 2 []) else none
        if linesc > 2 ∧ connect_from = none then
          (-1, write_socket env client (ascii "1: bad bind address"))
        else
          let max_bytes_per_second : Nat :=
            if linesc > 3 then size_t (atoi (lines.getD 2 [])) else 0
          if linesc > 4 ∧ lines.getD 3 [] ≠ ascii "exit" ∧ lines.getD 3 [] ≠ ascii "nothing" then
            (-1, write_socket env client (ascii "1: action must be 'exit' or 'nothing'"))
          else
            let action_at_finish : mirror_action :=
              if linesc > 4 then
                if lines.getD 3 [] = ascii "exit" then .ACTION_EXIT else .ACTION_NOTHING
              else .ACTION_EXIT
            if linesc > 5 then
              (-1, write_socket env client (ascii "1: unrecognised parameters to mirror"))
            else
              control_mirror_start env client connect_to raw_port connect_from
                max_bytes_per_second action_at_finish

/-- `control_status(client, linesc, lines)`: its body is `return 0;`. -/
def control_status (client : control_params) (_lines : List (List Nat)) : Int × control_params :=
  (0, client)

/-- One round of the loop of `control_serve` after `read_lines_until_blankline`
has given `lines`: whether `finished` is set, and the connection. -/
def control_serve_command (env : control_env) (client : control_params)
    (lines : List (List Nat)) : Bool × control_params :=
  if (lines.length : Int) < 1 then
    (true, { client with
             socket_out := client.socket_out
               ++ write_literal env.after_literal (ascii "9: missing command\n") 19 })
  else if lines.getD 0 [] = ascii "acl" then
    (decide ((control_acl env client lines.tail).1 < 0), (control_acl env client lines.tail).2)
  else if lines.getD 0 [] = ascii "mirror" then
    (decide ((control_mirror env client lines.tail).1 < 0),
      (control_mirror env client lines.tail).2)
  else if lines.getD 0 [] = ascii "status" then
    (decide ((control_status client lines.tail).1 < 0), (control_status client lines.tail).2)
  else
    (true, { client with
             socket_out := client.socket_out
               ++ write_literal env.after_literal (ascii "10: unknown command\n") 23 })

/-- The loop `while (!finished)` of `control_serve`.  A round that does not
finish has read a byte, so `fuel` above the length of the input is enough;
`out_of_fuel` is running out of it. -/
def control_serve_loop (env : control_env) : Nat → control_params → Status × control_params
  | 0, client => (.out_of_fuel, client)
  | fuel + 1, client =>
    match read_lines_until_blankline client.socket_in 256 with
    | none => (.out_of_fuel, client)
    | some (lines, rest) =>
      let r := control_serve_command env { client with socket_in := rest } lines
      if r.1 then (.ok, r.2) else control_serve_loop env fuel r.2

/-- `control_serve(client)`: the loop, then `control_cleanup`, which closes the
socket; `ok` stands for having got there. -/
def control_serve (env : control_env) (client : control_params) : Status × control_params :=
  control_serve_loop env (client.socket_in.length + 1) client

/-- A test double for what control.c takes from elsewhere: the lines `bad` and
`exit` do not parse as ACL entries, every other line gives 10.0.0.0/8; the
addresses 127.0.0.1 and 127.0.0.2 parse; `socket_connect` gives descriptor 5;
the byte after a string literal is `'X'` and those after it are zero. -/
def control_env0 : control_env :=
  { acl_entry := fun line =>
      if line = ascii "bad" ∨ line = ascii "exit" then none else some acl_10_0_0_0_8
    parse_ip_to_sockaddr := fun line =>
      if line = ascii "127.0.0.1" then some (ipv4 127 0 0 1)
      else if line = ascii "127.0.0.2" then some (ipv4 127 0 0 2)
      else none
    socket_connect := 5
    after_literal := fun i => if i = 0 then 88 else 0 }

/-- A server of a 8192-byte file with no ACL and no mirror. -/
def server0 : server :=
  { size := 8192, success := 1, has_control := 1, acl := none, mirror := none,
    acl_updated_signal := 0 }

/-- A fresh control connection to `server0` on which the peer has sent `socket_in`. -/
def control0 (socket_in : List Nat) : control_params :=
  { socket_in := socket_in, socket_out := [], serve := server0, connects := [],
    mirror_threads := 0 }

/-- The tests of `control_mirror` that end in `return -1`, in its order: fewer
than two lines, `lines[0]` no address, `atoi(lines[1])` outside 0..65535, a
third line that is no address, with more than four lines a `lines[3]` that is
neither `exit` nor `nothing`, more than five lines. -/
def control_mirror_rejects (env : control_env) (lines : List (List Nat)) : Prop :=
  lines.length < 2 ∨ env.parse_ip_to_sockaddr (lines.getD 0 []) = none ∨
    (atoi (lines.getD 1 []) < 0 ∨ atoi (lines.getD 1 []) > 65535) ∨
    (2 < lines.length ∧ env.parse_ip_to_sockaddr (lines.getD 2 []) = none) ∨
    (4 < lines.length ∧ lines.getD 3 [] ≠ ascii "exit" ∧ lines.getD 3 [] ≠ ascii "nothing") ∨
    5 < lines.length

/-- The messages `control_mirror` passes to `write_socket` before `return -1`. -/
def control_mirror_errors : List (List Nat) :=
  [ascii "1: mirror takes at least two parameters", ascii "1: bad IP address",
   ascii "1: bad IP port number", ascii "1: bad bind address",
   ascii "1: action must be 'exit' or 'nothing'", ascii "1: unrecognised parameters to mirror"]

/-! ## Access check of the server (src/src/serve.c) -/

/-- Modelled from the spec: acl.c is missing.  `acl_includes(acl, addr)`: 1 when
an entry matches the address, as `is_included_in_acl` has it, and on no match
the negation of `default_deny`. -/
def acl_includes (a : acl) (addr : sockaddr) : Int :=
  if is_included_in_acl a.entries addr ≠ 0 then 1
  else if a.default_deny ≠ 0 then 0 else 1

/-- `server_acl_accepts(params, client_address)`:
`accepted = acl ? acl_includes( acl, client_address ) : 1`. -/
def server_acl_accepts (params : server) (client_address : sockaddr) : Int :=
  match params.acl with
  | some a => acl_includes a client_address
  | none => 1

/-- The test of `serve_accept_loop` in src/serve.c that turns a client away:
`params->acl && !is_included_in_acl(params->acl_entries, params->acl, &client_address)`,
the ACL being `none` for a NULL pointer. -/
def serve_accept_loop_rejects (acl : Option (List ip_and_mask)) (client_address : sockaddr) :
    Bool :=
  match acl with
  | none => false
  | some list => decide (is_included_in_acl list client_address = 0)

/-! ## Status reports (status.c) -/

/-- The fields of `struct status` that status.c fills and prints. -/
structure status where
  pid : Int
  size : Nat
  has_control : Int
  is_mirroring : Int
  migration_pass : Int
deriving DecidableEq

/-- `status_create(serve)`, `pid` being what `getpid()` returns.  The struct
comes from `xmalloc`, which zeroes it, so `migration_pass` is 0 when it is not
assigned. -/
def status_create (pid : Int) (serve : server) : status :=
  { pid := pid
    size := serve.size
    has_control := serve.success
    is_mirroring := if serve.mirror.isSome then 1 else 0
    migration_pass :=
      match serve.mirror with
      | some mirror => mirror.pass
      | none => 0 }

/-- The decimal digits of `n` in front of `acc`, most significant first; `fuel`
above the number of digits is enough. -/
def decimal_loop : Nat → Nat → List Nat → List Nat
  | 0, _, acc => acc
  | fuel + 1, n, acc =>
    if n < 10 then (48 + n) :: acc else decimal_loop fuel (n / 10) ((48 + n % 10) :: acc)

/-- What `printf` gives for an unsigned decimal conversion such as `PRIu64`. -/
def decimal (n : Nat) : List Nat := decimal_loop (n + 1) n []

/-- What `printf` gives for `%d`. -/
def printf_d (v : Int) : List Nat := if v < 0 then 45 :: decimal (-v).toNat else decimal v.toNat

/-- The macro `BOOL_S(var)`. -/
def BOOL_S (var : Int) : List Nat := if var ≠ 0 then ascii "true" else ascii "false"

/-- The macro `PRINT_BOOL(var)`: `dprintf( fd, #var "=%s ", BOOL_S( status->var ) )`. -/
def PRINT_BOOL (label : List Nat) (var : Int) : List Nat :=
  label ++ ascii "=" ++ BOOL_S var ++ ascii " "

/-- The macro `PRINT_INT(var)`: `dprintf( fd, #var "=%d ", status->var )`. -/
def PRINT_INT (label : List Nat) (var : Int) : List Nat :=
  label ++ ascii "=" ++ printf_d var ++ ascii " "

/-- The macro `PRINT_UINT64(var)`: `dprintf( fd, #var "=%"PRIu64" ", status->var )`. -/
def PRINT_UINT64 (label : List Nat) (var : Nat) : List Nat :=
  label ++ ascii "=" ++ decimal var ++ ascii " "

/-- `status_write(status, fd)`: the return value and what `fd` has received,
having received `fd` before. -/
def status_write (st : status) (fd : List Nat) : Int × List Nat :=
  (1, fd ++ PRINT_INT (ascii "pid") st.pid ++ PRINT_UINT64 (ascii "size") st.size
        ++ PRINT_BOOL (ascii "is_mirroring") st.is_mirroring
        ++ PRINT_BOOL (ascii "has_control") st.has_control
        ++ (if st.is_mirroring ≠ 0 then PRINT_INT (ascii "migration_pass") st.migration_pass
            else [])
        ++ ascii "\n")

/-- Modelled from the spec: the label and value pairs of the status line, the
booleans as `true` and `false`, `migration_pass` only when mirroring. -/
def status_pairs (st : status) : List (List Nat × List Nat) :=
  [(ascii "pid", printf_d st.pid), (ascii "size", decimal st.size),
   (ascii "is_mirroring", if st.is_mirroring ≠ 0 then ascii "true" else ascii "false"),
   (ascii "has_control", if st.has_control ≠ 0 then ascii "true" else ascii "false")]
    ++ (if st.is_mirroring ≠ 0 then [(ascii "migration_pass", printf_d st.migration_pass)]
        else [])

/-- Modelled from the spec: one line of `label=value` pairs separated by
spaces (`A=B C=D`), terminated by a newline. -/
def status_line_spec (st : status) : List Nat :=
  List.intercalate (ascii " ") ((status_pairs st).map (fun p => p.1 ++ ascii "=" ++ p.2))
    ++ ascii "\n"

/-- A status value: pid 1234 serving 8192 bytes with control, not mirroring. -/
def status0 : status :=
  { pid := 1234, size := 8192, has_control := 1, is_mirroring := 0, migration_pass := 0 }

/-! ## Client table (src/src/serve.c) -/

/-- `struct client_tbl_entry` (serve.h is not among the sources; the fields are
those serve.c uses): the thread handle, 0 for a free slot, and of the session
`client` whether its stop signal has been raised and whether it has been
destroyed. -/
structure client_tbl_entry where
  thread : Nat
  stopped : Bool
  destroyed : Bool
deriving DecidableEq

/-- The client table of a server: `nbd_client` by index, of which the slots
`0 .. MAX_NBD_CLIENTS - 1` are the array and the others are what lies after it
in memory, and the indices of the entries that have been handed to
`tryjoin_client_thread`, in order. -/
structure client_table where
  nbd_client : Nat → client_tbl_entry
  joins : List Nat

/-- What the thread library and the rest of the process give: the values
`pthread_tryjoin_np` and `pthread_join` return for a thread handle (0 when the
thread has been joined, else an error number), and what `errno` holds when
`tryjoin_client_thread` reads it for the slot of an index. -/
structure thread_env where
  pthread_tryjoin_np : Nat → Int
  pthread_join : Nat → Int
  errno : Nat → Int

/-- The error number `EBUSY`. -/
def EBUSY : Int := 16

/-- `tryjoin_client_thread(entry, joinfunc)` on the entry of index `i`: `none` is
leaving through `SERVER_ERROR_ON_FAILURE(-1, ...)`, otherwise the table with the
entry as it is left; the return value `was_closed` is used by no caller. -/
def tryjoin_client_thread (env : thread_env) (joinfunc : Nat → Int) (t : client_table)
    (i : Nat) : Option client_table :=
  let entry := t.nbd_client i
  let t := { t with joins := t.joins ++ [i] }
  if entry.thread ≠ 0 then
    if joinfunc entry.thread ≠ 0 then
      if env.errno i ≠ EBUSY then none else some t
    else
      some { t with
             nbd_client := fun k =>
               if k = i then { entry with thread := 0, destroyed := true } else t.nbd_client k }
  else some t

/-- `cleanup_client_thread(entry)`. -/
def cleanup_client_thread (env : thread_env) (t : client_table) (i : Nat) : Option client_table :=
  tryjoin_client_thread env env.pthread_tryjoin_np t i

/-- `join_client_thread(entry)`. -/
def join_client_thread (env : thread_env) (t : client_table) (i : Nat) : Option client_table :=
  tryjoin_client_thread env env.pthread_join t i

/-- The first loop of `cleanup_and_find_client_slot`, `for ( i = 0; i <
MAX_NBD_CLIENTS; i++ )`, with `n` rounds to go from `i`. -/
def cleanup_client_threads (env : thread_env) : Nat → Nat → client_table → Option client_table
  | 0, _, t => some t
  | n + 1, i, t =>
    match cleanup_client_thread env t i with
    | none => none
    | some t => cleanup_client_threads env n (i + 1) t

/-- The second loop of `cleanup_and_find_client_slot`, with `n` rounds to go from
`j` and `slot` still -1: the value of `slot` after it. -/
def find_client_slot (t : client_table) : Nat → Nat → Int
  | 0, _ => -1
  | n + 1, j => if (t.nbd_client j).thread = 0 then j else find_client_slot t n (j + 1)

/-- `cleanup_and_find_client_slot(params)` for a table of `MAX_NBD_CLIENTS` slots
(serve.h is not among the sources, the number is a parameter): the slot it
returns and the table, or `none` when it leaves through a server error. -/
def cleanup_and_find_client_slot (env : thread_env) (MAX_NBD_CLIENTS : Nat) (t : client_table) :
    Option (Int × client_table) :=
  match cleanup_client_threads env MAX_NBD_CLIENTS 0 t with
  | none => none
  | some t => some (find_client_slot t MAX_NBD_CLIENTS 0, t)

/-- The first loop of `server_close_clients`, with `n` rounds to go from `i`: the
value of `i` after it, and the table. -/
def server_close_clients_stop : Nat → Nat → client_table → Nat × client_table
  | 0, i, t => (i, t)
  | n + 1, i, t =>
    server_close_clients_stop n (i + 1)
      (if (t.nbd_client i).thread ≠ 0 then
        { t with
          nbd_client := fun k =>
            if k = i then { t.nbd_client i with stopped := true } else t.nbd_client k }
      else t)

/-- The second loop of `server_close_clients`, `for( j = 0; j < MAX_NBD_CLIENTS;
j++ ) join_client_thread( &params->nbd_client[i] )`, with `n` rounds to go and
`i` as the first loop has left it. -/
def server_close_clients_join (env : thread_env) (i : Nat) : Nat → client_table →
    Option client_table
  | 0, t => some t
  | n + 1, t =>
    match join_client_thread env t i with
    | none => none
    | some t => server_close_clients_join env i n t

/-- `server_close_clients(params)` for a table of `MAX_NBD_CLIENTS` slots. -/
def server_close_clients (env : thread_env) (MAX_NBD_CLIENTS : Nat) (t : client_table) :
    Option client_table :=
  server_close_clients_join env (server_close_clients_stop MAX_NBD_CLIENTS 0 t).1
    MAX_NBD_CLIENTS (server_close_clients_stop MAX_NBD_CLIENTS 0 t).2

/-- A client table whose slot 0 holds a session with thread handle 7, every
other slot, and the memory after the array, holding no thread. -/
def client_table0 : client_table :=
  { nbd_client := fun i =>
      if i = 0 then { thread := 7, stopped := false, destroyed := false }
      else { thread := 0, stopped := false, destroyed := false }
    joins := [] }

/-- Threads that can be joined: both join functions return 0; `errno` is 0. -/
def thread_env_finished : thread_env :=
  { pthread_tryjoin_np := fun _ => 0, pthread_join := fun _ => 0, errno := fun _ => 0 }

/-- Threads that are still running: `pthread_tryjoin_np` returns `EBUSY`, which
it does not store in `errno`; `errno` is 0. -/
def thread_env_running : thread_env :=
  { pthread_tryjoin_np := fun _ => EBUSY, pthread_join := fun _ => 0, errno := fun _ => 0 }

/-! ## Lock discipline of the mirror -/

/-- Whether the calls of `server_lock_io` and `server_unlock_io` in `trace` are
balanced for a thread that holds `l_io` or not as `held` says: no unlock
without holding the lock, no lock while holding it, nothing held at the end. -/
def locks_balanced : Bool → List mirror_event → Bool
  | held, [] => !held
  | held, .server_lock_io :: trace => !held && locks_balanced true trace
  | held, .server_unlock_io :: trace => held && locks_balanced false trace
  | held, _ :: trace => locks_balanced held trace

/-! ## Allocation maps and stacks for the sparse write path -/

/-- An allocation map in which only bit 1, the block of bytes 4096 .. 8191, is set. -/
def map_block1 : Mem := fun a => if a = 0 then 2 else 0

/-- An allocation map in which only bit 511 is set. -/
def map_bit511 : Mem := fun a => if a = 63 then 128 else 0

/-- Stack memory in which the second byte of `zerobuffer` holds 7, left by an
earlier use, and everything else is zero. -/
def stack_leftover : Mem := fun a => if a = 1 then 7 else 0

/-- Threads that are still running, in a process whose `errno` happens to hold
`EBUSY` when it is read. -/
def thread_env_busy : thread_env :=
  { pthread_tryjoin_np := fun _ => EBUSY, pthread_join := fun _ => 0, errno := fun _ => EBUSY }

/-- The entry 192.168.1.0/24. -/
def acl_192_168_1_0_24 : ip_and_mask :=
  { ip := { sa_family := .AF_INET, raw_address := [192, 168, 1, 0] }, mask := 24 }

/-! ## The bitset tests (tests/unit/check_bitset.c) -/

/-- The `uint64_t` at the start of a bit buffer, as `test_bitset` reads it through
`num` on a little-endian machine. -/
def bitset_word (map : bitset_mapping) : Nat := betoh (mem_read map.bits 0 8).reverse

/-- The run lengths `runs` of `test_bit_runs`. -/
def test_bit_runs_lengths : List Nat :=
  [56, 97, 22, 12, 83, 1, 45, 80, 85, 51, 64, 40, 63, 67, 75, 64, 94, 81, 79, 62]

/-- The first loop of `test_bit_runs`: from `ptr` on, skip a run and set the next
one with `bit_set_range`, for every pair of `runs`. -/
def test_bit_runs_build : List Nat → Nat → Mem → Mem
  | skip :: len :: runs, ptr, buffer =>
    test_bit_runs_build runs (ptr + skip + len) (bit_set_range buffer (ptr + skip) len)
  | _, _, buffer => buffer

/-- The buffer `test_bit_runs` builds from 256 zero bytes. -/
def test_bit_runs_buffer : Mem := test_bit_runs_build test_bit_runs_lengths 0 (fun _ => 0)

/-- Walking a bit buffer of `limit` bits from `ptr` by the run counts, `n` times:
the counts `bit_run_count(buffer, ptr, limit - ptr)` returns, each added to
`ptr` for the next. -/
def bit_runs_walk (buffer : Mem) (limit : Nat) : Nat → Nat → List Nat
  | 0, _ => []
  | n + 1, ptr =>
    bit_run_count buffer ptr (limit - ptr) ::
      bit_runs_walk buffer limit n (ptr + bit_run_count buffer ptr (limit - ptr))

/-! ## Allocation map builder (ioutil.c) -/

/-- The fields of `struct fiemap_extent` that `build_allocation_map` reads. -/
structure fiemap_extent where
  fe_logical : Nat
  fe_length : Nat
deriving DecidableEq

/-- One call of `ioctl( fd, FS_IOC_FIEMAP, fiemap )` by `build_allocation_map`:
`fm_start` and `fm_length` as it has set them, and what came back, `none` for a
negative return value, otherwise the `fm_mapped_extents` extents of
`fm_extents`. -/
structure fiemap_query where
  fm_start : Nat
  fm_length : Nat
  extents : Option (List fiemap_extent)
deriving DecidableEq

/-- The constant `max_length` of `build_allocation_map`. -/
def max_length : Nat := 100 * 1024 * 1024

/-- The loop `for ( i = 0; i < fiemap->fm_mapped_extents; i++ )` of
`build_allocation_map`. -/
def build_allocation_map_extents (map : bitset_mapping) : List fiemap_extent → bitset_mapping
  | [] => map
  | extent :: extents =>
    build_allocation_map_extents (bitset_set_range map extent.fe_logical extent.fe_length) extents

/-- What `build_allocation_map` sets `offset` to after a query that succeeded. -/
def build_allocation_map_next (offset fm_length : Nat) (extents : List fiemap_extent) : Nat :=
  match extents.getLast? with
  | some last => uint64 (last.fe_logical + last.fe_length)
  | none => uint64 (offset + fm_length)

/-- The loop `for (offset = 0; offset < allocation_map->size; )` of
`build_allocation_map`, entered with `offset`, the map and the queries made so
far; `ioctl` is what the file system answers to a query from `fm_start` of
length `fm_length`.  The result is the return value, the map (`none` once it
has been freed) and the queries; `none` is running out of `fuel`. -/
def build_allocation_map_loop (ioctl : Nat → Nat → Option (List fiemap_extent)) :
    Nat → Nat → bitset_mapping → List fiemap_query →
      Option (Int × Option bitset_mapping × List fiemap_query)
  | 0, offset, map, queries =>
    if offset < map.size then none else some (1, some map, queries)
  | fuel + 1, offset, map, queries =>
    if offset < map.size then
      let fm_length :=
        if uint64 (offset + max_length) > map.size then map.size - offset else max_length
      match ioctl offset fm_length with
      | none =>
        some (0, none, queries ++ [{ fm_start := offset, fm_length := fm_length, extents := none }])
      | some extents =>
        build_allocation_map_loop ioctl fuel (build_allocation_map_next offset fm_length extents)
          (build_allocation_map_extents map extents)
          (queries ++ [{ fm_start := offset, fm_length := fm_length, extents := some extents }])
    else some (1, some map, queries)

/-- `build_allocation_map(allocation_map, fd)`.  The offset grows with every
query that succeeds, so as many rounds as the map has bytes are enough. -/
def build_allocation_map (ioctl : Nat → Nat → Option (List fiemap_extent))
    (allocation_map : bitset_mapping) :
    Option (Int × Option bitset_mapping × List fiemap_query) :=
  build_allocation_map_loop ioctl allocation_map.size 0 allocation_map []

/-- The queries `queries` follow each other from `offset` on a map of `size`
bytes: each starts where the one before has left the offset, which is the end
of its last extent or, when it gave none, its own end; each asks for at most
`max_length` bytes and not past `size`; nothing follows one that failed. -/
def queries_chained (size : Nat) : Nat → List fiemap_query → Prop
  | _, [] => True
  | offset, query :: queries =>
    query.fm_start = offset ∧ query.fm_length ≤ max_length ∧
      query.fm_start + query.fm_length ≤ size ∧
      match query.extents with
      | none => queries = []
      | some extents =>
        queries_chained size (build_allocation_map_next offset query.fm_length extents) queries

/-- A file system that reports one extent of 4096 bytes at the start of the file
and nothing after it. -/
def ioctl_one_extent : Nat → Nat → Option (List fiemap_extent) :=
  fun fm_start _ => if fm_start = 0 then some [{ fe_logical := 0, fe_length := 4096 }] else some []

/-- A file system whose extent query fails. -/
def ioctl_fails : Nat → Nat → Option (List fiemap_extent) := fun _ _ => none

/-! ## Theorems -/

theorem readloop_append (raw rest : List Nat) (n : Nat) (h : raw.length = n) :
    readloop (raw ++ rest) n = (0, raw, rest) := by
  subst h
  simp [readloop]

theorem uint64_of_lt (x : Nat) (h : x < 18446744073709551616) : uint64 x = x := by
  unfold uint64
  omega

theorem int64_of_lt (x : Nat) (h : x < 9223372036854775808) : int64 (x : Int) = (x : Int) := by
  unfold int64
  omega

/-- What the range check of `client_serve_request` does: a READ or WRITE with
valid magic whose `from + len`, reduced modulo 2^64, is above the size gets
one reply with error 1 and nothing else happens. -/
theorem client_serve_request_out_of_range (client : client_params) (stack : Mem)
    (raw rest : List Nat) (hin : client.socket_in = raw ++ rest) (hraw : raw.length = 28)
    (hmagic : (nbd_request_of_bytes raw).magic = REQUEST_MAGIC)
    (htype : (nbd_request_of_bytes raw).type = REQUEST_READ ∨
      (nbd_request_of_bytes raw).type = REQUEST_WRITE)
    (hrange : uint64 ((nbd_request_of_bytes raw).from_ + (nbd_request_of_bytes raw).len) >
      client.size) :
    client_serve_request client stack =
      (.ret 0, { client with
        socket_in := rest
        socket_out := client.socket_out ++
          nbd_reply_bytes REPLY_MAGIC 1 (nbd_request_of_bytes raw).handle }) := by
  unfold client_serve_request
  rw [hin, readloop_append raw rest 28 hraw]
  simp [hmagic, htype, hrange]

/-- C1 (fails on the code): file size 4096, READ with valid magic, offset 2^64 - 1
and length 1.  Offset plus length is above the size, yet the sum the code
compares is taken modulo 2^64 and is 0: the request passes the range check, the
reply that is written carries error 0, and the session ends through
`CLIENT_ERROR` when `sendfileloop` fails on the negative offset. -/
theorem C1_range_check_wraps_around :
    (nbd_request_of_bytes (request_bytes REQUEST_READ handle0 18446744073709551615 1)).magic
        = REQUEST_MAGIC ∧
      (nbd_request_of_bytes (request_bytes REQUEST_READ handle0 18446744073709551615 1)).from_ +
        (nbd_request_of_bytes (request_bytes REQUEST_READ handle0 18446744073709551615 1)).len
        > 4096 ∧
      (client_serve_request
        (session0 4096 none (request_bytes REQUEST_READ handle0 18446744073709551615 1))
        (fun _ => 0)).1 = .client_error ∧
      (client_serve_request
        (session0 4096 none (request_bytes REQUEST_READ handle0 18446744073709551615 1))
        (fun _ => 0)).2.socket_out = nbd_reply_bytes REPLY_MAGIC 0 handle0 := by
  decide

/-! ### Access control -/

theorem testBit_eq_false_of_lt_256 (x j : Nat) (hx : x < 256) (hj : 8 ≤ j) :
    x.testBit j = false := by
  apply Nat.testBit_lt_two_pow
  calc x < 2 ^ 8 := by simpa using hx
    _ ≤ 2 ^ j := Nat.pow_le_pow_right (by decide) hj

theorem byte_eq_iff_testBit (x y : Nat) (hx : x < 256) (hy : y < 256) :
    x = y ↔ ∀ j, j < 8 → x.testBit j = y.testBit j := by
  constructor
  · rintro rfl j _
    rfl
  · intro h
    apply Nat.eq_of_testBit_eq
    intro i
    by_cases hi : i < 8
    · exact h i hi
    · rw [testBit_eq_false_of_lt_256 x i hx (by omega),
        testBit_eq_false_of_lt_256 y i hy (by omega)]

theorem testmasks_testBit (t : Nat) (ht : t < 8) (j : Nat) :
    (testmasks.getD t 0).testBit j = decide (8 - t ≤ j ∧ j < 8) := by
  by_cases hj : j < 8
  · interval_cases t <;> interval_cases j <;> decide
  · have h256 : testmasks.getD t 0 < 256 := by interval_cases t <;> decide
    rw [testBit_eq_false_of_lt_256 _ j h256 (by omega)]
    simp [hj]

theorem masked_eq_iff (t : Nat) (ht : t < 8) (x y : Nat) :
    x &&& testmasks.getD t 0 = y &&& testmasks.getD t 0 ↔
      ∀ i, i < t → x.testBit (7 - i) = y.testBit (7 - i) := by
  constructor
  · intro h i hi
    have hb := congrArg (fun v => Nat.testBit v (7 - i)) h
    simp only [Nat.testBit_and, testmasks_testBit t ht] at hb
    have hm : decide (8 - t ≤ 7 - i ∧ 7 - i < 8) = true := by
      simp only [decide_eq_true_eq]
      omega
    rw [hm] at hb
    simpa using hb
  · intro h
    apply Nat.eq_of_testBit_eq
    intro j
    simp only [Nat.testBit_and, testmasks_testBit t ht]
    by_cases hj : 8 - t ≤ j ∧ j < 8
    · have hx := h (7 - j) (by omega)
      have h7 : 7 - (7 - j) = j := by omega
      rw [h7] at hx
      rw [hx]
    · rw [decide_eq_false hj, Bool.and_false, Bool.and_false]

theorem acl_testbits_loop_nonpos (testbits : Int) (h : testbits ≤ 0) (a b : List Nat) :
    acl_testbits_loop testbits a b = true := by
  rw [acl_testbits_loop]
  simp [not_lt.mpr h]

theorem address_bit_head (a : List Nat) (i : Nat) (hi : i < 8) :
    address_bit a i = (a.headD 0).testBit (7 - i) := by
  unfold address_bit
  have h0 : i / 8 = 0 := by omega
  have h1 : i % 8 = i := by omega
  rw [h0, h1]
  cases a <;> rfl

theorem address_bit_tail (a : List Nat) (i : Nat) :
    address_bit a.tail i = address_bit a (i + 8) := by
  unfold address_bit
  have h0 : (i + 8) / 8 = i / 8 + 1 := by omega
  have h1 : (i + 8) % 8 = i % 8 := by omega
  rw [h0, h1]
  cases a <;> simp

theorem headD_lt_256 (a : List Nat) (ha : ∀ x ∈ a, x < 256) : a.headD 0 < 256 := by
  cases a with
  | nil => simp
  | cons x xs => exact ha x (by simp)

theorem tail_lt_256 (a : List Nat) (ha : ∀ x ∈ a, x < 256) : ∀ x ∈ a.tail, x < 256 :=
  fun x hx => ha x (List.mem_of_mem_tail hx)

/-- The loop over `testbits` falls through exactly when the two addresses agree
on their first `n` bits. -/
theorem acl_testbits_loop_iff (n : Nat) :
    ∀ a b : List Nat, (∀ x ∈ a, x < 256) → (∀ x ∈ b, x < 256) →
      (acl_testbits_loop (n : Int) a b = true ↔ leading_bits_equal n a b) := by
  induction n using Nat.strong_induction_on with
  | _ n ih =>
    intro a b ha hb
    rw [acl_testbits_loop]
    by_cases hn : (n : Int) > 0
    · rw [dif_pos hn]
      by_cases h8 : (n : Int) ≥ 8
      · rw [if_pos h8]
        have hn8 : 8 ≤ n := by omega
        by_cases hne : a.headD 0 ≠ b.headD 0
        · rw [if_pos hne]
          simp only [Bool.false_eq_true, false_iff]
          intro hle
          apply hne
          rw [byte_eq_iff_testBit _ _ (headD_lt_256 a ha) (headD_lt_256 b hb)]
          intro j hj
          have := hle (7 - j) (by omega)
          rw [address_bit_head a _ (by omega), address_bit_head b _ (by omega)] at this
          have h7 : 7 - (7 - j) = j := by omega
          rwa [h7] at this
        · rw [if_neg hne]
          have heq : a.headD 0 = b.headD 0 := not_not.mp hne
          have hcast : (n : Int) - 8 = ((n - 8 : Nat) : Int) := by omega
          rw [hcast, ih (n - 8) (by omega) a.tail b.tail (tail_lt_256 a ha) (tail_lt_256 b hb)]
          constructor
          · intro h i hi
            by_cases hi8 : i < 8
            · rw [address_bit_head a i hi8, address_bit_head b i hi8, heq]
            · have := h (i - 8) (by omega)
              rw [address_bit_tail, address_bit_tail] at this
              have hi' : i - 8 + 8 = i := by omega
              rwa [hi'] at this
          · intro h i hi
            rw [address_bit_tail, address_bit_tail]
            exact h (i + 8) (by omega)
      · rw [if_neg h8]
        have hn8 : n < 8 := by omega
        have hmod : ((n : Int) % 8).toNat = n := by omega
        rw [hmod]
        by_cases hne : a.headD 0 &&& testmasks.getD n 0 ≠ b.headD 0 &&& testmasks.getD n 0
        · rw [if_pos hne]
          simp only [Bool.false_eq_true, false_iff]
          intro hle
          apply hne
          rw [masked_eq_iff n hn8]
          intro i hi
          have := hle i hi
          rwa [address_bit_head a i (by omega), address_bit_head b i (by omega)] at this
        · rw [if_neg hne]
          rw [acl_testbits_loop_nonpos _ (by omega)]
          simp only [true_iff]
          have heq := (masked_eq_iff n hn8 _ _).mp (not_not.mp hne)
          intro i hi
          rw [address_bit_head a i (by omega), address_bit_head b i (by omega)]
          exact heq i hi
    · rw [dif_neg hn]
      have h0 : n = 0 := by omega
      subst h0
      simp [leading_bits_equal]

theorem acl_testbits_loop_iff_mask (mask : Int) (a b : List Nat)
    (ha : ∀ x ∈ a, x < 256) (hb : ∀ x ∈ b, x < 256) :
    acl_testbits_loop mask a b = true ↔ leading_bits_equal mask.toNat a b := by
  by_cases h : 0 ≤ mask
  · have hcast : mask = ((mask.toNat : Nat) : Int) := by omega
    conv_lhs => rw [hcast]
    exact acl_testbits_loop_iff mask.toNat a b ha hb
  · rw [acl_testbits_loop_nonpos mask (by omega)]
    have h0 : mask.toNat = 0 := by omega
    rw [h0]
    simp [leading_bits_equal]

theorem leading_bits_equal_symm (n : Nat) (a b : List Nat) :
    leading_bits_equal n a b ↔ leading_bits_equal n b a := by
  constructor <;> intro h i hi <;> exact (h i hi).symm

theorem is_included_in_acl_eq_zero_or_one (list : List ip_and_mask) (test : sockaddr) :
    is_included_in_acl list test = 0 ∨ is_included_in_acl list test = 1 := by
  induction list with
  | nil => left; rfl
  | cons entry list ih =>
    unfold is_included_in_acl
    split
    · exact ih
    · split
      · right; rfl
      · exact ih

/-- C2: on well-formed addresses (the length of the family, bytes below 256) and
masks from 0 to the width of the family, `is_included_in_acl` returns 1 if and
only if some entry has the family of the address and agrees with it on the
entry's first `mask` bits, and returns 0 otherwise. -/
theorem C2_is_included_in_acl_iff (list : List ip_and_mask) (test : sockaddr)
    (hlist : ∀ e ∈ list, e.wf) (htest : test.wf) :
    (is_included_in_acl list test = 1 ↔ acl_spec_includes list test) ∧
      (is_included_in_acl list test = 0 ↔ ¬ acl_spec_includes list test) := by
  have key : is_included_in_acl list test = 1 ↔ acl_spec_includes list test := by
    induction list with
    | nil => simp [is_included_in_acl, acl_spec_includes]
    | cons entry list ih =>
      have hrest := ih (fun e he => hlist e (List.mem_cons_of_mem _ he))
      have hentry := hlist entry (List.mem_cons_self _ _)
      have hloop := acl_testbits_loop_iff_mask entry.mask test.raw_address entry.ip.raw_address
        htest.2 hentry.1.2
      unfold is_included_in_acl
      unfold acl_spec_includes at hrest ⊢
      by_cases hfam : test.sa_family ≠ entry.ip.sa_family
      · rw [if_pos hfam, hrest]
        constructor
        · rintro ⟨e, he, h⟩
          exact ⟨e, List.mem_cons_of_mem _ he, h⟩
        · rintro ⟨e, he, h⟩
          rcases List.mem_cons.mp he with rfl | he'
          · exact absurd h.1.symm hfam
          · exact ⟨e, he', h⟩
      · rw [if_neg hfam]
        by_cases hm : acl_testbits_loop entry.mask test.raw_address entry.ip.raw_address = true
        · rw [if_pos hm]
          simp only [true_iff]
          exact ⟨entry, List.mem_cons_self _ _, (not_not.mp hfam).symm,
            (leading_bits_equal_symm _ _ _).mp (hloop.mp hm)⟩
        · rw [if_neg hm, hrest]
          constructor
          · rintro ⟨e, he, h⟩
            exact ⟨e, List.mem_cons_of_mem _ he, h⟩
          · rintro ⟨e, he, h⟩
            rcases List.mem_cons.mp he with rfl | he'
            · exact absurd (hloop.mpr ((leading_bits_equal_symm _ _ _).mp h.2)) hm
            · exact ⟨e, he', h⟩
  refine ⟨key, ?_⟩
  rw [← key]
  rcases is_included_in_acl_eq_zero_or_one list test with h | h <;> simp [h]

/-- C2 at a concrete input: the entry 10.0.0.0/8 accepts 10.1.2.3 and rejects 11.0.0.1. -/
theorem C2_is_included_in_acl_iff_witness :
    is_included_in_acl [acl_10_0_0_0_8] (ipv4 10 1 2 3) = 1 ∧
      is_included_in_acl [acl_10_0_0_0_8] (ipv4 11 0 0 1) = 0 :=
  ⟨(C2_is_included_in_acl_iff [acl_10_0_0_0_8] (ipv4 10 1 2 3) (by decide) (by decide)).1.mpr
      (by decide),
    (C2_is_included_in_acl_iff [acl_10_0_0_0_8] (ipv4 11 0 0 1) (by decide) (by decide)).2.mpr
      (by decide)⟩

/-! ### Serving READ -/

theorem mem_read_length (m : Mem) (pos n : Nat) : (mem_read m pos n).length = n := by
  simp [mem_read]

/-- Inside the file `sendfileloop` ends normally, having sent exactly the
`count` bytes of the file from `offset` on. -/
theorem sendfileloop_in_range (file : Mem) (size offset count : Nat)
    (h : offset + count ≤ size) :
    sendfileloop file size (offset : Int) count = .done (mem_read file offset count) := by
  unfold sendfileloop
  by_cases hc : count = 0
  · subst hc
    simp [sendfileloop_go, mem_read]
  · have hmin : min count (size - offset) = count := by omega
    have hlen : (mem_read file offset count).length ≠ 0 := by
      rw [mem_read_length]
      exact hc
    obtain ⟨k, hk⟩ : ∃ k, count = k + 1 := ⟨count - 1, by omega⟩
    have hpos : 0 < count := by omega
    rw [sendfileloop_go, if_pos hpos]
    simp only [sendfile64, Int.toNat_ofNat, Nat.sub_zero, hmin,
      if_neg (not_lt.mpr (Int.ofNat_nonneg offset))]
    rw [if_neg hlen, mem_read_length, hk, sendfileloop_go]
    simp

/-- C7: a READ with valid magic and `from + len` within the size (the size being
an `off64_t`) makes `client_serve_request` write the reply magic 0x67446698 in
big-endian, four zero bytes of error, the eight handle bytes of the request and
then the `len` bytes of the file from `from` on, in that order, and return 0;
nothing else of the session changes. -/
theorem C7_read_reply (client : client_params) (stack : Mem) (raw rest : List Nat)
    (hin : client.socket_in = raw ++ rest) (hraw : raw.length = 28)
    (hmagic : (nbd_request_of_bytes raw).magic = REQUEST_MAGIC)
    (htype : (nbd_request_of_bytes raw).type = REQUEST_READ)
    (hrange : (nbd_request_of_bytes raw).from_ + (nbd_request_of_bytes raw).len ≤ client.size)
    (hsize : client.size < 9223372036854775808) :
    client_serve_request client stack =
      (.ret 0, { client with
        socket_in := rest
        socket_out := client.socket_out ++ [0x67, 0x44, 0x66, 0x98] ++ [0, 0, 0, 0] ++
          (raw.drop 8).take 8 ++
          mem_read client.mapped (nbd_request_of_bytes raw).from_
            (nbd_request_of_bytes raw).len }) := by
  have hu : uint64 ((nbd_request_of_bytes raw).from_ + (nbd_request_of_bytes raw).len) =
      (nbd_request_of_bytes raw).from_ + (nbd_request_of_bytes raw).len :=
    uint64_of_lt _ (by omega)
  have hnot : ¬ uint64 ((nbd_request_of_bytes raw).from_ + (nbd_request_of_bytes raw).len) >
      client.size := by
    rw [hu]
    omega
  have hoff : int64 ((nbd_request_of_bytes raw).from_ : Int) =
      ((nbd_request_of_bytes raw).from_ : Int) := int64_of_lt _ (by omega)
  have hreply : nbd_reply_bytes REPLY_MAGIC 0 (nbd_request_of_bytes raw).handle =
      [0x67, 0x44, 0x66, 0x98] ++ [0, 0, 0, 0] ++ (raw.drop 8).take 8 := by
    simp [nbd_reply_bytes, htobe32, REPLY_MAGIC, nbd_request_of_bytes]
  unfold client_serve_request
  rw [hin, readloop_append raw rest 28 hraw]
  simp [hmagic, htype, hnot, hoff, sendfileloop_in_range _ _ _ _ hrange]
  rw [hreply]
  simp

/-- C7 at a concrete input: size 4096, READ of the last byte (offset 4095, length 1, so
that offset + length is the size). -/
theorem C7_read_reply_witness :
    client_serve_request
        (session1 file_pattern 4096 (request_bytes REQUEST_READ handle0 4095 1)) (fun _ => 0) =
      (.ret 0, { session1 file_pattern 4096 (request_bytes REQUEST_READ handle0 4095 1) with
        socket_in := []
        socket_out := [] ++ [0x67, 0x44, 0x66, 0x98] ++ [0, 0, 0, 0] ++
          ((request_bytes REQUEST_READ handle0 4095 1).drop 8).take 8 ++
          mem_read file_pattern
            (nbd_request_of_bytes (request_bytes REQUEST_READ handle0 4095 1)).from_
            (nbd_request_of_bytes (request_bytes REQUEST_READ handle0 4095 1)).len }) :=
  C7_read_reply (session1 file_pattern 4096 (request_bytes REQUEST_READ handle0 4095 1))
    (fun _ => 0) (request_bytes REQUEST_READ handle0 4095 1) [] (by decide) (by decide)
    (by decide) (by decide) (by decide) (by decide)

/-- The bytes sent for that READ: the reply header and the file byte 4095 % 251 = 79. -/
theorem read_last_byte_example :
    (client_serve_request
        (session1 file_pattern 4096 (request_bytes REQUEST_READ handle0 4095 1))
        (fun _ => 0)).2.socket_out =
      [0x67, 0x44, 0x66, 0x98, 0, 0, 0, 0, 1, 2, 3, 4, 5, 6, 7, 8, 79] := by
  decide

/-! ### Hello -/

theorem mem_read_add (m : Mem) (pos a b : Nat) :
    mem_read m pos (a + b) = mem_read m pos a ++ mem_read m (pos + a) b := by
  simp [mem_read, List.range_add, List.map_append, List.map_map, Function.comp_def, add_assoc]

theorem mem_read_mem_write_same (m : Mem) (pos : Nat) (src : List Nat) :
    mem_read (mem_write m pos src) pos src.length = src := by
  apply List.ext_getElem
  · simp [mem_read]
  · intro i h1 h2
    simp only [mem_read, mem_write, List.getElem_map, List.getElem_range]
    rw [if_pos ⟨by omega, by omega⟩]
    simp [List.getD_eq_getElem?_getD, h2]

theorem mem_read_mem_write_of_disjoint (m : Mem) (pos : Nat) (src : List Nat) (q n : Nat)
    (h : q + n ≤ pos ∨ pos + src.length ≤ q) :
    mem_read (mem_write m pos src) q n = mem_read m q n := by
  unfold mem_read
  apply List.map_congr_left
  intro i hi
  have hi' : i < n := List.mem_range.mp hi
  unfold mem_write
  rw [if_neg]
  omega

theorem htobe64_uint64 (v : Nat) : htobe64 (uint64 v) = htobe64 v := by
  simp only [htobe64, uint64, List.cons.injEq, and_true]
  refine ⟨?_, ?_, ?_, ?_, ?_, ?_, ?_, ?_⟩ <;> omega

theorem htobe64_length (v : Nat) : (htobe64 v).length = 8 := rfl

/-- C8: whatever the size and whatever the memory of the local `init` held,
`client_send_hello` writes 152 bytes: the text NBDMAGIC, the magic
0x00420281861253 in big-endian, the size in big-endian, and 128 zero bytes;
nothing else of the session changes. -/
theorem C8_hello_frame (client : client_params) (init : Mem) :
    client_send_hello client init =
        { client with
          socket_out := client.socket_out ++
            ([78, 66, 68, 77, 65, 71, 73, 67] ++ [0x00, 0x00, 0x42, 0x02, 0x81, 0x86, 0x12, 0x53] ++
              htobe64 client.size ++ List.replicate 128 0) } ∧
      ([78, 66, 68, 77, 65, 71, 73, 67] ++ [0x00, 0x00, 0x42, 0x02, 0x81, 0x86, 0x12, 0x53] ++
        htobe64 client.size ++ List.replicate 128 0).length = 152 := by
  refine ⟨?_, by simp [htobe64]⟩
  have hz : (List.replicate 128 0 : List Nat).length = 128 := List.length_replicate _ _
  have hm : (htobe64 INIT_MAGIC).length = 8 := rfl
  have hs : (htobe64 client.size).length = 8 := rfl
  have hp : INIT_PASSWD.length = 9 := rfl
  have h4 : mem_read (mem_write (mem_write (mem_write (mem_write init 0 INIT_PASSWD) 8
      (htobe64 INIT_MAGIC)) 16 (htobe64 client.size)) 24 (List.replicate 128 0)) 24 128 =
      List.replicate 128 0 := by
    conv_lhs => rw [← hz]
    exact mem_read_mem_write_same _ _ _
  have h3 : mem_read (mem_write (mem_write (mem_write (mem_write init 0 INIT_PASSWD) 8
      (htobe64 INIT_MAGIC)) 16 (htobe64 client.size)) 24 (List.replicate 128 0)) 16 8 =
      htobe64 client.size := by
    rw [mem_read_mem_write_of_disjoint _ _ _ _ _ (by omega)]
    conv_lhs => rw [← hs]
    exact mem_read_mem_write_same _ _ _
  have h2 : mem_read (mem_write (mem_write (mem_write (mem_write init 0 INIT_PASSWD) 8
      (htobe64 INIT_MAGIC)) 16 (htobe64 client.size)) 24 (List.replicate 128 0)) 8 8 =
      [0x00, 0x00, 0x42, 0x02, 0x81, 0x86, 0x12, 0x53] := by
    rw [mem_read_mem_write_of_disjoint _ _ _ _ _ (by omega),
      mem_read_mem_write_of_disjoint _ _ _ _ _ (by omega)]
    conv_lhs => rw [← hm]
    rw [mem_read_mem_write_same]
    decide
  have h1 : mem_read (mem_write (mem_write (mem_write (mem_write init 0 INIT_PASSWD) 8
      (htobe64 INIT_MAGIC)) 16 (htobe64 client.size)) 24 (List.replicate 128 0)) 0 8 =
      [78, 66, 68, 77, 65, 71, 73, 67] := by
    rw [mem_read_mem_write_of_disjoint _ _ _ _ _ (by omega),
      mem_read_mem_write_of_disjoint _ _ _ _ _ (by omega),
      mem_read_mem_write_of_disjoint _ _ _ _ _ (by omega)]
    simp [mem_read, mem_write, INIT_PASSWD, List.range_succ]
  have hall : mem_read (mem_write (mem_write (mem_write (mem_write init 0 INIT_PASSWD) 8
      (htobe64 INIT_MAGIC)) 16 (htobe64 client.size)) 24 (List.replicate 128 0)) 0 152 =
      [78, 66, 68, 77, 65, 71, 73, 67] ++ [0x00, 0x00, 0x42, 0x02, 0x81, 0x86, 0x12, 0x53] ++
        htobe64 client.size ++ List.replicate 128 0 := by
    have e : (152 : Nat) = 8 + 8 + 8 + 128 := rfl
    rw [e, mem_read_add, mem_read_add, mem_read_add, h1]
    have e2 : 0 + 8 = 8 := rfl
    have e3 : 0 + (8 + 8) = 16 := rfl
    have e4 : 0 + (8 + 8 + 8) = 24 := rfl
    rw [e2, e3, e4, h2, h3, h4]
  unfold client_send_hello
  rw [htobe64_uint64]
  simp only [hall]

/-- The size field of the hello frame of a 1 MiB file: it encodes 1048576. -/
theorem htobe64_one_mebibyte : htobe64 1048576 = [0, 0, 0, 0, 0, 0x10, 0, 0] := by
  decide

/-! ### Bad magic and DISCONNECT -/

/-- C9: a request whose magic is not 0x25609513 ends the session through
`CLIENT_ERROR`, whatever its type, offset and length, and a DISCONNECT with valid
magic ends it by returning 1, whatever its offset and length; in both cases
nothing is written to the socket and neither the file nor the allocation map
changes (the session differs only in that the 28 bytes have been read). -/
theorem C9_bad_magic_and_disconnect (client : client_params) (stack : Mem)
    (raw rest : List Nat) (hin : client.socket_in = raw ++ rest) (hraw : raw.length = 28) :
    ((nbd_request_of_bytes raw).magic ≠ REQUEST_MAGIC →
        client_serve_request client stack = (.client_error, { client with socket_in := rest })) ∧
      ((nbd_request_of_bytes raw).magic = REQUEST_MAGIC →
        (nbd_request_of_bytes raw).type = REQUEST_DISCONNECT →
        client_serve_request client stack = (.ret 1, { client with socket_in := rest })) := by
  constructor
  · intro hmagic
    unfold client_serve_request
    rw [hin, readloop_append raw rest 28 hraw]
    simp [hmagic]
  · intro hmagic htype
    unfold client_serve_request
    rw [hin, readloop_append raw rest 28 hraw]
    simp [hmagic, htype, REQUEST_DISCONNECT, REQUEST_READ, REQUEST_WRITE]

/-- C9 at concrete inputs: a READ of byte 0 of a 4096-byte file whose magic is 0x25609512,
and a DISCONNECT with valid magic and an offset far outside the file. -/
theorem C9_bad_magic_and_disconnect_witness :
    client_serve_request
        (session0 4096 none
          (htobe32 0x25609512 ++ htobe32 REQUEST_READ ++ handle0 ++ htobe64 0 ++ htobe32 1))
        (fun _ => 0) =
      (.client_error, { session0 4096 none
          (htobe32 0x25609512 ++ htobe32 REQUEST_READ ++ handle0 ++ htobe64 0 ++ htobe32 1) with
        socket_in := [] }) ∧
    client_serve_request
        (session0 4096 none (request_bytes REQUEST_DISCONNECT handle0 1000000 7)) (fun _ => 0) =
      (.ret 1, { session0 4096 none (request_bytes REQUEST_DISCONNECT handle0 1000000 7) with
        socket_in := [] }) :=
  ⟨(C9_bad_magic_and_disconnect _ (fun _ => 0)
      (htobe32 0x25609512 ++ htobe32 REQUEST_READ ++ handle0 ++ htobe64 0 ++ htobe32 1) []
      (by decide) (by decide)).1 (by decide),
    (C9_bad_magic_and_disconnect _ (fun _ => 0)
      (request_bytes REQUEST_DISCONNECT handle0 1000000 7) []
      (by decide) (by decide)).2 (by decide) (by decide)⟩

/-! ### The sparse write path at concrete inputs -/

/-- C3 (fails on the code): every allocation bit clear, a write of one zero byte
at offset 4094, followed on the socket by the first byte (0x25) of the next
request.  The run is cut at the start of the write only, so `write_not_zeroes`
takes two bytes, finds them not all zero, sets allocation bit 0 and stores
0x25 at byte 4095 of the file. -/
theorem C3_zero_write_sets_bit :
    bit_is_set zeroes 0 = false ∧
      (write_not_zeroes [0, 37] zeroes zeroes zeroes 4094 1).status = .ok ∧
      bit_is_set (write_not_zeroes [0, 37] zeroes zeroes zeroes 4094 1).map 0 = true ∧
      (write_not_zeroes [0, 37] zeroes zeroes zeroes 4094 1).mapped 4095 = 37 := by
  decide

/-- C4 (fails on the code): every allocation bit clear, a write of the single
non-zero byte 1 at offset 0, with nothing after it on the socket.
`write_not_zeroes` asks the socket for the 4096 bytes up to the end of the page,
the read fails, and it leaves through `CLIENT_ERROR` with bit 0 still clear and
byte 0 of the file still zero; served as a request, the session ends without
a reply. -/
theorem C4_nonzero_write_leaves_bit_clear :
    (write_not_zeroes [1] zeroes zeroes zeroes 0 1).status = .client_error ∧
      bit_is_set (write_not_zeroes [1] zeroes zeroes zeroes 0 1).map 0 = false ∧
      (write_not_zeroes [1] zeroes zeroes zeroes 0 1).mapped 0 = 0 ∧
      (client_serve_request
        (session0 1048576 (some zeroes) (request_bytes REQUEST_WRITE handle0 0 1 ++ [1]))
        zeroes).1 = .client_error ∧
      (client_serve_request
        (session0 1048576 (some zeroes) (request_bytes REQUEST_WRITE handle0 0 1 ++ [1]))
        zeroes).2.socket_out = [] := by
  decide

/-- C5 (fails on the code): every allocation bit set, a write of length 1 at
offset 4094 with two bytes on the socket.  `write_not_zeroes` reads both bytes
(the run is 2, up to the end of the page), stores the second one at byte 4095,
and leaves its loop with `len = -1`. -/
theorem C5_reads_past_the_write :
    (write_not_zeroes [9, 37] zeroes all_allocated zeroes 4094 1).status = .ok ∧
      (write_not_zeroes [9, 37] zeroes all_allocated zeroes 4094 1).socket_in = [] ∧
      (write_not_zeroes [9, 37] zeroes all_allocated zeroes 4094 1).run = 2 ∧
      (write_not_zeroes [9, 37] zeroes all_allocated zeroes 4094 1).len = -1 ∧
      (write_not_zeroes [9, 37] zeroes all_allocated zeroes 4094 1).mapped 4095 = 37 := by
  decide

/-- C6 (fails on the code): a sparse file of 8192 zero bytes with an allocation
map, WRITE of the byte 7 at offset 4094 and then READ of that byte, both on
the socket.  The WRITE takes the first byte of the READ request as a second
byte of data and is answered; what is left of the READ request is 27 bytes,
the next `client_serve_request` returns 1, and the socket has received the
reply to the WRITE and nothing else, not the byte 7. -/
theorem C6_write_then_read_loses_the_read :
    (client_serve_request (session0 8192 (some zeroes) write_then_read_stream) zeroes).1
        = .ret 0 ∧
      (client_serve_request (session0 8192 (some zeroes) write_then_read_stream) zeroes).2.mapped
        4095 = 37 ∧
      (client_serve_request (session0 8192 (some zeroes) write_then_read_stream)
        zeroes).2.socket_in.length = 27 ∧
      (client_serve_request
        (client_serve_request (session0 8192 (some zeroes) write_then_read_stream) zeroes).2
        zeroes).1 = .ret 1 ∧
      (client_serve_request
        (client_serve_request (session0 8192 (some zeroes) write_then_read_stream) zeroes).2
        zeroes).2.socket_out = nbd_reply_bytes REPLY_MAGIC 0 handle0 := by
  decide

/-! ### The mirror at a concrete input -/

/-- C10 (fails on the code): a file of 4096 bytes, every block dirty, no client
writes and no abandon signal.  Pass 0 sends 4096 bytes, fewer than the
threshold, and sets `pass` to 6; the `pass++` of the `for` loop makes it 7 and
the loop ends.  The mirror finishes successfully without a round with
`pass = 6`, without holding `l_io` for a whole pass, and calls
`server_unlock_io` at the end while it does not hold the lock. -/
theorem C10_promotion_skips_the_frozen_pass :
    (mirror_runner mirror_env_quiet 4096 (mirror_initial_dirty_map 4096) .ACTION_NOTHING).1
        = .success ∧
      (mirror_runner mirror_env_quiet 4096 (mirror_initial_dirty_map 4096) .ACTION_NOTHING).2.trace
        = [.pass_start 0, .server_lock_io, .socket_nbd_write 0 4096 0, .server_unlock_io,
           .close_client, .server_unlock_io, .mirror_freed] ∧
      has_frozen_final_pass
        (mirror_runner mirror_env_quiet 4096 (mirror_initial_dirty_map 4096)
          .ACTION_NOTHING).2.trace = false ∧
      holds_io_after false
        [.pass_start 0, .server_lock_io, .socket_nbd_write 0 4096 0, .server_unlock_io,
         .close_client] = false := by
  decide

/-! ### WRITE then READ without an allocation map -/

/-- Without an allocation map a WRITE inside the file reads exactly its `len`
bytes of data into the mapping and answers with error 0. -/
theorem client_serve_request_write_without_map (client : client_params) (stack : Mem)
    (raw data rest : List Nat)
    (hmap : client.block_allocation_map = none)
    (hin : client.socket_in = raw ++ (data ++ rest)) (hraw : raw.length = 28)
    (hmagic : (nbd_request_of_bytes raw).magic = REQUEST_MAGIC)
    (htype : (nbd_request_of_bytes raw).type = REQUEST_WRITE)
    (hdata : data.length = (nbd_request_of_bytes raw).len)
    (hrange : (nbd_request_of_bytes raw).from_ + (nbd_request_of_bytes raw).len ≤ client.size)
    (hsize : client.size < 9223372036854775808) :
    client_serve_request client stack =
      (.ret 0, { client with
        socket_in := rest
        mapped := mem_write client.mapped (nbd_request_of_bytes raw).from_ data
        socket_out := client.socket_out ++
          nbd_reply_bytes REPLY_MAGIC 0 (nbd_request_of_bytes raw).handle }) := by
  have hnot : ¬ uint64 ((nbd_request_of_bytes raw).from_ + (nbd_request_of_bytes raw).len) >
      client.size := by
    rw [uint64_of_lt _ (by omega)]
    omega
  have hoff : ¬ int64 ((nbd_request_of_bytes raw).from_ : Int) < 0 := by
    rw [int64_of_lt _ (by omega)]
    omega
  unfold client_serve_request
  rw [hin, readloop_append raw (data ++ rest) 28 hraw]
  simp only [hmagic, htype, hmap]
  rw [readloop_append data rest _ hdata]
  simp [hnot, hoff, REQUEST_WRITE, REQUEST_READ]

/-- What a READ inside the file returns and sends. -/
theorem client_serve_request_read_output (client : client_params) (stack : Mem)
    (raw rest : List Nat)
    (hin : client.socket_in = raw ++ rest) (hraw : raw.length = 28)
    (hmagic : (nbd_request_of_bytes raw).magic = REQUEST_MAGIC)
    (htype : (nbd_request_of_bytes raw).type = REQUEST_READ)
    (hrange : (nbd_request_of_bytes raw).from_ + (nbd_request_of_bytes raw).len ≤ client.size)
    (hsize : client.size < 9223372036854775808) :
    (client_serve_request client stack).1 = .ret 0 ∧
      (client_serve_request client stack).2.socket_out =
        client.socket_out ++ nbd_reply_bytes REPLY_MAGIC 0 (nbd_request_of_bytes raw).handle ++
          mem_read client.mapped (nbd_request_of_bytes raw).from_
            (nbd_request_of_bytes raw).len := by
  have hnot : ¬ uint64 ((nbd_request_of_bytes raw).from_ + (nbd_request_of_bytes raw).len) >
      client.size := by
    rw [uint64_of_lt _ (by omega)]
    omega
  have hoff : int64 ((nbd_request_of_bytes raw).from_ : Int) =
      ((nbd_request_of_bytes raw).from_ : Int) := int64_of_lt _ (by omega)
  unfold client_serve_request
  rw [hin, readloop_append raw rest 28 hraw]
  simp [hmagic, htype, hnot, hoff, sendfileloop_in_range _ _ _ _ hrange]

/-- Without an allocation map, serving WRITE(O, L, B) and then READ(O, L) inside
the file sends the two replies and then exactly B. -/
theorem write_then_read_without_map (client : client_params) (stack : Mem)
    (wraw rraw data rest : List Nat)
    (hmap : client.block_allocation_map = none)
    (hin : client.socket_in = wraw ++ (data ++ (rraw ++ rest)))
    (hwraw : wraw.length = 28) (hrraw : rraw.length = 28)
    (hwmagic : (nbd_request_of_bytes wraw).magic = REQUEST_MAGIC)
    (hrmagic : (nbd_request_of_bytes rraw).magic = REQUEST_MAGIC)
    (hwtype : (nbd_request_of_bytes wraw).type = REQUEST_WRITE)
    (hrtype : (nbd_request_of_bytes rraw).type = REQUEST_READ)
    (hfrom : (nbd_request_of_bytes rraw).from_ = (nbd_request_of_bytes wraw).from_)
    (hlen : (nbd_request_of_bytes rraw).len = (nbd_request_of_bytes wraw).len)
    (hdata : data.length = (nbd_request_of_bytes wraw).len)
    (hrange : (nbd_request_of_bytes wraw).from_ + (nbd_request_of_bytes wraw).len ≤ client.size)
    (hsize : client.size < 9223372036854775808) :
    (client_serve_request client stack).1 = .ret 0 ∧
      (client_serve_request (client_serve_request client stack).2 stack).1 = .ret 0 ∧
      (client_serve_request (client_serve_request client stack).2 stack).2.socket_out =
        client.socket_out ++ nbd_reply_bytes REPLY_MAGIC 0 (nbd_request_of_bytes wraw).handle ++
          nbd_reply_bytes REPLY_MAGIC 0 (nbd_request_of_bytes rraw).handle ++ data := by
  rw [client_serve_request_write_without_map client stack wraw data (rraw ++ rest) hmap hin hwraw
    hwmagic hwtype hdata hrange hsize]
  refine ⟨rfl, ?_⟩
  have hread : mem_read (mem_write client.mapped (nbd_request_of_bytes wraw).from_ data)
      (nbd_request_of_bytes rraw).from_ (nbd_request_of_bytes rraw).len = data := by
    rw [hfrom, hlen, ← hdata]
    exact mem_read_mem_write_same _ _ _
  have h := client_serve_request_read_output
    { client with
      socket_in := rraw ++ rest
      mapped := mem_write client.mapped (nbd_request_of_bytes wraw).from_ data
      socket_out := client.socket_out ++
        nbd_reply_bytes REPLY_MAGIC 0 (nbd_request_of_bytes wraw).handle }
    stack rraw rest rfl hrraw hrmagic hrtype (by rw [hfrom, hlen]; exact hrange) hsize
  rw [hread] at h
  exact h

/-- One round of the inner loop of `mirror_runner`, in terms of `mirror_round`. -/
theorem mirror_pass_loop_succ (env : mirror_env) (size : Nat) (pass : Int) (fuel : Nat)
    (v : mirror_vars) :
    mirror_pass_loop env size pass (fuel + 1) v =
      if v.current < size then
        if env.signal_abandon v.tick then
          if pass = mirror_maximum_passes - 1 then
            (.abandoned, { mirror_round env pass v with
              holds_io := false
              trace := (mirror_round env pass v).trace ++ [.server_unlock_io, .close_client] })
          else (.abandoned, { mirror_round env pass v with
              trace := (mirror_round env pass v).trace ++ [.close_client] })
        else if mirror_round_run env v ≤ 0 then (.spinning, mirror_round env pass v)
        else mirror_pass_loop env size pass fuel (mirror_round env pass v)
      else (.finished, v) := by
  rw [mirror_pass_loop]
  by_cases hc : v.current < size
  · rw [if_pos hc, if_pos hc]
    by_cases hs : bitset_is_set_at (mirror_round_map env v) v.current = true
    · by_cases hp : pass < mirror_maximum_passes - 1
      · simp only [mirror_round, mirror_round_calls, mirror_round_run, mirror_round_map] at hs ⊢
        simp only [hs, hp, if_true, decide_True, List.append_assoc]
      · simp only [mirror_round, mirror_round_calls, mirror_round_run, mirror_round_map] at hs ⊢
        simp only [hs, hp, if_true, if_false, decide_False, List.append_assoc, List.append_nil,
          List.nil_append, Bool.false_eq_true]
    · simp only [mirror_round, mirror_round_calls, mirror_round_run, mirror_round_map] at hs ⊢
      simp only [hs, if_false, List.append_nil, Bool.false_eq_true]
  · rw [if_neg hc, if_neg hc]

/-- One round of the `for` loop of `mirror_runner`, in terms of `mirror_pass_begin`
and `mirror_next_pass`. -/
theorem mirror_passes_succ (env : mirror_env) (size : Nat) (action : mirror_action)
    (fuel : Nat) (pass : Int) (v : mirror_vars) :
    mirror_passes env size action (fuel + 1) pass v =
      if pass < mirror_maximum_passes then
        match mirror_pass_loop env size pass size (mirror_pass_begin pass v) with
        | (.abandoned, v) => (.abandoned, mirror_abandon v)
        | (.spinning, v) => (.spinning, v)
        | (.finished, v) =>
          mirror_passes env size action fuel (mirror_next_pass pass v.written) v
      else (.success, mirror_finish action v) := by
  rw [mirror_passes]
  by_cases hp : pass < mirror_maximum_passes
  · rw [if_pos hp, if_pos hp]
    by_cases h6 : pass = mirror_maximum_passes - 1
    · simp only [mirror_pass_begin, mirror_next_pass, h6, if_true, List.append_assoc,
        List.singleton_append]
    · simp only [mirror_pass_begin, mirror_next_pass, h6, if_false, List.append_nil]
  · rw [if_neg hp, if_neg hp]

/-! ### How the mirror ends -/

theorem mirror_round_calls_no_signal (env : mirror_env) (pass : Int) (v : mirror_vars) :
    mirror_event.serve_signal_close ∉ mirror_round_calls env pass v := by
  unfold mirror_round_calls
  split_ifs <;> simp

theorem mirror_round_no_signal (env : mirror_env) (pass : Int) (v : mirror_vars)
    (hv : mirror_event.serve_signal_close ∉ v.trace) :
    mirror_event.serve_signal_close ∉ (mirror_round env pass v).trace := by
  simp only [mirror_round, List.mem_append, not_or]
  exact ⟨hv, mirror_round_calls_no_signal env pass v⟩

theorem mirror_pass_loop_no_signal (env : mirror_env) (size : Nat) (pass : Int) :
    ∀ (fuel : Nat) (v : mirror_vars), mirror_event.serve_signal_close ∉ v.trace →
      mirror_event.serve_signal_close ∉ (mirror_pass_loop env size pass fuel v).2.trace := by
  intro fuel
  induction fuel with
  | zero =>
    intro v hv
    rw [mirror_pass_loop]
    exact hv
  | succ fuel ih =>
    intro v hv
    have hr := mirror_round_no_signal env pass v hv
    rw [mirror_pass_loop_succ]
    split_ifs
    · simp only [List.mem_append, not_or]
      exact ⟨hr, by simp⟩
    · simp only [List.mem_append, not_or]
      exact ⟨hr, by simp⟩
    · exact hr
    · exact ih _ hr
    · exact hv

theorem mirror_pass_begin_no_signal (pass : Int) (v : mirror_vars)
    (hv : mirror_event.serve_signal_close ∉ v.trace) :
    mirror_event.serve_signal_close ∉ (mirror_pass_begin pass v).trace := by
  unfold mirror_pass_begin
  split_ifs <;> simp [hv]

theorem mirror_passes_end (env : mirror_env) (size : Nat) (action : mirror_action) :
    ∀ (fuel : Nat) (pass : Int) (v : mirror_vars),
      mirror_event.serve_signal_close ∉ v.trace →
      ((mirror_passes env size action fuel pass v).1 = .success →
          (close_signal_raised (mirror_passes env size action fuel pass v).2.trace = true ↔
            action = .ACTION_EXIT) ∧
          server_mirror_is_null (mirror_passes env size action fuel pass v).2.trace = true) ∧
        ((mirror_passes env size action fuel pass v).1 = .abandoned →
          close_signal_raised (mirror_passes env size action fuel pass v).2.trace = false ∧
          server_mirror_is_null (mirror_passes env size action fuel pass v).2.trace = true) := by
  intro fuel
  induction fuel with
  | zero =>
    intro pass v _
    rw [mirror_passes]
    simp
  | succ fuel ih =>
    intro pass v hv
    rw [mirror_passes_succ]
    by_cases hp : pass < mirror_maximum_passes
    · rw [if_pos hp]
      have hloop := mirror_pass_loop_no_signal env size pass size _
        (mirror_pass_begin_no_signal pass v hv)
      rcases hres : mirror_pass_loop env size pass size (mirror_pass_begin pass v) with ⟨ex, v1⟩
      rw [hres] at hloop
      cases ex with
      | finished => exact ih _ v1 hloop
      | abandoned =>
        have hloop' : mirror_event.serve_signal_close ∉ v1.trace := hloop
        simp [mirror_abandon, close_signal_raised, server_mirror_is_null, hloop']
      | spinning => simp
    · rw [if_neg hp]
      cases action <;>
        simp [mirror_finish, mirror_abandon, close_signal_raised, server_mirror_is_null, hv]

/-- C12: when `mirror_runner` finishes successfully it raises the close signal of
the server if and only if `action_at_finish` is `ACTION_EXIT`; when the mirror
is abandoned the close signal is not raised; in both cases the last thing it
does is to free the mirror and set `serve->mirror` to NULL. -/
theorem C12_finish_action (env : mirror_env) (size : Nat) (dirty_map : bitset_mapping)
    (action : mirror_action) :
    ((mirror_runner env size dirty_map action).1 = .success →
        (close_signal_raised (mirror_runner env size dirty_map action).2.trace = true ↔
          action = .ACTION_EXIT) ∧
        server_mirror_is_null (mirror_runner env size dirty_map action).2.trace = true) ∧
      ((mirror_runner env size dirty_map action).1 = .abandoned →
        close_signal_raised (mirror_runner env size dirty_map action).2.trace = false ∧
        server_mirror_is_null (mirror_runner env size dirty_map action).2.trace = true) := by
  unfold mirror_runner
  exact mirror_passes_end env size action 8 0 _ (by simp)

/-- C12 at concrete inputs: a 4096-byte file that is mirrored without
interference with `ACTION_EXIT`, and the same mirror abandoned in its first
round. -/
theorem C12_finish_action_witness :
    ((close_signal_raised
          (mirror_runner mirror_env_quiet 4096 (mirror_initial_dirty_map 4096)
            .ACTION_EXIT).2.trace = true ↔ mirror_action.ACTION_EXIT = .ACTION_EXIT) ∧
        server_mirror_is_null
          (mirror_runner mirror_env_quiet 4096 (mirror_initial_dirty_map 4096)
            .ACTION_EXIT).2.trace = true) ∧
      (close_signal_raised
          (mirror_runner mirror_env_abandon 4096 (mirror_initial_dirty_map 4096)
            .ACTION_EXIT).2.trace = false ∧
        server_mirror_is_null
          (mirror_runner mirror_env_abandon 4096 (mirror_initial_dirty_map 4096)
            .ACTION_EXIT).2.trace = true) :=
  ⟨(C12_finish_action mirror_env_quiet 4096 (mirror_initial_dirty_map 4096) .ACTION_EXIT).1
      (by decide),
    (C12_finish_action mirror_env_abandon 4096 (mirror_initial_dirty_map 4096) .ACTION_EXIT).2
      (by decide)⟩

/-! ### Bits and runs -/

theorem bit_index_eq_iff (i j : Nat) : j = i ↔ j / 8 = i / 8 ∧ j % 8 = i % 8 := by
  omega

theorem bit_is_set_bit_set (b : Mem) (i j : Nat) :
    bit_is_set (bit_set b i) j = (decide (j = i) || bit_is_set b j) := by
  unfold bit_is_set bit_set
  by_cases h : j / 8 = i / 8
  · rw [if_pos h, Nat.testBit_or, Nat.testBit_two_pow]
    by_cases h2 : i % 8 = j % 8
    · have : j = i := by omega
      simp [h2, this]
    · have : j ≠ i := by omega
      simp [h2, this]
  · rw [if_neg h]
    have : j ≠ i := by omega
    simp [this]

theorem testBit_255_sub_two_pow (k m : Nat) (hk : k < 8) (hm : m < 8) :
    (255 - 2 ^ k).testBit m = decide (m ≠ k) := by
  interval_cases k <;> interval_cases m <;> decide

theorem bit_is_set_bit_clear (b : Mem) (i j : Nat) :
    bit_is_set (bit_clear b i) j = (decide (j ≠ i) && bit_is_set b j) := by
  unfold bit_is_set bit_clear
  by_cases h : j / 8 = i / 8
  · rw [if_pos h, Nat.testBit_and,
      testBit_255_sub_two_pow (i % 8) (j % 8) (Nat.mod_lt _ (by decide)) (Nat.mod_lt _ (by decide))]
    by_cases h2 : j % 8 = i % 8
    · have : j = i := by omega
      simp [h2, this]
    · have : j ≠ i := by omega
      simp [h2, this, Bool.and_comm]
  · rw [if_neg h]
    have : j ≠ i := by omega
    simp [this]

theorem bit_is_set_bit_set_range (len : Nat) :
    ∀ (b : Mem) (from_ j : Nat),
      bit_is_set (bit_set_range b from_ len) j =
        (decide (from_ ≤ j ∧ j < from_ + len) || bit_is_set b j) := by
  induction len with
  | zero =>
    intro b from_ j
    have : ¬ (from_ ≤ j ∧ j < from_ + 0) := by omega
    simp [bit_set_range, this]
  | succ len ih =>
    intro b from_ j
    rw [bit_set_range, ih, bit_is_set_bit_set]
    by_cases h1 : j = from_
    · have : from_ ≤ j ∧ j < from_ + (len + 1) := by omega
      simp [h1]
    · by_cases h2 : from_ + 1 ≤ j ∧ j < from_ + 1 + len
      · have : from_ ≤ j ∧ j < from_ + (len + 1) := by omega
        simp [h2, this]
      · have : ¬ (from_ ≤ j ∧ j < from_ + (len + 1)) := by omega
        simp [h1, h2, this]

theorem bit_is_set_bit_clear_range (len : Nat) :
    ∀ (b : Mem) (from_ j : Nat),
      bit_is_set (bit_clear_range b from_ len) j =
        (!decide (from_ ≤ j ∧ j < from_ + len) && bit_is_set b j) := by
  induction len with
  | zero =>
    intro b from_ j
    have : ¬ (from_ ≤ j ∧ j < from_ + 0) := by omega
    rw [bit_clear_range, decide_eq_false this]
    simp
  | succ len ih =>
    intro b from_ j
    rw [bit_clear_range, ih, bit_is_set_bit_clear]
    by_cases h1 : j = from_
    · have h3 : ¬ (from_ + 1 ≤ j ∧ j < from_ + 1 + len) := by omega
      simp [h1]
    · by_cases h2 : from_ + 1 ≤ j ∧ j < from_ + 1 + len
      · have : from_ ≤ j ∧ j < from_ + (len + 1) := by omega
        simp [h2, this]
      · have : ¬ (from_ ≤ j ∧ j < from_ + (len + 1)) := by omega
        simp [h1, h2, this]

/-- A run of `m` equal bits that is ended by the limit or by a bit of the other
value is what `bit_run_count_loop` counts. -/
theorem bit_run_count_loop_eq (b : Mem) (value : Bool) (m : Nat) :
    ∀ (len from_ : Nat), m ≤ len →
      (∀ i, from_ ≤ i → i < from_ + m → bit_is_set b i = value) →
      (m < len → bit_is_set b (from_ + m) ≠ value) →
      bit_run_count_loop b value from_ len = m := by
  induction m with
  | zero =>
    intro len from_ _ _ hend
    cases len with
    | zero => rfl
    | succ len =>
      rw [bit_run_count_loop]
      have := hend (by omega)
      simp only [Nat.add_zero] at this
      simp [this]
  | succ m ih =>
    intro len from_ hle hrun hend
    cases len with
    | zero => omega
    | succ len =>
      rw [bit_run_count_loop]
      have h0 := hrun from_ (le_refl _) (by omega)
      rw [h0]
      simp only [beq_self_eq_true, if_true]
      rw [ih len (from_ + 1) (by omega) (fun i h1 h2 => hrun i (by omega) (by omega))
        (fun h => by
          have := hend (by omega)
          have e : from_ + 1 + m = from_ + (m + 1) := by omega
          rwa [e])]
      omega

/-! ### A mirror that nobody disturbs -/

theorem mirror_longest_write_eq : mirror_longest_write = 8388608 := by decide

theorem mirror_round_map_quiet (v : mirror_vars) : mirror_round_map mirror_env_quiet v = v.map := by
  unfold mirror_round_map mirror_env_quiet
  split_ifs <;> rfl

theorem mirror_initial_dirty_map_dirty (size : Nat) :
    (mirror_initial_dirty_map size).resolution = 4096 ∧
      dirty_between (mirror_initial_dirty_map size) 0 ((size + 4095) / 4096) := by
  refine ⟨rfl, ?_⟩
  intro i
  simp only [mirror_initial_dirty_map, bitset_set_range, bitset_alloc]
  rw [bit_is_set_bit_set_range]
  have h0 : bit_is_set (fun _ => 0) i = false := by simp [bit_is_set]
  have e : (0 + size + 4096 - 1) / 4096 - 0 / 4096 = (size + 4095) / 4096 := by omega
  rw [h0, e]
  simp

theorem bitset_run_count_dirty (map : bitset_mapping) (p n : Nat)
    (hres : map.resolution = 4096) (hd : dirty_between map p n) (hpn : p < n) :
    bitset_run_count map (4096 * p) mirror_longest_write = 4096 * min 2048 (n - p) := by
  unfold bitset_run_count
  rw [hres, mirror_longest_write_eq]
  have e1 : 4096 * p / 4096 = p := by omega
  have e2 : (4096 * p + 8388608 + 4096 - 1) / 4096 - p = 2048 := by omega
  have e3 : 4096 * p % 4096 = 0 := by omega
  rw [e1, e2, e3]
  have hp : bit_is_set map.bits p = true := by
    rw [hd p]
    simp [hpn]
  have hrun : bit_run_count map.bits p 2048 = min 2048 (n - p) := by
    unfold bit_run_count
    rw [hp]
    apply bit_run_count_loop_eq
    · omega
    · intro i h1 h2
      rw [hd i]
      have : p ≤ i ∧ i < n := by omega
      simp [this]
    · intro h
      rw [hd]
      have : ¬ (p ≤ p + min 2048 (n - p) ∧ p + min 2048 (n - p) < n) := by omega
      rw [decide_eq_false this]
      simp
  rw [hrun]
  omega

theorem bitset_run_count_clean (map : bitset_mapping) (k : Nat)
    (hres : map.resolution = 4096) (hd : ∀ i, bit_is_set map.bits i = false) :
    bitset_run_count map (8388608 * k) mirror_longest_write = 8388608 := by
  unfold bitset_run_count
  rw [hres, mirror_longest_write_eq]
  have e1 : 8388608 * k / 4096 = 2048 * k := by omega
  have e2 : (8388608 * k + 8388608 + 4096 - 1) / 4096 - 2048 * k = 2048 := by omega
  have e3 : 8388608 * k % 4096 = 0 := by omega
  rw [e1, e2, e3]
  have hrun : bit_run_count map.bits (2048 * k) 2048 = 2048 := by
    unfold bit_run_count
    apply bit_run_count_loop_eq
    · exact le_refl _
    · intro i _ _
      rw [hd i, hd]
    · intro h
      omega
  rw [hrun]
  decide

theorem int32_of_small (x : Nat) (h : x ≤ 8388608) : int32 (x : Int) = (x : Int) := by
  unfold int32
  omega

theorem mirror_writes_append (a b : List mirror_event) :
    mirror_writes (a ++ b) = mirror_writes a ++ mirror_writes b := by
  induction a with
  | nil => rfl
  | cons e a ih => cases e <;> simp [mirror_writes, ih]

theorem passes_started_append (a b : List mirror_event) :
    passes_started (a ++ b) = passes_started a + passes_started b := by
  induction a with
  | nil => simp [passes_started]
  | cons e a ih => cases e <;> simp [passes_started, ih]; omega

theorem mirror_round_run_dirty (v : mirror_vars) (p n : Nat)
    (hres : v.map.resolution = 4096) (hd : dirty_between v.map p n) (hpn : p < n)
    (hcur : v.current = 4096 * p) :
    mirror_round_run mirror_env_quiet v = ((4096 * min 2048 (n - p) : Nat) : Int) := by
  unfold mirror_round_run
  rw [mirror_round_map_quiet, hcur, bitset_run_count_dirty v.map p n hres hd hpn]
  exact int32_of_small _ (by omega)

theorem bitset_is_set_at_dirty (v : mirror_vars) (p n : Nat)
    (hres : v.map.resolution = 4096) (hd : dirty_between v.map p n) (hpn : p < n)
    (hcur : v.current = 4096 * p) :
    bitset_is_set_at (mirror_round_map mirror_env_quiet v) v.current = true := by
  rw [mirror_round_map_quiet, hcur]
  unfold bitset_is_set_at
  have e : 4096 * p / v.map.resolution = p := by rw [hres]; omega
  rw [e, hd p]
  simp [hpn]

/-- A round of the inner loop on a block that is dirty, in a pass before the last
one, when nobody disturbs the mirror: the chunk of up to 2048 dirty blocks from
`current` on is sent under the lock and marked clean. -/
theorem mirror_round_dirty (pass : Int) (hpass : pass < mirror_maximum_passes - 1)
    (v : mirror_vars) (p n : Nat)
    (hres : v.map.resolution = 4096) (hd : dirty_between v.map p n) (hpn : p < n)
    (hcur : v.current = 4096 * p) (hwr : v.written = 4096 * p)
    (hn : 4096 * n < 18446744073709551616) :
    (mirror_round mirror_env_quiet pass v).map.resolution = 4096 ∧
      dirty_between (mirror_round mirror_env_quiet pass v).map (p + min 2048 (n - p)) n ∧
      (mirror_round mirror_env_quiet pass v).current = 4096 * (p + min 2048 (n - p)) ∧
      (mirror_round mirror_env_quiet pass v).written = 4096 * (p + min 2048 (n - p)) ∧
      (mirror_round mirror_env_quiet pass v).holds_io = v.holds_io ∧
      (mirror_round mirror_env_quiet pass v).trace = v.trace ++
        [.server_lock_io,
         .socket_nbd_write (4096 * p) ((4096 * min 2048 (n - p) : Nat) : Int) (4096 * p),
         .server_unlock_io] := by
  have hrun := mirror_round_run_dirty v p n hres hd hpn hcur
  have hset := bitset_is_set_at_dirty v p n hres hd hpn hcur
  have hmap := mirror_round_map_quiet v
  have hset1 : bitset_is_set_at v.map v.current = true := by rw [← hmap]; exact hset
  have hset2 : bitset_is_set_at v.map (4096 * p) = true := by rw [← hcur]; exact hset1
  have hset3 : bitset_is_set_at (mirror_round_map mirror_env_quiet v) (4096 * p) = true := by
    rw [← hcur]; exact hset
  refine ⟨?_, ?_, ?_, ?_, rfl, ?_⟩
  · simp only [mirror_round, hset, hset1, if_true, bitset_clear_range, hmap]
    exact hres
  · intro i
    simp only [mirror_round, hset, if_true, bitset_clear_range, hmap, hrun, hcur, hres,
      Int.toNat_ofNat, hset2]
    have e1 : 4096 * p / 4096 = p := by omega
    have e2 : (4096 * p + 4096 * min 2048 (n - p) + 4096 - 1) / 4096 - p = min 2048 (n - p) := by
      omega
    rw [e1, e2, bit_is_set_bit_clear_range, hd i]
    by_cases h1 : p ≤ i ∧ i < p + min 2048 (n - p)
    · have h2 : ¬ (p + min 2048 (n - p) ≤ i ∧ i < n) := by omega
      rw [decide_eq_true h1, decide_eq_false h2]
      rfl
    · by_cases h3 : p ≤ i ∧ i < n
      · have h2 : p + min 2048 (n - p) ≤ i ∧ i < n := by omega
        rw [decide_eq_false h1, decide_eq_true h2, decide_eq_true h3]
        rfl
      · have h2 : ¬ (p + min 2048 (n - p) ≤ i ∧ i < n) := by omega
        rw [decide_eq_false h1, decide_eq_false h2, decide_eq_false h3]
        rfl
  · simp only [mirror_round, hrun, hcur]
    have e : ((4096 * p : Nat) : Int) + ((4096 * min 2048 (n - p) : Nat) : Int) =
        ((4096 * (p + min 2048 (n - p)) : Nat) : Int) := by push_cast; ring
    rw [e, Int.toNat_ofNat]
    exact uint64_of_lt _ (by omega)
  · simp only [mirror_round, hset, if_true, hrun, hwr]
    have e : ((4096 * p : Nat) : Int) + ((4096 * min 2048 (n - p) : Nat) : Int) =
        ((4096 * (p + min 2048 (n - p)) : Nat) : Int) := by push_cast; ring
    rw [e, Int.toNat_ofNat]
    exact uint64_of_lt _ (by omega)
  · simp only [mirror_round, mirror_round_calls, hset, hset3, if_true, hrun, hcur, hpass,
      List.append_assoc, List.singleton_append, List.cons_append, List.nil_append]


theorem chunk_len_pos (n p : Nat) (h : p < n) :
    (0 : Int) < ((4096 * min 2048 (n - p) : Nat) : Int) := by
  omega

theorem chunk_len_le (n p : Nat) :
    ((4096 * min 2048 (n - p) : Nat) : Int) ≤ ((mirror_longest_write : Nat) : Int) := by
  rw [mirror_longest_write_eq]
  omega

theorem chunk_end (n p : Nat) :
    4096 * p + 4096 * min 2048 (n - p) = 4096 * (p + min 2048 (n - p)) := by
  omega

/-- The inner loop of a pass before the last one on a map whose dirty blocks are
those from `current` to the end of the file, when nobody disturbs the mirror:
it ends normally, having sent the rest of the file, rounded up to whole
blocks, in consecutive chunks, and having marked every block clean. -/
theorem mirror_pass_loop_dirty (pass : Int) (hpass : pass < mirror_maximum_passes - 1)
    (size n : Nat) (hn : n = (size + 4095) / 4096) (hbound : 4096 * n < 18446744073709551616) :
    ∀ (fuel : Nat) (v : mirror_vars) (p : Nat),
      v.map.resolution = 4096 → dirty_between v.map p n → p ≤ n →
      v.current = 4096 * p → v.written = 4096 * p → n - p ≤ fuel →
      ∃ (v' : mirror_vars) (evs : List mirror_event),
        mirror_pass_loop mirror_env_quiet size pass fuel v = (.finished, v') ∧
        v'.map.resolution = 4096 ∧ dirty_between v'.map n n ∧ v'.written = 4096 * n ∧
        v'.holds_io = v.holds_io ∧ v'.trace = v.trace ++ evs ∧
        chunks_cover (4096 * p) (4096 * n) (mirror_writes evs) ∧ passes_started evs = 0 := by
  intro fuel
  induction fuel with
  | zero =>
    intro v p hres hd hpn hcur hwr hfuel
    have hp : p = n := by omega
    subst hp
    refine ⟨v, [], ?_, hres, hd, hwr, rfl, by simp, ?_, rfl⟩
    · rw [mirror_pass_loop]
      have : ¬ v.current < size := by omega
      simp [this]
    · simp [mirror_writes, chunks_cover]
  | succ fuel ih =>
    intro v p hres hd hpn hcur hwr hfuel
    rw [mirror_pass_loop_succ]
    by_cases hlt : p < n
    · have hc : v.current < size := by omega
      obtain ⟨h1, h2, h3, h4, h5, h6⟩ :=
        mirror_round_dirty pass hpass v p n hres hd hlt hcur hwr hbound
      have hrun := mirror_round_run_dirty v p n hres hd hlt hcur
      have hsig : mirror_env_quiet.signal_abandon v.tick = false := rfl
      have hpos : ¬ mirror_round_run mirror_env_quiet v ≤ 0 := by
        rw [hrun]
        have : 0 < 4096 * min 2048 (n - p) := by omega
        omega
      rw [if_pos hc, hsig, if_neg hpos]
      simp only [Bool.false_eq_true, if_false]
      obtain ⟨v', evs, e1, e2, e3, e4, e5, e6, e7, e8⟩ :=
        ih (mirror_round mirror_env_quiet pass v) (p + min 2048 (n - p)) h1 h2 (by omega) h3 h4
          (by omega)
      refine ⟨v', [.server_lock_io,
        .socket_nbd_write (4096 * p) ((4096 * min 2048 (n - p) : Nat) : Int) (4096 * p),
        .server_unlock_io] ++ evs, e1, e2, e3, e4, by rw [e5, h5], ?_, ?_, ?_⟩
      · rw [e6, h6, List.append_assoc]
      · simp only [List.cons_append, List.nil_append, mirror_writes, chunks_cover]
        refine ⟨trivial, chunk_len_pos n p hlt, chunk_len_le n p, trivial, ?_⟩
        rw [Int.toNat_ofNat, chunk_end n p]
        exact e7
      · simp only [List.cons_append, List.nil_append, passes_started]
        exact e8
    · have hp : p = n := by omega
      subst hp
      have hc : ¬ v.current < size := by omega
      rw [if_neg hc]
      exact ⟨v, [], rfl, hres, hd, hwr, rfl, by simp, by simp [mirror_writes, chunks_cover], rfl⟩

theorem mirror_round_run_clean (v : mirror_vars) (k : Nat)
    (hres : v.map.resolution = 4096) (hd : ∀ i, bit_is_set v.map.bits i = false)
    (hcur : v.current = 8388608 * k) :
    mirror_round_run mirror_env_quiet v = 8388608 := by
  unfold mirror_round_run
  rw [mirror_round_map_quiet, hcur, bitset_run_count_clean v.map k hres hd]
  decide

/-- A round of the inner loop on a clean block of a map without dirty blocks,
when nobody disturbs the mirror: nothing is sent and `current` moves on by
`mirror_longest_write`. -/
theorem mirror_round_clean (pass : Int) (v : mirror_vars) (k : Nat)
    (hres : v.map.resolution = 4096) (hd : ∀ i, bit_is_set v.map.bits i = false)
    (hcur : v.current = 8388608 * k) (hk : 8388608 * (k + 1) < 18446744073709551616) :
    (mirror_round mirror_env_quiet pass v).map = v.map ∧
      (mirror_round mirror_env_quiet pass v).current = 8388608 * (k + 1) ∧
      (mirror_round mirror_env_quiet pass v).written = v.written ∧
      (mirror_round mirror_env_quiet pass v).holds_io = v.holds_io ∧
      (mirror_round mirror_env_quiet pass v).trace = v.trace := by
  have hrun := mirror_round_run_clean v k hres hd hcur
  have hmap := mirror_round_map_quiet v
  have hset : bitset_is_set_at (mirror_round_map mirror_env_quiet v) v.current = false := by
    rw [hmap]
    unfold bitset_is_set_at
    exact hd _
  have hset1 : bitset_is_set_at v.map v.current = false := by rw [← hmap]; exact hset
  refine ⟨?_, ?_, ?_, rfl, ?_⟩
  · simp only [mirror_round, hmap, hset1, Bool.false_eq_true, if_false]
  · simp only [mirror_round, hrun, hcur]
    have e : ((8388608 * k : Nat) : Int) + 8388608 = ((8388608 * (k + 1) : Nat) : Int) := by
      push_cast; ring
    rw [e, Int.toNat_ofNat]
    exact uint64_of_lt _ hk
  · simp only [mirror_round, hset, Bool.false_eq_true, if_false]
  · simp only [mirror_round, mirror_round_calls, hset, Bool.false_eq_true, if_false,
      List.append_nil]

/-- The inner loop of a pass on a map without dirty blocks, when nobody disturbs
the mirror: it ends normally and has sent and changed nothing. -/
theorem mirror_pass_loop_clean (pass : Int) (size : Nat) (hsize : size < 9223372036854775808) :
    ∀ (fuel : Nat) (v : mirror_vars) (k : Nat),
      v.map.resolution = 4096 → (∀ i, bit_is_set v.map.bits i = false) →
      v.current = 8388608 * k → size ≤ 8388608 * k + fuel →
      ∃ v' : mirror_vars,
        mirror_pass_loop mirror_env_quiet size pass fuel v = (.finished, v') ∧
        v'.map = v.map ∧ v'.written = v.written ∧ v'.holds_io = v.holds_io ∧
        v'.trace = v.trace := by
  intro fuel
  induction fuel with
  | zero =>
    intro v k _ _ hcur hfuel
    refine ⟨v, ?_, rfl, rfl, rfl, rfl⟩
    rw [mirror_pass_loop]
    have : ¬ v.current < size := by omega
    simp [this]
  | succ fuel ih =>
    intro v k hres hd hcur hfuel
    rw [mirror_pass_loop_succ]
    by_cases hc : v.current < size
    · obtain ⟨h1, h2, h3, h4, h5⟩ := mirror_round_clean pass v k hres hd hcur (by omega)
      have hrun := mirror_round_run_clean v k hres hd hcur
      have hsig : mirror_env_quiet.signal_abandon v.tick = false := rfl
      have hpos : ¬ mirror_round_run mirror_env_quiet v ≤ 0 := by
        rw [hrun]
        decide
      rw [if_pos hc, hsig, if_neg hpos]
      simp only [Bool.false_eq_true, if_false]
      obtain ⟨v', e1, e2, e3, e4, e5⟩ :=
        ih (mirror_round mirror_env_quiet pass v) (k + 1) (by rw [h1]; exact hres)
          (by rw [h1]; exact hd) h2 (by omega)
      exact ⟨v', e1, by rw [e2, h1], by rw [e3, h3], by rw [e4, h4], by rw [e5, h5]⟩
    · rw [if_neg hc]
      exact ⟨v, rfl, rfl, rfl, rfl, rfl⟩

theorem mirror_finish_facts (action : mirror_action) (v : mirror_vars) :
    (mirror_finish action v).map = v.map ∧
      mirror_writes (mirror_finish action v).trace = mirror_writes v.trace ∧
      passes_started (mirror_finish action v).trace = passes_started v.trace := by
  cases action <;>
    simp [mirror_finish, mirror_abandon, mirror_writes_append, passes_started_append,
      mirror_writes, passes_started]

theorem dirty_between_empty (map : bitset_mapping) (n : Nat) (hd : dirty_between map n n)
    (x : Nat) : bitset_is_set_at map x = false := by
  unfold bitset_is_set_at
  rw [hd]
  have : ¬ (n ≤ x / map.resolution ∧ x / map.resolution < n) := by omega
  exact decide_eq_false this

/-- What a mirror that nobody disturbs does on a file of `size` bytes whose
blocks are all dirty. -/
theorem mirror_runner_quiet (size : Nat) (hsize : size < 9223372036854775808)
    (action : mirror_action) :
    (mirror_runner mirror_env_quiet size (mirror_initial_dirty_map size) action).1 = .success ∧
      passes_started
        (mirror_runner mirror_env_quiet size (mirror_initial_dirty_map size) action).2.trace ≤ 2 ∧
      chunks_cover 0 (4096 * ((size + 4095) / 4096))
        (mirror_writes
          (mirror_runner mirror_env_quiet size (mirror_initial_dirty_map size)
            action).2.trace) ∧
      ∀ x, bitset_is_set_at
        (mirror_runner mirror_env_quiet size (mirror_initial_dirty_map size) action).2.map x
          = false := by
  obtain ⟨hres0, hd0⟩ := mirror_initial_dirty_map_dirty size
  unfold mirror_runner
  have h8 : (8 : Nat) = 7 + 1 := rfl
  have h7 : (7 : Nat) = 6 + 1 := rfl
  have h6 : (6 : Nat) = 5 + 1 := rfl
  have hp0 : (0 : Int) < mirror_maximum_passes - 1 := by decide
  rw [h8, mirror_passes_succ, if_pos (by decide)]
  obtain ⟨v1, evs, e1, e2, e3, e4, e5, e6, e7, e8⟩ :=
    mirror_pass_loop_dirty 0 hp0 size ((size + 4095) / 4096) rfl (by omega) size
      (mirror_pass_begin 0
        { map := mirror_initial_dirty_map size, current := 0, written := 0, holds_io := false,
          tick := 0, trace := [] })
      0 hres0 hd0 (Nat.zero_le _) rfl rfl (by omega)
  rw [e1]
  simp only []
  have htr1 : v1.trace = [mirror_event.pass_start 0] ++ evs := by
    rw [e6]
    simp [mirror_pass_begin]
    decide
  have hw1 : mirror_writes v1.trace = mirror_writes evs := by
    rw [htr1, mirror_writes_append]
    rfl
  have hp1 : passes_started v1.trace = 1 := by
    rw [htr1, passes_started_append, e8]
    rfl
  by_cases hthr : v1.written < mirror_last_pass_after_bytes_written
  · have hnext : mirror_next_pass 0 v1.written = 7 := by
      unfold mirror_next_pass
      rw [if_pos hthr]
      decide
    rw [hnext, h7, mirror_passes_succ, if_neg (by decide)]
    obtain ⟨f1, f2, f3⟩ := mirror_finish_facts action v1
    refine ⟨rfl, ?_, ?_, ?_⟩
    · show passes_started (mirror_finish action v1).trace ≤ 2
      rw [f3, hp1]
      decide
    · show chunks_cover 0 _ (mirror_writes (mirror_finish action v1).trace)
      rw [f2, hw1]
      exact e7
    · intro x
      show bitset_is_set_at (mirror_finish action v1).map x = false
      rw [f1]
      exact dirty_between_empty v1.map _ e3 x
  · have hnext : mirror_next_pass 0 v1.written = 1 := by
      unfold mirror_next_pass
      rw [if_neg hthr]
      decide
    rw [hnext, h7, mirror_passes_succ, if_pos (by decide)]
    have hclean : ∀ i, bit_is_set (mirror_pass_begin 1 v1).map.bits i = false := by
      intro i
      show bit_is_set v1.map.bits i = false
      rw [e3 i]
      have : ¬ ((size + 4095) / 4096 ≤ i ∧ i < (size + 4095) / 4096) := by omega
      exact decide_eq_false this
    obtain ⟨v2, g1, g2, g3, g4, g5⟩ :=
      mirror_pass_loop_clean 1 size hsize size (mirror_pass_begin 1 v1) 0 e2 hclean rfl
        (by omega)
    rw [g1]
    simp only []
    have hw2 : v2.written = 0 := by rw [g3]; rfl
    have hnext2 : mirror_next_pass 1 v2.written = 7 := by
      unfold mirror_next_pass
      rw [hw2]
      decide
    rw [hnext2, h6, mirror_passes_succ, if_neg (by decide)]
    obtain ⟨f1, f2, f3⟩ := mirror_finish_facts action v2
    have htr2 : v2.trace = v1.trace ++ [mirror_event.pass_start 1] := by
      rw [g5]
      simp [mirror_pass_begin]
      decide
    refine ⟨rfl, ?_, ?_, ?_⟩
    · show passes_started (mirror_finish action v2).trace ≤ 2
      rw [f3, htr2, passes_started_append, hp1]
      decide
    · show chunks_cover 0 _ (mirror_writes (mirror_finish action v2).trace)
      rw [f2, htr2, mirror_writes_append, hw1]
      simp only [mirror_writes, List.append_nil]
      exact e7
    · intro x
      show bitset_is_set_at (mirror_finish action v2).map x = false
      rw [f1, g2]
      exact dirty_between_empty v1.map _ e3 x

/-- C11 (as amended): with no client writes, no abandon signal and every block
dirty, `mirror_runner` on a file of `size` bytes (an `off64_t`) finishes
successfully within 7 passes (it needs at most 2); its upstream writes are
consecutive chunks of at most 8 MiB in increasing order, each sending the bytes
of the mapping at its own offset, that start at 0 and end at `size` rounded up
to a multiple of 4096, which is `size` when `size` is a multiple of 4096; at
the end no block is dirty. -/
theorem C11_quiet_mirror_covers_blocks (size : Nat) (hsize : size < 9223372036854775808)
    (action : mirror_action) :
    (mirror_runner mirror_env_quiet size (mirror_initial_dirty_map size) action).1 = .success ∧
      passes_started
        (mirror_runner mirror_env_quiet size (mirror_initial_dirty_map size) action).2.trace ≤ 7 ∧
      chunks_cover 0 (4096 * ((size + 4095) / 4096))
        (mirror_writes
          (mirror_runner mirror_env_quiet size (mirror_initial_dirty_map size)
            action).2.trace) ∧
      (size % 4096 = 0 →
        chunks_cover 0 size
          (mirror_writes
            (mirror_runner mirror_env_quiet size (mirror_initial_dirty_map size)
              action).2.trace)) ∧
      ∀ x, bitset_is_set_at
        (mirror_runner mirror_env_quiet size (mirror_initial_dirty_map size) action).2.map x
          = false := by
  obtain ⟨h1, h2, h3, h4⟩ := mirror_runner_quiet size hsize action
  refine ⟨h1, by omega, h3, ?_, h4⟩
  intro hal
  have e : 4096 * ((size + 4095) / 4096) = size := by omega
  rw [e] at h3
  exact h3

/-- C11 at a concrete input: a file of 8192 bytes is sent as one chunk of 8192
bytes. -/
theorem C11_quiet_mirror_covers_blocks_witness :
    (mirror_runner mirror_env_quiet 8192 (mirror_initial_dirty_map 8192) .ACTION_EXIT).1
        = .success ∧
      chunks_cover 0 8192
        (mirror_writes
          (mirror_runner mirror_env_quiet 8192 (mirror_initial_dirty_map 8192)
            .ACTION_EXIT).2.trace) :=
  ⟨(C11_quiet_mirror_covers_blocks 8192 (by decide) .ACTION_EXIT).1,
    (C11_quiet_mirror_covers_blocks 8192 (by decide) .ACTION_EXIT).2.2.2.1 (by decide)⟩

/-- C11 as stated fails: on a file of 10000 bytes the mirror sends one chunk of
12288 bytes from offset 0, so its writes do not cover [0, 10000) exactly. -/
theorem C11_unaligned_size_counterexample :
    mirror_writes
        (mirror_runner mirror_env_quiet 10000 (mirror_initial_dirty_map 10000)
          .ACTION_EXIT).2.trace = [(0, 12288, 0)] ∧
      ¬ chunks_cover 0 10000
        (mirror_writes
          (mirror_runner mirror_env_quiet 10000 (mirror_initial_dirty_map 10000)
            .ACTION_EXIT).2.trace) := by
  decide

/-! ### Control socket replies -/

theorem write_literal_all (after : Nat → Nat) (literal : List Nat) :
    write_literal after literal literal.length = literal := by
  induction literal with
  | nil => rfl
  | cons c literal ih => simp [write_literal, ih]

theorem write_socket_eq (env : control_env) (client : control_params) (msg : List Nat) :
    write_socket env client msg =
      { client with socket_out := client.socket_out ++ (msg ++ [10]) } := by
  have h := write_literal_all env.after_literal (msg ++ [10])
  rw [List.length_append, List.length_singleton] at h
  unfold write_socket
  rw [h]

theorem acl_create_entries_length_le (parse : List Nat → Option ip_and_mask)
    (lines : List (List Nat)) : (acl_create_entries parse lines).length ≤ lines.length := by
  induction lines with
  | nil => simp [acl_create_entries]
  | cons line lines ih =>
    unfold acl_create_entries
    cases parse line with
    | none => simp
    | some entry => simp; exact ih

theorem acl_create_entries_first_bad (parse : List Nat → Option ip_and_mask) :
    ∀ (lines : List (List Nat)) (k : Nat), k < lines.length →
      (∀ i, i < k → parse (lines.getD i []) ≠ none) → parse (lines.getD k []) = none →
      (acl_create_entries parse lines).length = k := by
  intro lines
  induction lines with
  | nil => intro k hk; simp at hk
  | cons line lines ih =>
    intro k hk hgood hbad
    cases k with
    | zero =>
      simp at hbad
      simp [acl_create_entries, hbad]
    | succ k =>
      have h0 := hgood 0 (by omega)
      simp at h0
      obtain ⟨entry, he⟩ := Option.ne_none_iff_exists'.mp h0
      simp only [acl_create_entries, he, List.length_cons, add_left_inj]
      apply ih k (by simpa using hk)
      · intro i hi
        have := hgood (i + 1) (by omega)
        simpa using this
      · simpa using hbad

theorem acl_create_entries_all (parse : List Nat → Option ip_and_mask) :
    ∀ (lines : List (List Nat)), (∀ line ∈ lines, parse line ≠ none) →
      (acl_create_entries parse lines).length = lines.length ∧
        (acl_create_entries parse lines).map some = lines.map parse := by
  intro lines
  induction lines with
  | nil => intro _; simp [acl_create_entries]
  | cons line lines ih =>
    intro h
    have h0 := h line (by simp)
    obtain ⟨entry, he⟩ := Option.ne_none_iff_exists'.mp h0
    have := ih (fun l hl => h l (by simp [hl]))
    simp [acl_create_entries, he, this.1, this.2]

/-- C13: `control_acl` on any list of argument lines.  If the parser accepts the
first `k` lines and not line `k`, the reply is `1: bad spec: `, that line and a
newline, and nothing else of the connection or the server changes (the ACL is
the one it was); if every line parses, the reply is `0: updated` and a newline,
and the server's ACL is the new one, built from all the lines with the old
`default_deny` (0 if there was no ACL), with `acl_updated_signal` raised.  It
returns 0 either way. -/
theorem C13_control_acl_replies (env : control_env) (client : control_params)
    (lines : List (List Nat)) :
    (∀ k, k < lines.length → (∀ i, i < k → env.acl_entry (lines.getD i []) ≠ none) →
        env.acl_entry (lines.getD k []) = none →
        control_acl env client lines =
          (0, { client with
                socket_out :=
                  client.socket_out ++ ascii "1: bad spec: " ++ lines.getD k [] ++ ascii "\n" })) ∧
      ((∀ line ∈ lines, env.acl_entry line ≠ none) →
        ∃ new_acl : acl,
          new_acl.entries.map some = lines.map env.acl_entry ∧
          new_acl.default_deny = (match client.serve.acl with
            | some a => a.default_deny
            | none => 0) ∧
          control_acl env client lines =
            (0, { client with
                  serve := { client.serve with
                             acl := some new_acl
                             acl_updated_signal := client.serve.acl_updated_signal + 1 }
                  socket_out := client.socket_out ++ ascii "0: updated\n" })) := by
  constructor
  · intro k hk hgood hbad
    have hlen := acl_create_entries_first_bad env.acl_entry lines k hk hgood hbad
    have h13 : write_literal env.after_literal (ascii "1: bad spec: ") 13 = ascii "1: bad spec: " :=
      write_literal_all env.after_literal (ascii "1: bad spec: ")
    have h1 : write_literal env.after_literal (ascii "\n") 1 = ascii "\n" :=
      write_literal_all env.after_literal (ascii "\n")
    unfold control_acl
    simp only [acl_create, hlen, h13, h1]
    rw [if_pos (by omega)]
  · intro hall
    have hlen := acl_create_entries_all env.acl_entry lines hall
    refine ⟨acl_create env lines (match client.serve.acl with
      | some a => a.default_deny
      | none => 0), hlen.2, rfl, ?_⟩
    unfold control_acl
    simp only [acl_create, hlen.1, write_socket_eq, server_replace_acl]
    rw [if_neg (by simp)]
    rfl

/-- C13 at concrete inputs: with the lines `10.0.0.0/8`, `bad` the reply is
`1: bad spec: bad` and the server keeps having no ACL; with the line `10.0.0.0/8`
alone the reply is `0: updated`. -/
theorem C13_control_acl_replies_witness :
    (control_acl control_env0 (control0 []) [ascii "10.0.0.0/8", ascii "bad"]).2.socket_out
        = ascii "1: bad spec: bad\n" ∧
      (control_acl control_env0 (control0 []) [ascii "10.0.0.0/8", ascii "bad"]).2.serve.acl
        = none ∧
      (control_acl control_env0 (control0 []) [ascii "10.0.0.0/8"]).2.socket_out
        = ascii "0: updated\n" := by
  have h1 := (C13_control_acl_replies control_env0 (control0 [])
    [ascii "10.0.0.0/8", ascii "bad"]).1 1 (by decide)
    (by intro i hi; interval_cases i; decide) (by decide)
  obtain ⟨new_acl, _, _, h2⟩ := (C13_control_acl_replies control_env0 (control0 [])
    [ascii "10.0.0.0/8"]).2 (by decide)
  rw [h1, h2]
  exact ⟨by decide, by decide, rfl⟩

/-! ### Arguments of the mirror command -/

theorem control_mirror_start_fst (env : control_env) (client : control_params)
    (connect_to : sockaddr) (raw_port : Int) (connect_from : Option sockaddr)
    (max_bytes_per_second : Nat) (action_at_finish : mirror_action) :
    (control_mirror_start env client connect_to raw_port connect_from max_bytes_per_second
      action_at_finish).1 = 0 := rfl

theorem control_mirror_rejects_or_starts (env : control_env) (client : control_params)
    (lines : List (List Nat)) :
    (control_mirror_rejects env lines ∧ ∃ msg ∈ control_mirror_errors,
        control_mirror env client lines = (-1, write_socket env client msg)) ∨
      (¬ control_mirror_rejects env lines ∧
        ∃ connect_to raw_port connect_from max_bytes_per_second action_at_finish,
          control_mirror env client lines =
            control_mirror_start env client connect_to raw_port connect_from
              max_bytes_per_second action_at_finish) := by
  unfold control_mirror control_mirror_rejects
  simp only []
  by_cases h1 : (lines.length : Int) < 2
  · left
    rw [if_pos h1]
    exact ⟨Or.inl (by omega), ascii "1: mirror takes at least two parameters",
      by simp [control_mirror_errors], rfl⟩
  rw [if_neg h1]
  cases hp : env.parse_ip_to_sockaddr (lines.getD 0 []) with
  | none =>
    left
    exact ⟨Or.inr (Or.inl rfl), ascii "1: bad IP address", by simp [control_mirror_errors], rfl⟩
  | some connect_to =>
    simp only []
    by_cases h2 : atoi (lines.getD 1 []) < 0 ∨ atoi (lines.getD 1 []) > 65535
    · left
      rw [if_pos h2]
      exact ⟨Or.inr (Or.inr (Or.inl h2)), ascii "1: bad IP port number",
        by simp [control_mirror_errors], rfl⟩
    rw [if_neg h2]
    by_cases h3 : (lines.length : Int) > 2 ∧
        (if (lines.length : Int) > 2 then env.parse_ip_to_sockaddr (lines.getD 2 []) else none)
          = none
    · left
      have h3a : (lines.length : Int) > 2 := h3.1
      have h3b := h3.2
      rw [if_pos h3a] at h3b
      rw [if_pos h3]
      exact ⟨Or.inr (Or.inr (Or.inr (Or.inl ⟨by omega, h3b⟩))), ascii "1: bad bind address",
        by simp [control_mirror_errors], rfl⟩
    rw [if_neg h3]
    by_cases h4 : (lines.length : Int) > 4 ∧ lines.getD 3 [] ≠ ascii "exit" ∧
        lines.getD 3 [] ≠ ascii "nothing"
    · left
      rw [if_pos h4]
      exact ⟨Or.inr (Or.inr (Or.inr (Or.inr (Or.inl ⟨by omega, h4.2⟩)))),
        ascii "1: action must be 'exit' or 'nothing'", by simp [control_mirror_errors], rfl⟩
    rw [if_neg h4]
    by_cases h5 : (lines.length : Int) > 5
    · left
      rw [if_pos h5]
      exact ⟨Or.inr (Or.inr (Or.inr (Or.inr (Or.inr (by omega))))),
        ascii "1: unrecognised parameters to mirror", by simp [control_mirror_errors], rfl⟩
    rw [if_neg h5]
    right
    refine ⟨?_, _, _, _, _, _, rfl⟩
    rintro (h | h | h | h | h | h)
    · omega
    · simp at h
    · exact h2 h
    · apply h3
      refine ⟨by omega, ?_⟩
      rw [if_pos (by omega)]
      exact h.2
    · exact h4 ⟨by omega, h.2⟩
    · omega

theorem control_mirror_errors_shape :
    ∀ msg ∈ control_mirror_errors, msg.take 3 = ascii "1: " ∧ 10 ∉ msg := by
  decide

/-- C14 at a failing input: for the mirror command with the five arguments
127.0.0.1, 4777, 127.0.0.2, 1000, nothing `control_mirror` looks for the action
in the fourth argument `1000`: it replies `1: action must be 'exit' or
'nothing'`, returns -1 and starts no mirror, where the claim has
ACTION_NOTHING.  With the fourth argument `exit` the fifth is not looked at:
`nothing` and `bogus` both give ACTION_EXIT.  The rate limit is `atoi` of the
third argument, the bind address: 127 instead of 1000. -/
theorem C14_action_read_from_fourth_argument :
    (control_mirror control_env0 (control0 [])
        [ascii "127.0.0.1", ascii "4777", ascii "127.0.0.2", ascii "1000", ascii "nothing"]).1
        = -1 ∧
      (control_mirror control_env0 (control0 [])
        [ascii "127.0.0.1", ascii "4777", ascii "127.0.0.2", ascii "1000",
          ascii "nothing"]).2.socket_out
        = ascii "1: action must be 'exit' or 'nothing'\n" ∧
      ((control_mirror control_env0 (control0 [])
        [ascii "127.0.0.1", ascii "4777", ascii "127.0.0.2", ascii "1000",
          ascii "nothing"]).2.serve.mirror.map (fun m => m.action_at_finish)) = none ∧
      ((control_mirror control_env0 (control0 [])
        [ascii "127.0.0.1", ascii "4777", ascii "127.0.0.2", ascii "exit",
          ascii "nothing"]).2.serve.mirror.map (fun m => m.action_at_finish))
        = some .ACTION_EXIT ∧
      ((control_mirror control_env0 (control0 [])
        [ascii "127.0.0.1", ascii "4777", ascii "127.0.0.2", ascii "exit",
          ascii "bogus"]).2.serve.mirror.map (fun m => m.action_at_finish))
        = some .ACTION_EXIT ∧
      ((control_mirror control_env0 (control0 [])
        [ascii "127.0.0.1", ascii "4777", ascii "127.0.0.2",
          ascii "1000"]).2.serve.mirror.map (fun m => m.max_bytes_per_second)) = some 127 := by
  decide

/-- C15: `control_mirror` returns -1 exactly when one of its tests of the
arguments fails (fewer than two, first no address, port outside 0..65535, third
no address, with more than four arguments a fourth, where the code looks for
the action, that is neither `exit` nor `nothing`, more than five).  Whenever it
returns -1 it has written one line `1: ` and a reason ending in the only
newline, has called neither `socket_connect` nor `pthread_create`, and the
server, `mirror` included, and the unread input are as they were. -/
theorem C15_control_mirror_rejection (env : control_env) (client : control_params)
    (lines : List (List Nat)) :
    ((control_mirror env client lines).1 = -1 ↔ control_mirror_rejects env lines) ∧
      ((control_mirror env client lines).1 = -1 →
        ∃ reason, 10 ∉ reason ∧
          (control_mirror env client lines).2.socket_out
            = client.socket_out ++ ascii "1: " ++ reason ++ ascii "\n" ∧
          (control_mirror env client lines).2.connects = client.connects ∧
          (control_mirror env client lines).2.mirror_threads = client.mirror_threads ∧
          (control_mirror env client lines).2.serve = client.serve ∧
          (control_mirror env client lines).2.socket_in = client.socket_in) := by
  rcases control_mirror_rejects_or_starts env client lines with
    ⟨hrej, msg, hmsg, heq⟩ | ⟨hrej, a, b, c, d, e, heq⟩
  · refine ⟨⟨fun _ => hrej, fun _ => by rw [heq]⟩, fun _ => ?_⟩
    obtain ⟨h3, h10⟩ := control_mirror_errors_shape msg hmsg
    refine ⟨msg.drop 3, fun h => h10 (List.mem_of_mem_drop h), ?_, ?_, ?_, ?_, ?_⟩
    · rw [heq, write_socket_eq, ← h3]
      simp only [List.append_assoc, List.take_append_drop]
      rfl
    all_goals rw [heq, write_socket_eq]
  · have h0 : (control_mirror env client lines).1 = 0 := by
      rw [heq]
      exact control_mirror_start_fst env client a b c d e
    refine ⟨⟨fun h => ?_, fun h => absurd h hrej⟩, fun h => ?_⟩
    · rw [h0] at h
      exact absurd h (by decide)
    · rw [h0] at h
      exact absurd h (by decide)

/-- C15 at a concrete input: the mirror command with the one argument 127.0.0.1
is answered `1: mirror takes at least two parameters`, with no connection made
and no mirror installed. -/
theorem C15_control_mirror_rejection_witness :
    ∃ reason, 10 ∉ reason ∧
      (control_mirror control_env0 (control0 []) [ascii "127.0.0.1"]).2.socket_out
        = (control0 []).socket_out ++ ascii "1: " ++ reason ++ ascii "\n" ∧
      (control_mirror control_env0 (control0 []) [ascii "127.0.0.1"]).2.connects
        = (control0 []).connects ∧
      (control_mirror control_env0 (control0 []) [ascii "127.0.0.1"]).2.mirror_threads
        = (control0 []).mirror_threads ∧
      (control_mirror control_env0 (control0 []) [ascii "127.0.0.1"]).2.serve
        = (control0 []).serve ∧
      (control_mirror control_env0 (control0 []) [ascii "127.0.0.1"]).2.socket_in
        = (control0 []).socket_in :=
  (C15_control_mirror_rejection control_env0 (control0 []) [ascii "127.0.0.1"]).2 (by decide)

/-! ### The status command and the reply lengths -/

/-- C16 as stated fails: on a connection that sends `status` and a blank line
and then nothing, the command is not answered and does not finish the
connection; the only bytes written are `9: missing command`, when the next
read finds the end of the input, and they are not the status line of the
server. -/
theorem C16_status_command_counterexample :
    control_serve_command control_env0 (control0 []) [ascii "status"] = (false, control0 []) ∧
      (control_serve control_env0 (control0 (ascii "status\n\n"))).2.socket_out
        = ascii "9: missing command\n" ∧
      (status_write (status_create 1234 server0) []).2
        = ascii "pid=1234 size=8192 is_mirroring=false has_control=true \n" ∧
      (control_serve control_env0 (control0 (ascii "status\n\n"))).2.socket_out
        ≠ (status_write (status_create 1234 server0) []).2 := by
  refine ⟨rfl, by decide, by decide, by decide⟩

/-- C16 (as amended): when the lines read from a control connection begin with
the command `status`, `control_serve` writes nothing for it and does not finish:
the round leaves the connection and the server as they are, and the loop goes
on to read the next command. -/
theorem C16_status_command_writes_nothing (env : control_env) (client : control_params)
    (lines : List (List Nat)) (rest : List Nat) (fuel : Nat)
    (hread : read_lines_until_blankline client.socket_in 256 = some (lines, rest))
    (hcmd : lines.head? = some (ascii "status")) :
    control_serve_command env { client with socket_in := rest } lines
        = (false, { client with socket_in := rest }) ∧
      control_serve_loop env (fuel + 1) client
        = control_serve_loop env fuel { client with socket_in := rest } := by
  have hstep : control_serve_command env { client with socket_in := rest } lines
      = (false, { client with socket_in := rest }) := by
    cases lines with
    | nil => simp at hcmd
    | cons cmd args =>
      simp only [List.head?_cons, Option.some.injEq] at hcmd
      subst hcmd
      have hacl : ¬ ascii "status" = ascii "acl" := by decide
      have hmirror : ¬ ascii "status" = ascii "mirror" := by decide
      unfold control_serve_command
      simp only [List.getD_cons_zero]
      rw [if_neg (by simp), if_neg hacl, if_neg hmirror, if_pos trivial]
      simp [control_status]
  refine ⟨hstep, ?_⟩
  rw [control_serve_loop, hread]
  simp only [hstep]
  rfl

/-- C16 at a concrete input: after `status` and a blank line the loop is where
it was, with the input read. -/
theorem C16_status_command_writes_nothing_witness :
    control_serve_loop control_env0 (0 + 1) (control0 (ascii "status\n\n"))
      = control_serve_loop control_env0 0 { control0 (ascii "status\n\n") with socket_in := [] } :=
  (C16_status_command_writes_nothing control_env0 (control0 (ascii "status\n\n"))
    [ascii "status"] [] 0 (by decide) (by decide)).2

/-- C17 at a failing input: for the unknown command `bogus` `control_serve`
passes 23 to `write` for the 20 bytes of `10: unknown command` and its newline,
so the reply has three bytes after the newline: the terminating NUL of the
literal and the two bytes that follow the literal in memory (here `X` and a
zero). -/
theorem C17_unknown_command_reply_overruns :
    (control_serve control_env0 (control0 (ascii "bogus\n\n"))).2.socket_out
        = ascii "10: unknown command\n" ++ [0, 88, 0] ∧
      (control_serve control_env0 (control0 (ascii "bogus\n\n"))).2.socket_out.length = 23 ∧
      (ascii "10: unknown command\n").length = 20 := by
  decide

/-- The other replies are written whole and no further: `9: missing command`
with 19 bytes, `1: bad spec: ` with 13, the newline after the offending line
with 1, and every `write_socket`. -/
theorem control_replies_exact (env : control_env) (client : control_params) (msg : List Nat) :
    write_literal env.after_literal (ascii "9: missing command\n") 19
        = ascii "9: missing command\n" ∧
      write_literal env.after_literal (ascii "1: bad spec: ") 13 = ascii "1: bad spec: " ∧
      write_literal env.after_literal (ascii "\n") 1 = ascii "\n" ∧
      (write_socket env client msg).socket_out = client.socket_out ++ msg ++ ascii "\n" := by
  refine ⟨write_literal_all env.after_literal (ascii "9: missing command\n"),
    write_literal_all env.after_literal (ascii "1: bad spec: "),
    write_literal_all env.after_literal (ascii "\n"), ?_⟩
  rw [write_socket_eq]
  simp only [List.append_assoc]
  rfl

/-! ### Access check -/

/-- C18: with an ACL that has no entries `server_acl_accepts` accepts every
address when `default_deny` is 0 and rejects every address otherwise; with no
ACL (a NULL pointer) it accepts every address, and so does the accept loop of
src/serve.c. -/
theorem C18_empty_and_missing_acl (serve : server) (default_deny : Int)
    (client_address : sockaddr) :
    server_acl_accepts
        { serve with acl := some { entries := [], default_deny := default_deny } } client_address
        = (if default_deny = 0 then 1 else 0) ∧
      server_acl_accepts { serve with acl := none } client_address = 1 ∧
      serve_accept_loop_rejects none client_address = false := by
  refine ⟨?_, rfl, rfl⟩
  by_cases h : default_deny = 0
  · simp [server_acl_accepts, acl_includes, is_included_in_acl, h]
  · simp [server_acl_accepts, acl_includes, is_included_in_acl, h]

/-! ### Status reports -/

theorem decimal_loop_digits :
    ∀ (fuel n : Nat) (acc : List Nat), (∀ c ∈ acc, 48 ≤ c ∧ c ≤ 57) →
      ∀ c ∈ decimal_loop fuel n acc, 48 ≤ c ∧ c ≤ 57 := by
  intro fuel
  induction fuel with
  | zero => intro n acc h; exact h
  | succ fuel ih =>
    intro n acc h
    unfold decimal_loop
    split_ifs with hn
    · intro c hc
      rcases List.mem_cons.mp hc with rfl | hc
      · omega
      · exact h c hc
    · apply ih
      intro c hc
      rcases List.mem_cons.mp hc with rfl | hc
      · omega
      · exact h c hc

theorem decimal_digits (n : Nat) : ∀ c ∈ decimal n, 48 ≤ c ∧ c ≤ 57 :=
  decimal_loop_digits (n + 1) n [] (by simp)

theorem printf_d_chars (v : Int) : ∀ c ∈ printf_d v, c = 45 ∨ (48 ≤ c ∧ c ≤ 57) := by
  intro c hc
  unfold printf_d at hc
  split_ifs at hc
  · rcases List.mem_cons.mp hc with rfl | hc
    · exact Or.inl rfl
    · exact Or.inr (decimal_digits _ c hc)
  · exact Or.inr (decimal_digits _ c hc)

/-- C19 as stated fails: for pid 1234, size 8192, not mirroring, with control,
`status_write` ends the line with a space before the newline, which a line of
pairs separated by spaces does not have. -/
theorem C19_trailing_space_counterexample :
    (status_write status0 []).2
        = ascii "pid=1234 size=8192 is_mirroring=false has_control=true \n" ∧
      status_line_spec status0
        = ascii "pid=1234 size=8192 is_mirroring=false has_control=true\n" ∧
      (status_write status0 []).2 ≠ status_line_spec status0 := by
  decide

/-- C19 (as amended): for every status value `status_write` returns 1 and adds
to the descriptor one line that ends in the only newline: the pairs `pid`,
`size`, `is_mirroring`, `has_control` and, exactly when `is_mirroring` is not
zero, `migration_pass`, each as label, `=`, value and one space, so that a
space stands also between the last pair and the newline; a boolean is `true`
when not zero and `false` when zero; no label and no value holds a space, a
`=` or a newline. -/
theorem C19_status_write_line (st : status) (fd : List Nat) :
    status_write st fd
        = (1, fd ++ ((status_pairs st).map (fun p => p.1 ++ ascii "=" ++ p.2 ++ ascii " ")).flatten
                ++ ascii "\n") ∧
      (status_pairs st).map Prod.fst
        = [ascii "pid", ascii "size", ascii "is_mirroring", ascii "has_control"]
            ++ (if st.is_mirroring ≠ 0 then [ascii "migration_pass"] else []) ∧
      (∀ p ∈ status_pairs st, ∀ c ∈ p.1 ++ p.2, c ≠ 32 ∧ c ≠ 61 ∧ c ≠ 10) := by
  have hpid := printf_d_chars st.pid
  have hpass := printf_d_chars st.migration_pass
  have hsize := decimal_digits st.size
  have hlabels : ∀ l ∈ [ascii "pid", ascii "size", ascii "is_mirroring", ascii "has_control",
      ascii "migration_pass", ascii "true", ascii "false"], ∀ c ∈ l, c ≠ 32 ∧ c ≠ 61 ∧ c ≠ 10 := by
    decide
  have hd : ∀ v : Int, ∀ c ∈ printf_d v, c ≠ 32 ∧ c ≠ 61 ∧ c ≠ 10 := by
    intro v c hc
    rcases printf_d_chars v c hc with h | h <;> omega
  have hu : ∀ c ∈ decimal st.size, c ≠ 32 ∧ c ≠ 61 ∧ c ≠ 10 := by
    intro c hc
    have := decimal_digits st.size c hc
    omega
  have hb : ∀ v : Int, ∀ c ∈ (if v ≠ 0 then ascii "true" else ascii "false"),
      c ≠ 32 ∧ c ≠ 61 ∧ c ≠ 10 := by
    intro v c hc
    split_ifs at hc
    · exact hlabels _ (by simp) c hc
    · exact hlabels _ (by simp) c hc
  refine ⟨?_, ?_, ?_⟩
  · unfold status_write status_pairs PRINT_INT PRINT_UINT64 PRINT_BOOL BOOL_S
    by_cases hm : st.is_mirroring ≠ 0
    · simp only [hm, if_true, List.map_append, List.map_cons, List.map_nil, List.flatten_append,
        List.flatten_cons, List.flatten_nil, List.append_assoc, List.append_nil, ne_eq,
        not_false_eq_true]
    · simp only [hm, if_false, List.map_append, List.map_cons, List.map_nil, List.flatten_append,
        List.flatten_cons, List.flatten_nil, List.append_assoc, List.append_nil]
  · unfold status_pairs
    by_cases hm : st.is_mirroring ≠ 0
    · simp only [if_pos hm]
      rfl
    · simp only [if_neg hm]
      rfl
  · intro p hp c hc
    unfold status_pairs at hp
    rw [List.mem_append] at hp
    rcases hp with hp | hp
    · simp only [List.mem_cons, List.mem_singleton, List.not_mem_nil, or_false] at hp
      rcases hp with rfl | rfl | rfl | rfl <;>
        rcases List.mem_append.mp hc with hc | hc
      · exact hlabels _ (by simp) c hc
      · exact hd _ c hc
      · exact hlabels _ (by simp) c hc
      · exact hu c hc
      · exact hlabels _ (by simp) c hc
      · exact hb _ c hc
      · exact hlabels _ (by simp) c hc
      · exact hb _ c hc
    · split_ifs at hp
      · simp only [List.mem_singleton] at hp
        subst hp
        rcases List.mem_append.mp hc with hc | hc
        · exact hlabels _ (by simp) c hc
        · exact hd _ c hc
      · simp at hp

/-- C20 at a failing input: for a server whose `has_control` is 1 and whose
`success` is 0, the state of `test_gets_has_control` when that field of its
stack variable holds zero, `status_create` gives `has_control` 0: it copies
`success`.  With the two values exchanged it gives 1 for a server without
control. -/
theorem C20_has_control_copied_from_success :
    (status_create 1234 { server0 with has_control := 1, success := 0 }).has_control = 0 ∧
      (status_create 1234 { server0 with has_control := 0, success := 1 }).has_control = 1 := by
  decide

/-- The rest of the snapshot is as the server has it: the size, `is_mirroring`
set exactly when there is a mirror, and then the pass of the mirror. -/
theorem status_create_fields (pid : Int) (serve : server) :
    (status_create pid serve).pid = pid ∧
      (status_create pid serve).size = serve.size ∧
      (status_create pid serve).has_control = serve.success ∧
      ((status_create pid serve).is_mirroring ≠ 0 ↔ serve.mirror ≠ none) ∧
      ∀ mirror, serve.mirror = some mirror →
        (status_create pid serve).migration_pass = mirror.pass := by
  refine ⟨rfl, rfl, rfl, ?_, ?_⟩
  · cases h : serve.mirror <;> simp [status_create, h]
  · intro mirror h
    simp [status_create, h]

/-- C19 at a concrete input: for pid 1234, size 8192, not mirroring, with
control, the return value is 1 and the four pairs are each followed by a
space. -/
theorem C19_status_write_line_witness :
    status_write status0 []
      = (1, [] ++ ((status_pairs status0).map
              (fun p => p.1 ++ ascii "=" ++ p.2 ++ ascii " ")).flatten ++ ascii "\n") :=
  (C19_status_write_line status0 []).1

/-! ### Branch choice and zero test of the sparse write path -/

/-- C26 at failing inputs.  With only block 1 allocated, a write of one zero
byte at offset 8191, in block 1, is decided by bit 8191/8 = 1023, which is
clear: the byte goes through the zero test and is dropped, and the file keeps
159 there.  With only bit 511 set, a write of the byte 7 at offset 4095, in the
unallocated block 0, is decided by bit 4095/8 = 511: it is written straight to
the file and bit 0 stays clear. -/
theorem C26_branch_chosen_by_bit_from_div_8 :
    bit_is_set map_block1 (8191 / 4096) = true ∧
      (write_not_zeroes [0] file_pattern map_block1 zeroes 8191 1).status = .ok ∧
      (write_not_zeroes [0] file_pattern map_block1 zeroes 8191 1).mapped 8191 = 159 ∧
      bit_is_set map_bit511 (4095 / 4096) = false ∧
      (write_not_zeroes [7] zeroes map_bit511 zeroes 4095 1).status = .ok ∧
      (write_not_zeroes [7] zeroes map_bit511 zeroes 4095 1).mapped 4095 = 7 ∧
      bit_is_set (write_not_zeroes [7] zeroes map_bit511 zeroes 4095 1).map 0 = false := by
  decide

/-- The zero test of a chunk of `blockrun` zero bytes, `zerobuffer[0] != 0 ||
memcmp(zerobuffer, zerobuffer + 1, blockrun)`, depends on the byte at index
`blockrun`: when that byte is not zero the test says that the chunk is not all
zero.  For `blockrun` = 4096 that index is outside the array. -/
theorem zero_test_reads_index_blockrun (zerobuffer : Mem) (blockrun : Nat) (h0 : 0 < blockrun)
    (hz : ∀ i, i < blockrun → zerobuffer i = 0) (hn : zerobuffer blockrun ≠ 0) :
    (zerobuffer 0 != 0 || memcmp_ne zerobuffer 0 1 blockrun) = true := by
  have h : memcmp_ne zerobuffer 0 1 blockrun = true := by
    unfold memcmp_ne
    rw [List.any_eq_true]
    refine ⟨blockrun - 1, List.mem_range.mpr (by omega), ?_⟩
    have e : 1 + (blockrun - 1) = blockrun := by omega
    rw [e, Nat.zero_add, hz (blockrun - 1) (by omega)]
    simpa using fun h => hn h.symm
  rw [h, Bool.or_true]

/-- C30 at a failing input.  A chunk of one zero byte at offset 4095 of an
unallocated block, with 7 left in the second byte of `zerobuffer`: the test
`memcmp(zerobuffer, zerobuffer + 1, blockrun)` reads index `blockrun` = 1, finds
the chunk not all zero, stores it and sets bit 0; with a zero left there the
same chunk leaves bit 0 clear. -/
theorem C30_zero_test_reads_past_the_chunk :
    (write_not_zeroes [0] zeroes zeroes stack_leftover 4095 1).status = .ok ∧
      (write_not_zeroes [0] zeroes zeroes stack_leftover 4095 1).socket_in = [] ∧
      bit_is_set (write_not_zeroes [0] zeroes zeroes stack_leftover 4095 1).map 0 = true ∧
      bit_is_set (write_not_zeroes [0] zeroes zeroes zeroes 4095 1).map 0 = false := by
  decide

/-! ### Locks of the mirror -/

/-- C29 at a failing input: a 4096-byte file mirrored without interference.
Pass 0 locks and unlocks `l_io` around its one write and is promoted; the loop
ends without a pass 6, and `mirror_runner` calls `server_unlock_io` after the
switch without holding the lock. -/
theorem C29_unlock_without_lock :
    (mirror_runner mirror_env_quiet 4096 (mirror_initial_dirty_map 4096) .ACTION_NOTHING).1
        = .success ∧
      (mirror_runner mirror_env_quiet 4096 (mirror_initial_dirty_map 4096)
          .ACTION_NOTHING).2.trace
        = [.pass_start 0, .server_lock_io, .socket_nbd_write 0 4096 0, .server_unlock_io,
            .close_client, .server_unlock_io, .mirror_freed] ∧
      locks_balanced false
        (mirror_runner mirror_env_quiet 4096 (mirror_initial_dirty_map 4096)
          .ACTION_NOTHING).2.trace = false := by
  decide

/-! ### Client table -/

/-- C22 at a failing input: a table of 16 slots whose slot 0 holds a live
session.  `server_close_clients` signals stop to slot 0 and then hands the
entry of index 16, the value `i` has after the first loop, to
`join_client_thread` 16 times: no slot of the table is joined, and slot 0 still
has its thread handle on return. -/
theorem C22_joins_the_entry_after_the_table :
    ((server_close_clients thread_env_finished 16 client_table0).map
        (fun t => t.joins)) = some (List.replicate 16 16) ∧
      ((server_close_clients thread_env_finished 16 client_table0).map
        (fun t => (t.nbd_client 0).stopped)) = some true ∧
      ((server_close_clients thread_env_finished 16 client_table0).map
        (fun t => (t.nbd_client 0).thread)) = some 7 := by
  decide

theorem cleanup_client_threads_spec (env : thread_env) :
    ∀ (n i : Nat) (t : client_table),
      (∀ k, i ≤ k → k < i + n → (t.nbd_client k).thread ≠ 0 →
        env.pthread_tryjoin_np (t.nbd_client k).thread ≠ 0 → env.errno k = EBUSY) →
      ∃ t', cleanup_client_threads env n i t = some t' ∧
        ∀ k, (t'.nbd_client k).thread =
          if i ≤ k ∧ k < i + n ∧ env.pthread_tryjoin_np (t.nbd_client k).thread = 0 then 0
          else (t.nbd_client k).thread := by
  intro n
  induction n with
  | zero =>
    intro i t _
    refine ⟨t, rfl, fun k => ?_⟩
    rw [if_neg (by omega)]
  | succ n ih =>
    intro i t h
    have hstep : ∃ t1, cleanup_client_thread env t i = some t1 ∧
        (∀ k, k ≠ i → t1.nbd_client k = t.nbd_client k) ∧
        (t1.nbd_client i).thread =
          if env.pthread_tryjoin_np (t.nbd_client i).thread = 0 then 0
          else (t.nbd_client i).thread := by
      unfold cleanup_client_thread tryjoin_client_thread
      by_cases h0 : (t.nbd_client i).thread ≠ 0
      · by_cases hj : env.pthread_tryjoin_np (t.nbd_client i).thread ≠ 0
        · have he := h i (by omega) (by omega) h0 hj
          simp only [h0, hj, he, if_true, ne_eq, not_true_eq_false, not_false_eq_true, if_false]
          exact ⟨_, rfl, fun k _ => rfl, rfl⟩
        · have hj0 : env.pthread_tryjoin_np (t.nbd_client i).thread = 0 := not_not.mp hj
          simp only [h0, hj0, if_true, ne_eq, not_true_eq_false, not_false_eq_true, if_false]
          refine ⟨_, rfl, fun k hk => ?_, ?_⟩
          · simp only [hk, if_false]
          · simp
      · have h00 : (t.nbd_client i).thread = 0 := not_not.mp h0
        simp only [h00, ne_eq, not_true_eq_false, if_false]
        refine ⟨_, rfl, fun k _ => rfl, ?_⟩
        simp [h00]
    obtain ⟨t1, ht1, hother, hself⟩ := hstep
    have h1 : ∀ k, i + 1 ≤ k → k < i + 1 + n → (t1.nbd_client k).thread ≠ 0 →
        env.pthread_tryjoin_np (t1.nbd_client k).thread ≠ 0 → env.errno k = EBUSY := by
      intro k hk1 hk2 ha hb
      rw [hother k (by omega)] at ha hb
      exact h k (by omega) (by omega) ha hb
    obtain ⟨t2, ht2, hspec⟩ := ih (i + 1) t1 h1
    refine ⟨t2, ?_, fun k => ?_⟩
    · rw [cleanup_client_threads, ht1]
      exact ht2
    · rw [hspec k]
      by_cases hki : k = i
      · subst hki
        rw [if_neg (by omega), hself]
        by_cases hj : env.pthread_tryjoin_np (t.nbd_client k).thread = 0
        · rw [if_pos hj, if_pos ⟨by omega, by omega, hj⟩]
        · rw [if_neg hj, if_neg (fun h => hj h.2.2)]
      · rw [hother k hki]
        by_cases hc : i + 1 ≤ k ∧ k < i + 1 + n ∧
            env.pthread_tryjoin_np (t.nbd_client k).thread = 0
        · rw [if_pos hc, if_pos ⟨by omega, by omega, hc.2.2⟩]
        · rw [if_neg hc, if_neg]
          intro hc2
          exact hc ⟨by omega, by omega, hc2.2.2⟩

theorem find_client_slot_spec (t : client_table) :
    ∀ (n j : Nat),
      (find_client_slot t n j = -1 ∧ ∀ k, j ≤ k → k < j + n → (t.nbd_client k).thread ≠ 0) ∨
      ∃ s : Nat, find_client_slot t n j = (s : Int) ∧ j ≤ s ∧ s < j + n ∧
        (t.nbd_client s).thread = 0 ∧ ∀ k, j ≤ k → k < s → (t.nbd_client k).thread ≠ 0 := by
  intro n
  induction n with
  | zero =>
    intro j
    left
    exact ⟨rfl, fun k h1 h2 => by omega⟩
  | succ n ih =>
    intro j
    rw [find_client_slot]
    by_cases h0 : (t.nbd_client j).thread = 0
    · right
      rw [if_pos h0]
      exact ⟨j, rfl, le_refl _, by omega, h0, fun k h1 h2 => by omega⟩
    · rw [if_neg h0]
      rcases ih (j + 1) with ⟨hr, hall⟩ | ⟨s, hr, hs1, hs2, hs0, hbefore⟩
      · left
        refine ⟨hr, fun k h1 h2 => ?_⟩
        by_cases hk : k = j
        · subst hk
          exact h0
        · exact hall k (by omega) (by omega)
      · right
        refine ⟨s, hr, by omega, by omega, hs0, fun k h1 h2 => ?_⟩
        by_cases hk : k = j
        · subst hk
          exact h0
        · exact hbefore k (by omega) h2

/-- When `errno` holds `EBUSY` at every join that does not succeed,
`cleanup_and_find_client_slot` returns: the slots of the table whose thread
could be joined are free afterwards, the others are as they were, and the
result is the smallest index of a free slot, or -1 when no slot of the table
is free. -/
theorem cleanup_and_find_client_slot_spec (env : thread_env) (MAX_NBD_CLIENTS : Nat)
    (t : client_table)
    (herrno : ∀ k, k < MAX_NBD_CLIENTS → (t.nbd_client k).thread ≠ 0 →
      env.pthread_tryjoin_np (t.nbd_client k).thread ≠ 0 → env.errno k = EBUSY) :
    ∃ slot t', cleanup_and_find_client_slot env MAX_NBD_CLIENTS t = some (slot, t') ∧
      (∀ k, k < MAX_NBD_CLIENTS →
        ((t'.nbd_client k).thread = 0 ↔
          (t.nbd_client k).thread = 0 ∨ env.pthread_tryjoin_np (t.nbd_client k).thread = 0)) ∧
      (slot = -1 ↔ ∀ k, k < MAX_NBD_CLIENTS → (t'.nbd_client k).thread ≠ 0) ∧
      (slot ≠ -1 → 0 ≤ slot ∧ slot < MAX_NBD_CLIENTS ∧ (t'.nbd_client slot.toNat).thread = 0 ∧
        ∀ k : Nat, (k : Int) < slot → (t'.nbd_client k).thread ≠ 0) := by
  obtain ⟨t', ht', hspec⟩ := cleanup_client_threads_spec env MAX_NBD_CLIENTS 0 t
    (fun k _ hk => herrno k (by omega))
  refine ⟨find_client_slot t' MAX_NBD_CLIENTS 0, t', ?_, ?_, ?_, ?_⟩
  · unfold cleanup_and_find_client_slot
    rw [ht']
  · intro k hk
    rw [hspec k]
    by_cases hj : env.pthread_tryjoin_np (t.nbd_client k).thread = 0
    · rw [if_pos ⟨by omega, by omega, hj⟩]
      simp [hj]
    · rw [if_neg (fun h => hj h.2.2)]
      simp [hj]
  · rcases find_client_slot_spec t' MAX_NBD_CLIENTS 0 with ⟨hr, hall⟩ | ⟨s, hr, _, hs2, hs0, _⟩
    · rw [hr]
      simp only [true_iff]
      exact fun k hk => hall k (by omega) (by omega)
    · rw [hr]
      constructor
      · intro h
        omega
      · intro h
        exact absurd hs0 (h s (by omega))
  · intro hne
    rcases find_client_slot_spec t' MAX_NBD_CLIENTS 0 with ⟨hr, _⟩ | ⟨s, hr, _, hs2, hs0, hbefore⟩
    · exact absurd hr hne
    · rw [hr]
      refine ⟨by omega, by omega, ?_, fun k hk => hbefore k (by omega) (by omega)⟩
      simpa using hs0

/-- C23 at a failing input: a table of 16 slots whose slot 0 holds a thread that
is still running, all other slots free, `errno` 0.  `pthread_tryjoin_np`
returns `EBUSY`, the code looks for `EBUSY` in `errno`, and
`cleanup_and_find_client_slot` leaves through the server error instead of
returning slot 1.  It returns slot 1 when `errno` holds `EBUSY`, and slot 0,
freed by the call, when the thread has finished. -/
theorem C23_busy_thread_is_a_server_error :
    (cleanup_and_find_client_slot thread_env_running 16 client_table0).isNone = true ∧
      ((cleanup_and_find_client_slot thread_env_busy 16 client_table0).map (fun r => r.1))
        = some 1 ∧
      ((cleanup_and_find_client_slot thread_env_finished 16 client_table0).map (fun r => r.1))
        = some 0 := by
  decide

/-! ### Whole bytes of an ACL entry -/

theorem getD_lt_256 (a : List Nat) (ha : ∀ x ∈ a, x < 256) (i : Nat) : a.getD i 0 < 256 := by
  by_cases h : i < a.length
  · rw [List.getD_eq_getElem _ _ h]
    exact ha _ (List.getElem_mem _)
  · rw [List.getD_eq_default _ _ (by omega)]
    decide

theorem leading_bits_equal_byte (n : Nat) (a b : List Nat) (ha : ∀ x ∈ a, x < 256)
    (hb : ∀ x ∈ b, x < 256) (h : leading_bits_equal n a b) (i : Nat) (hi : 8 * (i + 1) ≤ n) :
    a.getD i 0 = b.getD i 0 := by
  rw [byte_eq_iff_testBit _ _ (getD_lt_256 a ha i) (getD_lt_256 b hb i)]
  intro j hj
  have hbit := h (8 * i + (7 - j)) (by omega)
  unfold address_bit at hbit
  have e1 : (8 * i + (7 - j)) / 8 = i := by omega
  have e2 : 7 - (8 * i + (7 - j)) % 8 = j := by omega
  rw [e1, e2] at hbit
  exact hbit

theorem is_included_in_acl_single_no_match (entry : ip_and_mask) (test : sockaddr)
    (h : acl_testbits_loop entry.mask test.raw_address entry.ip.raw_address = false) :
    is_included_in_acl [entry] test = 0 := by
  unfold is_included_in_acl
  split_ifs
  · rfl
  · simp_all
  · rfl

theorem acl_testbits_loop_byte_differs (entry : ip_and_mask) (test : sockaddr)
    (hentry : entry.wf) (htest : test.wf) (i : Nat) (hi : (8 * (i + 1) : Int) ≤ entry.mask)
    (hne : test.raw_address.getD i 0 ≠ entry.ip.raw_address.getD i 0) :
    acl_testbits_loop entry.mask test.raw_address entry.ip.raw_address = false := by
  by_contra hloop
  have hloop1 : acl_testbits_loop entry.mask test.raw_address entry.ip.raw_address = true := by
    simpa using hloop
  have hbits := (acl_testbits_loop_iff_mask entry.mask test.raw_address entry.ip.raw_address
    htest.2 hentry.1.2).mp hloop1
  exact hne (leading_bits_equal_byte entry.mask.toNat _ _ htest.2 hentry.1.2 hbits i (by omega))

/-- C27 as stated fails: the entry 192.168.1.0/24, whose prefix length is a
multiple of 8, does not accept 192.168.2.7, which differs from it in the third
byte, inside the prefix. -/
theorem C27_multiple_of_8_counterexample :
    acl_192_168_1_0_24.mask % 8 = 0 ∧
      is_included_in_acl [acl_192_168_1_0_24] (ipv4 192 168 2 7) = 0 :=
  ⟨by decide, is_included_in_acl_single_no_match _ _
    (acl_testbits_loop_byte_differs acl_192_168_1_0_24 (ipv4 192 168 2 7) (by decide) (by decide)
      2 (by decide) (by decide))⟩

/-- C27 (as amended): in `is_included_in_acl`, while 8 or more bits of the prefix
are still to be tested the two bytes are compared whole, and
`testmasks[testbits % 8]` is used only when 1 to 7 bits are left, so index 0 of
`testmasks` is never used: with a number of bits that is a multiple of 8 left,
bytes that differ end the match.  An entry whose prefix length is a multiple of
8 rejects an address that differs from it in a byte inside the prefix. -/
theorem C27_whole_bytes_compared (entry : ip_and_mask) (test : sockaddr)
    (hentry : entry.wf) (htest : test.wf) (hmask : entry.mask % 8 = 0) (i : Nat)
    (hi : (8 * i : Int) < entry.mask)
    (hne : test.raw_address.getD i 0 ≠ entry.ip.raw_address.getD i 0) :
    is_included_in_acl [entry] test = 0 ∧
      ∀ (testbits : Int) (a b : List Nat), testbits > 0 → testbits % 8 = 0 →
        a.headD 0 ≠ b.headD 0 → acl_testbits_loop testbits a b = false := by
  refine ⟨is_included_in_acl_single_no_match _ _
    (acl_testbits_loop_byte_differs entry test hentry htest i (by omega) hne), ?_⟩
  intro testbits a b hpos hmod hhead
  rw [acl_testbits_loop, dif_pos hpos, if_pos (by omega), if_pos hhead]

/-- C27 at a concrete input: 192.168.1.0/24 against 192.168.2.7. -/
theorem C27_whole_bytes_compared_witness :
    is_included_in_acl [acl_192_168_1_0_24] (ipv4 192 168 2 7) = 0 :=
  (C27_whole_bytes_compared acl_192_168_1_0_24 (ipv4 192 168 2 7) (by decide) (by decide)
    (by decide) 2 (by decide) (by decide)).1

/-! ### Reading a line -/

theorem mem_write_cons (buf : Mem) (pos : Nat) (c : Nat) (l : List Nat) :
    mem_write (mem_write buf pos [c]) (pos + 1) l = mem_write buf pos (c :: l) := by
  funext a
  unfold mem_write
  simp only [List.length_cons, List.length_nil, Nat.zero_add]
  by_cases h1 : pos + 1 ≤ a ∧ a < pos + 1 + l.length
  · rw [if_pos h1, if_pos ⟨by omega, by omega⟩]
    have e : a - pos = (a - (pos + 1)) + 1 := by omega
    rw [e, List.getD_cons_succ]
  · rw [if_neg h1]
    by_cases h2 : a = pos
    · subst h2
      rw [if_pos ⟨le_refl _, by omega⟩, if_pos ⟨le_refl _, by omega⟩]
      simp
    · rw [if_neg (by omega), if_neg (by omega)]

theorem mem_write_nil (buf : Mem) (pos : Nat) : mem_write buf pos [] = buf := by
  funext a
  unfold mem_write
  rw [if_neg]
  simp only [List.length_nil]
  omega

theorem read_until_newline_loop_newline (bufsize : Int) (rest : List Nat) :
    ∀ (line : List Nat) (cur : Int) (buf : Mem), 10 ∉ line → 0 ≤ cur →
      cur + line.length < bufsize →
      read_until_newline_loop bufsize (line ++ 10 :: rest) cur buf
        = (cur + line.length + 1, mem_write buf cur.toNat (line ++ [0]), rest) := by
  intro line
  induction line with
  | nil =>
    intro cur buf _ _ hlt
    simp only [List.length_nil, Nat.cast_zero, add_zero] at hlt
    simp only [List.nil_append, read_until_newline_loop, hlt, if_true, List.length_nil,
      Nat.cast_zero, add_zero]
  | cons c line ih =>
    intro cur buf hno hcur hlt
    have hc : c ≠ 10 := fun h => hno (by simp [h])
    have hline : 10 ∉ line := fun h => hno (List.mem_cons_of_mem _ h)
    simp only [List.length_cons, Nat.cast_add, Nat.cast_one] at hlt
    have hlt1 : cur < bufsize := by omega
    simp only [List.cons_append, read_until_newline_loop, hlt1, if_true, hc, if_false,
      List.append_eq]
    rw [ih (cur + 1) _ hline (by omega) (by omega)]
    have e : (cur + 1).toNat = cur.toNat + 1 := by omega
    rw [e, mem_write_cons]
    simp only [List.length_cons, Nat.cast_add, Nat.cast_one, List.cons_append]
    congr 1
    omega

theorem read_until_newline_loop_end (bufsize : Int) :
    ∀ (line : List Nat) (cur : Int) (buf : Mem), 10 ∉ line → 0 ≤ cur →
      cur + line.length < bufsize →
      read_until_newline_loop bufsize line cur buf = (-1, mem_write buf cur.toNat line, []) := by
  intro line
  induction line with
  | nil =>
    intro cur buf _ _ hlt
    simp only [List.length_nil, Nat.cast_zero, add_zero] at hlt
    simp only [read_until_newline_loop, hlt, if_true, mem_write_nil]
  | cons c line ih =>
    intro cur buf hno hcur hlt
    have hc : c ≠ 10 := fun h => hno (by simp [h])
    have hline : 10 ∉ line := fun h => hno (List.mem_cons_of_mem _ h)
    simp only [List.length_cons, Nat.cast_add, Nat.cast_one] at hlt
    have hlt1 : cur < bufsize := by omega
    simp only [read_until_newline_loop, hlt1, if_true, hc, if_false]
    rw [ih (cur + 1) _ hline (by omega) (by omega)]
    have e : (cur + 1).toNat = cur.toNat + 1 := by omega
    rw [e, mem_write_cons]

theorem read_until_newline_loop_full (bufsize : Int) (rest : List Nat) :
    ∀ (line : List Nat) (cur : Int) (buf : Mem), 10 ∉ line → 0 ≤ cur →
      cur + line.length = bufsize →
      read_until_newline_loop bufsize (line ++ rest) cur buf
        = (bufsize + 1, mem_write buf cur.toNat line, rest) := by
  intro line
  induction line with
  | nil =>
    intro cur buf _ _ heq
    simp only [List.length_nil, Nat.cast_zero, add_zero] at heq
    subst heq
    rw [mem_write_nil, List.nil_append]
    cases rest with
    | nil => simp [read_until_newline_loop]
    | cons c rest => simp [read_until_newline_loop]
  | cons c line ih =>
    intro cur buf hno hcur heq
    have hc : c ≠ 10 := fun h => hno (by simp [h])
    have hline : 10 ∉ line := fun h => hno (List.mem_cons_of_mem _ h)
    simp only [List.length_cons, Nat.cast_add, Nat.cast_one] at heq
    have hlt1 : cur < bufsize := by omega
    simp only [List.cons_append, read_until_newline_loop, hlt1, if_true, hc, if_false,
      List.append_eq]
    rw [ih (cur + 1) _ hline (by omega) (by omega)]
    have e : (cur + 1).toNat = cur.toNat + 1 := by omega
    rw [e, mem_write_cons]

/-- C21 as stated fails: with a buffer of 4 bytes and the input `abcdef` and a
newline, whose first newline is at index 6, `read_until_newline` returns 5, not
7, having read 4 bytes; the buffer holds `abcd` and no NUL.  On the input
`abcdef` that ends without a newline it returns 5 as well, not -1. -/
theorem C21_long_line_counterexample :
    (read_until_newline (ascii "abcdef\n") zeroes 4).1 = 5 ∧
      mem_read (read_until_newline (ascii "abcdef\n") zeroes 4).2.1 0 4 = ascii "abcd" ∧
      (read_until_newline (ascii "abcdef\n") zeroes 4).2.2 = ascii "ef\n" ∧
      (read_until_newline (ascii "abcdef") zeroes 4).1 = 5 := by
  decide

/-- C21 (as amended): for every input, every buffer and every `bufsize`, and
`line` without a newline.  If `line` is shorter than
`bufsize` and a newline follows it, `read_until_newline` stores `line` and a NUL
at the start of the buffer, returns the length of `line` plus 1 and leaves the
input after the newline.  If `line` is shorter than `bufsize` and the input ends
after it, the result is -1.  If `line` has `bufsize` bytes, whatever follows,
it stops there and returns `bufsize` + 1 with `line` in the buffer and no NUL
stored. -/
theorem C21_read_until_newline (line rest : List Nat) (buf : Mem) (bufsize : Int)
    (hline : 10 ∉ line) :
    ((line.length : Int) < bufsize →
        read_until_newline (line ++ 10 :: rest) buf bufsize
          = ((line.length : Int) + 1, mem_write buf 0 (line ++ [0]), rest)) ∧
      ((line.length : Int) < bufsize →
        read_until_newline line buf bufsize = (-1, mem_write buf 0 line, [])) ∧
      ((line.length : Int) = bufsize →
        read_until_newline (line ++ rest) buf bufsize
          = (bufsize + 1, mem_write buf 0 line, rest)) := by
  refine ⟨fun h => ?_, fun h => ?_, fun h => ?_⟩
  · have := read_until_newline_loop_newline bufsize rest line 0 buf hline (le_refl _) (by omega)
    simpa [read_until_newline] using this
  · have := read_until_newline_loop_end bufsize line 0 buf hline (le_refl _) (by omega)
    simpa [read_until_newline] using this
  · have := read_until_newline_loop_full bufsize rest line 0 buf hline (le_refl _) (by omega)
    simpa [read_until_newline] using this

/-- C21 at a concrete input: the line `status` read into a buffer of 256 bytes. -/
theorem C21_read_until_newline_witness :
    read_until_newline (ascii "status" ++ 10 :: ascii "\n") zeroes 256
      = (((ascii "status").length : Int) + 1, mem_write zeroes 0 (ascii "status" ++ [0]),
          ascii "\n") :=
  (C21_read_until_newline (ascii "status") (ascii "\n") zeroes 256 (by decide)).1 (by decide)

/-! ### Bitset ranges and run counts -/

theorem bitset_range_bits (r a l : Nat) (hr : 0 < r) :
    a / r + ((a + l + r - 1) / r - a / r) = (a + l + r - 1) / r := by
  have h : a / r ≤ (a + l + r - 1) / r := Nat.div_le_div_right (by omega)
  omega

theorem bitset_range_holds (r a l x : Nat) (hr : 0 < r) (h1 : a ≤ x) (h2 : x < a + l) :
    a / r ≤ x / r ∧ x / r < (a + l + r - 1) / r := by
  refine ⟨Nat.div_le_div_right h1, ?_⟩
  have h3 : (x + r) / r ≤ (a + l + r - 1) / r := Nat.div_le_div_right (by omega)
  rw [Nat.add_div_right x hr] at h3
  omega

/-- C24: for every bitset of resolution `r` at least 1 and every `a` and `l`,
`bitset_set_range(a, l)` sets the bits `a / r` up to, not including,
`(a + l + r - 1) / r`, the quotient rounded up, and leaves the others as they
are, so the bit of every byte of `[a, a + l)` is set; `bitset_clear_range(a, l)`
clears the same bits and no others.  With resolution 100: `set_range(0, 50)`
gives the word 1, `set_range(1499, 2)` sets bits 14 and 15, and that followed by
`clear_range(1300, 200)` leaves 0x8000. -/
theorem C24_bitset_ranges (map : bitset_mapping) (a l : Nat) (hr : 0 < map.resolution) :
    (∀ i, bit_is_set (bitset_set_range map a l).bits i
        = (decide (a / map.resolution ≤ i ∧ i < (a + l + map.resolution - 1) / map.resolution)
            || bit_is_set map.bits i)) ∧
      (∀ x, a ≤ x → x < a + l → bitset_is_set_at (bitset_set_range map a l) x = true) ∧
      (∀ i, bit_is_set (bitset_clear_range map a l).bits i
        = (!decide (a / map.resolution ≤ i ∧ i < (a + l + map.resolution - 1) / map.resolution)
            && bit_is_set map.bits i)) ∧
      (∀ x, a ≤ x → x < a + l → bitset_is_set_at (bitset_clear_range map a l) x = false) ∧
      bitset_word (bitset_set_range (bitset_alloc 6400 100) 0 50) = 1 ∧
      bitset_word (bitset_set_range (bitset_alloc 6400 100) 1499 2) = 0xc000 ∧
      bitset_word (bitset_clear_range (bitset_set_range (bitset_alloc 6400 100) 1499 2) 1300 200)
        = 0x8000 := by
  have hset : ∀ i, bit_is_set (bitset_set_range map a l).bits i
      = (decide (a / map.resolution ≤ i ∧ i < (a + l + map.resolution - 1) / map.resolution)
          || bit_is_set map.bits i) := by
    intro i
    simp only [bitset_set_range]
    rw [bit_is_set_bit_set_range, bitset_range_bits _ _ _ hr]
  have hclear : ∀ i, bit_is_set (bitset_clear_range map a l).bits i
      = (!decide (a / map.resolution ≤ i ∧ i < (a + l + map.resolution - 1) / map.resolution)
          && bit_is_set map.bits i) := by
    intro i
    simp only [bitset_clear_range]
    rw [bit_is_set_bit_clear_range, bitset_range_bits _ _ _ hr]
  refine ⟨hset, ?_, hclear, ?_, by decide, by decide, by decide⟩
  · intro x h1 h2
    have hx := bitset_range_holds map.resolution a l x hr h1 h2
    have hres : (bitset_set_range map a l).resolution = map.resolution := rfl
    unfold bitset_is_set_at
    rw [hres, hset, decide_eq_true hx]
    rfl
  · intro x h1 h2
    have hx := bitset_range_holds map.resolution a l x hr h1 h2
    have hres : (bitset_clear_range map a l).resolution = map.resolution := rfl
    unfold bitset_is_set_at
    rw [hres, hclear, decide_eq_true hx]
    rfl

/-- C24 at a concrete input: `set_range(1499, 2)` on a cleared map of resolution
100 sets the bits of the bytes 1499 and 1500, which are bits 14 and 15. -/
theorem C24_bitset_ranges_witness :
    bitset_is_set_at (bitset_set_range (bitset_alloc 6400 100) 1499 2) 1499 = true ∧
      bitset_is_set_at (bitset_set_range (bitset_alloc 6400 100) 1499 2) 1500 = true :=
  ⟨(C24_bitset_ranges (bitset_alloc 6400 100) 1499 2 (by decide)).2.1 1499 (by decide)
      (by decide),
    (C24_bitset_ranges (bitset_alloc 6400 100) 1499 2 (by decide)).2.1 1500 (by decide)
      (by decide)⟩

theorem bit_run_count_loop_spec (b : Mem) (value : Bool) :
    ∀ (len from_ : Nat),
      bit_run_count_loop b value from_ len ≤ len ∧
        (∀ i, i < bit_run_count_loop b value from_ len → bit_is_set b (from_ + i) = value) ∧
        (bit_run_count_loop b value from_ len < len →
          bit_is_set b (from_ + bit_run_count_loop b value from_ len) ≠ value) := by
  intro len
  induction len with
  | zero =>
    intro from_
    simp [bit_run_count_loop]
  | succ len ih =>
    intro from_
    rw [bit_run_count_loop]
    by_cases h : (bit_is_set b from_ == value) = true
    · rw [if_pos h]
      obtain ⟨h1, h2, h3⟩ := ih (from_ + 1)
      have hv : bit_is_set b from_ = value := by simpa using h
      refine ⟨by omega, fun i hi => ?_, fun hlt => ?_⟩
      · cases i with
        | zero => exact hv
        | succ i =>
          have := h2 i (by omega)
          have e : from_ + (i + 1) = from_ + 1 + i := by omega
          rw [e]
          exact this
      · have := h3 (by omega)
        have e : from_ + (1 + bit_run_count_loop b value (from_ + 1) len)
            = from_ + 1 + bit_run_count_loop b value (from_ + 1) len := by omega
        rw [e]
        exact this
    · rw [if_neg h]
      refine ⟨by omega, fun i hi => by omega, fun _ => ?_⟩
      simpa using h


theorem test_bit_runs_buffer_bit (i : Nat) :
    bit_is_set test_bit_runs_buffer i =
      decide ((56 ≤ i ∧ i < 153) ∨
        (175 ≤ i ∧ i < 187) ∨
        (270 ≤ i ∧ i < 271) ∨
        (316 ≤ i ∧ i < 396) ∨
        (481 ≤ i ∧ i < 532) ∨
        (596 ≤ i ∧ i < 636) ∨
        (699 ≤ i ∧ i < 766) ∨
        (841 ≤ i ∧ i < 905) ∨
        (999 ≤ i ∧ i < 1080) ∨
        (1159 ≤ i ∧ i < 1221)) := by
  have h0 : bit_is_set (fun _ => 0) i = false := by simp [bit_is_set]
  simp only [test_bit_runs_buffer, test_bit_runs_lengths, test_bit_runs_build,
    bit_is_set_bit_set_range, h0, Bool.or_false]
  simp only [← Bool.decide_or]
  congr 1
  apply propext
  constructor <;> intro h <;> omega

theorem bit_run_count_eq (b : Mem) (a m r : Nat) (hr : r ≤ m)
    (hall : ∀ i, a ≤ i → i < a + r → bit_is_set b i = bit_is_set b a)
    (hend : r < m → bit_is_set b (a + r) ≠ bit_is_set b a) : bit_run_count b a m = r :=
  bit_run_count_loop_eq b (bit_is_set b a) r m a hr hall hend

theorem test_bit_runs_run_0 : bit_run_count test_bit_runs_buffer 0 2048 = 56 := by
  apply bit_run_count_eq
  · decide
  · intro i h1 h2
    rw [test_bit_runs_buffer_bit, test_bit_runs_buffer_bit, decide_eq_decide]
    omega
  · intro _
    rw [test_bit_runs_buffer_bit, test_bit_runs_buffer_bit, ne_eq, decide_eq_decide]
    omega

theorem test_bit_runs_run_1 : bit_run_count test_bit_runs_buffer 56 1992 = 97 := by
  apply bit_run_count_eq
  · decide
  · intro i h1 h2
    rw [test_bit_runs_buffer_bit, test_bit_runs_buffer_bit, decide_eq_decide]
    omega
  · intro _
    rw [test_bit_runs_buffer_bit, test_bit_runs_buffer_bit, ne_eq, decide_eq_decide]
    omega

theorem test_bit_runs_run_2 : bit_run_count test_bit_runs_buffer 153 1895 = 22 := by
  apply bit_run_count_eq
  · decide
  · intro i h1 h2
    rw [test_bit_runs_buffer_bit, test_bit_runs_buffer_bit, decide_eq_decide]
    omega
  · intro _
    rw [test_bit_runs_buffer_bit, test_bit_runs_buffer_bit, ne_eq, decide_eq_decide]
    omega

theorem test_bit_runs_run_3 : bit_run_count test_bit_runs_buffer 175 1873 = 12 := by
  apply bit_run_count_eq
  · decide
  · intro i h1 h2
    rw [test_bit_runs_buffer_bit, test_bit_runs_buffer_bit, decide_eq_decide]
    omega
  · intro _
    rw [test_bit_runs_buffer_bit, test_bit_runs_buffer_bit, ne_eq, decide_eq_decide]
    omega

theorem test_bit_runs_run_4 : bit_run_count test_bit_runs_buffer 187 1861 = 83 := by
  apply bit_run_count_eq
  · decide
  · intro i h1 h2
    rw [test_bit_runs_buffer_bit, test_bit_runs_buffer_bit, decide_eq_decide]
    omega
  · intro _
    rw [test_bit_runs_buffer_bit, test_bit_runs_buffer_bit, ne_eq, decide_eq_decide]
    omega

theorem test_bit_runs_run_5 : bit_run_count test_bit_runs_buffer 270 1778 = 1 := by
  apply bit_run_count_eq
  · decide
  · intro i h1 h2
    rw [test_bit_runs_buffer_bit, test_bit_runs_buffer_bit, decide_eq_decide]
    omega
  · intro _
    rw [test_bit_runs_buffer_bit, test_bit_runs_buffer_bit, ne_eq, decide_eq_decide]
    omega

theorem test_bit_runs_run_6 : bit_run_count test_bit_runs_buffer 271 1777 = 45 := by
  apply bit_run_count_eq
  · decide
  · intro i h1 h2
    rw [test_bit_runs_buffer_bit, test_bit_runs_buffer_bit, decide_eq_decide]
    omega
  · intro _
    rw [test_bit_runs_buffer_bit, test_bit_runs_buffer_bit, ne_eq, decide_eq_decide]
    omega

theorem test_bit_runs_run_7 : bit_run_count test_bit_runs_buffer 316 1732 = 80 := by
  apply bit_run_count_eq
  · decide
  · intro i h1 h2
    rw [test_bit_runs_buffer_bit, test_bit_runs_buffer_bit, decide_eq_decide]
    omega
  · intro _
    rw [test_bit_runs_buffer_bit, test_bit_runs_buffer_bit, ne_eq, decide_eq_decide]
    omega

theorem test_bit_runs_run_8 : bit_run_count test_bit_runs_buffer 396 1652 = 85 := by
  apply bit_run_count_eq
  · decide
  · intro i h1 h2
    rw [test_bit_runs_buffer_bit, test_bit_runs_buffer_bit, decide_eq_decide]
    omega
  · intro _
    rw [test_bit_runs_buffer_bit, test_bit_runs_buffer_bit, ne_eq, decide_eq_decide]
    omega

theorem test_bit_runs_run_9 : bit_run_count test_bit_runs_buffer 481 1567 = 51 := by
  apply bit_run_count_eq
  · decide
  · intro i h1 h2
    rw [test_bit_runs_buffer_bit, test_bit_runs_buffer_bit, decide_eq_decide]
    omega
  · intro _
    rw [test_bit_runs_buffer_bit, test_bit_runs_buffer_bit, ne_eq, decide_eq_decide]
    omega

theorem test_bit_runs_run_10 : bit_run_count test_bit_runs_buffer 532 1516 = 64 := by
  apply bit_run_count_eq
  · decide
  · intro i h1 h2
    rw [test_bit_runs_buffer_bit, test_bit_runs_buffer_bit, decide_eq_decide]
    omega
  · intro _
    rw [test_bit_runs_buffer_bit, test_bit_runs_buffer_bit, ne_eq, decide_eq_decide]
    omega

theorem test_bit_runs_run_11 : bit_run_count test_bit_runs_buffer 596 1452 = 40 := by
  apply bit_run_count_eq
  · decide
  · intro i h1 h2
    rw [test_bit_runs_buffer_bit, test_bit_runs_buffer_bit, decide_eq_decide]
    omega
  · intro _
    rw [test_bit_runs_buffer_bit, test_bit_runs_buffer_bit, ne_eq, decide_eq_decide]
    omega

theorem test_bit_runs_run_12 : bit_run_count test_bit_runs_buffer 636 1412 = 63 := by
  apply bit_run_count_eq
  · decide
  · intro i h1 h2
    rw [test_bit_runs_buffer_bit, test_bit_runs_buffer_bit, decide_eq_decide]
    omega
  · intro _
    rw [test_bit_runs_buffer_bit, test_bit_runs_buffer_bit, ne_eq, decide_eq_decide]
    omega

theorem test_bit_runs_run_13 : bit_run_count test_bit_runs_buffer 699 1349 = 67 := by
  apply bit_run_count_eq
  · decide
  · intro i h1 h2
    rw [test_bit_runs_buffer_bit, test_bit_runs_buffer_bit, decide_eq_decide]
    omega
  · intro _
    rw [test_bit_runs_buffer_bit, test_bit_runs_buffer_bit, ne_eq, decide_eq_decide]
    omega

theorem test_bit_runs_run_14 : bit_run_count test_bit_runs_buffer 766 1282 = 75 := by
  apply bit_run_count_eq
  · decide
  · intro i h1 h2
    rw [test_bit_runs_buffer_bit, test_bit_runs_buffer_bit, decide_eq_decide]
    omega
  · intro _
    rw [test_bit_runs_buffer_bit, test_bit_runs_buffer_bit, ne_eq, decide_eq_decide]
    omega

theorem test_bit_runs_run_15 : bit_run_count test_bit_runs_buffer 841 1207 = 64 := by
  apply bit_run_count_eq
  · decide
  · intro i h1 h2
    rw [test_bit_runs_buffer_bit, test_bit_runs_buffer_bit, decide_eq_decide]
    omega
  · intro _
    rw [test_bit_runs_buffer_bit, test_bit_runs_buffer_bit, ne_eq, decide_eq_decide]
    omega

theorem test_bit_runs_run_16 : bit_run_count test_bit_runs_buffer 905 1143 = 94 := by
  apply bit_run_count_eq
  · decide
  · intro i h1 h2
    rw [test_bit_runs_buffer_bit, test_bit_runs_buffer_bit, decide_eq_decide]
    omega
  · intro _
    rw [test_bit_runs_buffer_bit, test_bit_runs_buffer_bit, ne_eq, decide_eq_decide]
    omega

theorem test_bit_runs_run_17 : bit_run_count test_bit_runs_buffer 999 1049 = 81 := by
  apply bit_run_count_eq
  · decide
  · intro i h1 h2
    rw [test_bit_runs_buffer_bit, test_bit_runs_buffer_bit, decide_eq_decide]
    omega
  · intro _
    rw [test_bit_runs_buffer_bit, test_bit_runs_buffer_bit, ne_eq, decide_eq_decide]
    omega

theorem test_bit_runs_run_18 : bit_run_count test_bit_runs_buffer 1080 968 = 79 := by
  apply bit_run_count_eq
  · decide
  · intro i h1 h2
    rw [test_bit_runs_buffer_bit, test_bit_runs_buffer_bit, decide_eq_decide]
    omega
  · intro _
    rw [test_bit_runs_buffer_bit, test_bit_runs_buffer_bit, ne_eq, decide_eq_decide]
    omega

theorem test_bit_runs_run_19 : bit_run_count test_bit_runs_buffer 1159 889 = 62 := by
  apply bit_run_count_eq
  · decide
  · intro i h1 h2
    rw [test_bit_runs_buffer_bit, test_bit_runs_buffer_bit, decide_eq_decide]
    omega
  · intro _
    rw [test_bit_runs_buffer_bit, test_bit_runs_buffer_bit, ne_eq, decide_eq_decide]
    omega

theorem test_bit_runs_walk :
    bit_runs_walk test_bit_runs_buffer 2048 20 0 = test_bit_runs_lengths := by
  simp only [bit_runs_walk, Nat.sub_zero, Nat.zero_add, Nat.reduceAdd, Nat.reduceSub,
    test_bit_runs_run_0, test_bit_runs_run_1, test_bit_runs_run_2, test_bit_runs_run_3,
    test_bit_runs_run_4, test_bit_runs_run_5, test_bit_runs_run_6, test_bit_runs_run_7,
    test_bit_runs_run_8, test_bit_runs_run_9, test_bit_runs_run_10, test_bit_runs_run_11,
    test_bit_runs_run_12, test_bit_runs_run_13, test_bit_runs_run_14, test_bit_runs_run_15,
    test_bit_runs_run_16, test_bit_runs_run_17, test_bit_runs_run_18, test_bit_runs_run_19,
    test_bit_runs_lengths]

/-- C25: for every bit buffer, every start `a` and every limit `m` at least 1,
`bit_run_count(b, a, m)` is between 1 and `m`, every position of the run has
the value of position `a`, and when the count is below `m` the position after
the run has the other value: the count is the largest `r` up to `m` with one
value on `[a, a + r)`.  On the buffer of `test_bit_runs`, walking from 0 by the
counts returns the 20 run lengths of the test in order. -/
theorem C25_bit_run_count (b : Mem) (a m : Nat) (hm : 1 ≤ m) :
    1 ≤ bit_run_count b a m ∧ bit_run_count b a m ≤ m ∧
      (∀ i, i < bit_run_count b a m → bit_is_set b (a + i) = bit_is_set b a) ∧
      (bit_run_count b a m < m → bit_is_set b (a + bit_run_count b a m) ≠ bit_is_set b a) ∧
      (∀ r, r ≤ m → (∀ i, i < r → bit_is_set b (a + i) = bit_is_set b a) →
        r ≤ bit_run_count b a m) ∧
      bit_runs_walk test_bit_runs_buffer 2048 20 0 = test_bit_runs_lengths := by
  obtain ⟨h1, h2, h3⟩ := bit_run_count_loop_spec b (bit_is_set b a) m a
  have hpos : 1 ≤ bit_run_count b a m := by
    unfold bit_run_count
    obtain ⟨m, rfl⟩ : ∃ k, m = k + 1 := ⟨m - 1, by omega⟩
    rw [bit_run_count_loop, if_pos (by simp)]
    omega
  refine ⟨hpos, h1, h2, h3, ?_, test_bit_runs_walk⟩
  intro r hr hall
  by_contra hlt
  have hlt1 : bit_run_count b a m < r := by omega
  exact h3 (by unfold bit_run_count at hlt1; omega) (hall _ hlt1)

/-- C25 at a concrete input: in a buffer whose only set bit is bit 1, the run of
clear bits from 0 has length 1 and the run from 2 fills the limit. -/
theorem C25_bit_run_count_witness :
    1 ≤ bit_run_count map_block1 0 8 ∧ bit_run_count map_block1 0 8 ≤ 8 :=
  ⟨(C25_bit_run_count map_block1 0 8 (by decide)).1,
    (C25_bit_run_count map_block1 0 8 (by decide)).2.1⟩

/-! ### Building the allocation map -/

theorem bitset_set_range_keeps (map : bitset_mapping) (a l i : Nat)
    (h : bit_is_set map.bits i = true) : bit_is_set (bitset_set_range map a l).bits i = true := by
  simp only [bitset_set_range]
  rw [bit_is_set_bit_set_range, h, Bool.or_true]

theorem bitset_set_range_sets (map : bitset_mapping) (a l x : Nat) (hr : 0 < map.resolution)
    (h1 : a ≤ x) (h2 : x < a + l) : bitset_is_set_at (bitset_set_range map a l) x = true := by
  have hx := bitset_range_holds map.resolution a l x hr h1 h2
  unfold bitset_is_set_at
  simp only [bitset_set_range]
  rw [bit_is_set_bit_set_range, bitset_range_bits _ _ _ hr, decide_eq_true hx]
  rfl

theorem build_allocation_map_extents_spec (extents : List fiemap_extent) :
    ∀ map : bitset_mapping,
      (build_allocation_map_extents map extents).size = map.size ∧
        (build_allocation_map_extents map extents).resolution = map.resolution ∧
        (∀ i, bit_is_set map.bits i = true →
          bit_is_set (build_allocation_map_extents map extents).bits i = true) ∧
        (0 < map.resolution → ∀ e ∈ extents, ∀ x, e.fe_logical ≤ x →
          x < e.fe_logical + e.fe_length →
          bitset_is_set_at (build_allocation_map_extents map extents) x = true) := by
  induction extents with
  | nil =>
    intro map
    exact ⟨rfl, rfl, fun _ h => h, fun _ e he => by simp at he⟩
  | cons extent extents ih =>
    intro map
    obtain ⟨h1, h2, h3, h4⟩ := ih (bitset_set_range map extent.fe_logical extent.fe_length)
    refine ⟨h1, h2, fun i hi => h3 i (bitset_set_range_keeps map _ _ i hi), fun hr e he x hx1 hx2 => ?_⟩
    rcases List.mem_cons.mp he with rfl | he
    · have hset := bitset_set_range_sets map e.fe_logical e.fe_length x hr hx1 hx2
      unfold bitset_is_set_at at hset ⊢
      rw [build_allocation_map_extents, h2]
      exact h3 _ hset
    · exact h4 hr e he x hx1 hx2

theorem build_allocation_map_loop_spec (ioctl : Nat → Nat → Option (List fiemap_extent))
    (hprogress : ∀ fm_start fm_length extents last, ioctl fm_start fm_length = some extents →
      extents.getLast? = some last → fm_start < uint64 (last.fe_logical + last.fe_length)) :
    ∀ (fuel offset : Nat) (map : bitset_mapping) (before : List fiemap_query),
      map.size ≤ 9223372036854775808 → map.size - offset ≤ fuel →
      ∃ r map' queries,
        build_allocation_map_loop ioctl fuel offset map before = some (r, map', before ++ queries) ∧
        (r = 0 ∨ r = 1) ∧
        (r = 0 ↔ ∃ q ∈ queries, q.extents = none) ∧
        (∀ q ∈ queries, q.extents = ioctl q.fm_start q.fm_length) ∧
        queries_chained map.size offset queries ∧
        (r = 1 → ∃ m, map' = some m ∧ m.size = map.size ∧ m.resolution = map.resolution ∧
          (∀ i, bit_is_set map.bits i = true → bit_is_set m.bits i = true) ∧
          (0 < map.resolution → ∀ q ∈ queries, ∀ extents, q.extents = some extents →
            ∀ e ∈ extents, ∀ x, e.fe_logical ≤ x → x < e.fe_logical + e.fe_length →
              bitset_is_set_at m x = true)) := by
  intro fuel
  induction fuel with
  | zero =>
    intro offset map before _ hfuel
    refine ⟨1, some map, [], ?_, Or.inr rfl, ?_, ?_, trivial, fun _ => ?_⟩
    · rw [build_allocation_map_loop, if_neg (by omega), List.append_nil]
    · simp
    · simp
    · exact ⟨map, rfl, rfl, rfl, fun _ h => h, fun _ q hq => by simp at hq⟩
  | succ fuel ih =>
    intro offset map before hsize hfuel
    by_cases hlt : offset < map.size
    · have hlen : ∃ fm_length, fm_length =
          (if uint64 (offset + max_length) > map.size then map.size - offset else max_length) ∧
          0 < fm_length ∧ fm_length ≤ max_length ∧ offset + fm_length ≤ map.size := by
        refine ⟨_, rfl, ?_⟩
        have hm : max_length = 104857600 := rfl
        have hu : uint64 (offset + max_length) = offset + max_length := by
          unfold uint64
          omega
        rw [hu]
        split_ifs with h <;> omega
      obtain ⟨fm_length, hfm, hpos, hmax, hend⟩ := hlen
      rw [build_allocation_map_loop, if_pos hlt]
      simp only []
      rw [← hfm]
      cases hq : ioctl offset fm_length with
      | none =>
        refine ⟨0, none, [{ fm_start := offset, fm_length := fm_length, extents := none }],
          rfl, Or.inl rfl, ?_, ?_, ?_, fun h => absurd h (by decide)⟩
        · simp
        · intro q hq1
          simp only [List.mem_singleton] at hq1
          subst hq1
          exact hq.symm
        · exact ⟨rfl, hmax, hend, rfl⟩
      | some extents =>
        have hnext : offset < build_allocation_map_next offset fm_length extents := by
          unfold build_allocation_map_next
          cases hl : extents.getLast? with
          | none =>
            simp only []
            unfold uint64
            omega
          | some last =>
            exact hprogress offset fm_length extents last hq hl
        obtain ⟨e1, e2, e3, e4⟩ := build_allocation_map_extents_spec extents map
        obtain ⟨r, map', queries, hrun, hr01, hr0, hanswers, hchain, hbits⟩ :=
          ih (build_allocation_map_next offset fm_length extents)
            (build_allocation_map_extents map extents)
            (before ++ [{ fm_start := offset, fm_length := fm_length, extents := some extents }])
            (by rw [e1]; exact hsize) (by rw [e1]; omega)
        refine ⟨r, map',
          { fm_start := offset, fm_length := fm_length, extents := some extents } :: queries,
          ?_, hr01, ?_, ?_, ?_, fun h1 => ?_⟩
        · simp only []
          rw [hrun, List.append_assoc]
          rfl
        · rw [hr0]
          simp
        · intro q hq1
          rcases List.mem_cons.mp hq1 with rfl | hq1
          · exact hq.symm
          · exact hanswers q hq1
        · rw [e1] at hchain
          exact ⟨rfl, hmax, hend, hchain⟩
        · obtain ⟨m, hm1, hm2, hm3, hm4, hm5⟩ := hbits h1
          refine ⟨m, hm1, by rw [hm2, e1], by rw [hm3, e2], fun i hi => hm4 i (e3 i hi),
            fun hr q hq1 exts hexts e he x hx1 hx2 => ?_⟩
          rcases List.mem_cons.mp hq1 with rfl | hq1
          · simp only [Option.some.injEq] at hexts
            subst hexts
            have hset := e4 hr e he x hx1 hx2
            unfold bitset_is_set_at at hset ⊢
            rw [hm3]
            exact hm4 _ hset
          · exact hm5 (by rw [e2]; exact hr) q hq1 exts hexts e he x hx1 hx2
    · refine ⟨1, some map, [], ?_, Or.inr rfl, ?_, ?_, trivial, fun _ => ?_⟩
      · rw [build_allocation_map_loop, if_neg hlt, List.append_nil]
      · simp
      · simp
      · exact ⟨map, rfl, rfl, rfl, fun _ h => h, fun _ q hq => by simp at hq⟩

/-- C28: for a map of at most 2^63 bytes and a file system each of whose answers
ends, with its last extent, after the start of the query, `build_allocation_map`
returns, with 0 or 1.  It returns 0 exactly when one of its queries has failed.
Its queries are answered by the file system, the first starts at 0 and each
next one at the end of the last extent the one before has returned, or at the
end of that query when it has returned none; each asks for at most 100 MiB and
not past the size of the map.  When it returns 1 the map has its size and
resolution, every bit that was set is set, and the bit of every byte of every
extent reported is set. -/
theorem C28_build_allocation_map (ioctl : Nat → Nat → Option (List fiemap_extent))
    (allocation_map : bitset_mapping) (hsize : allocation_map.size ≤ 9223372036854775808)
    (hprogress : ∀ fm_start fm_length extents last, ioctl fm_start fm_length = some extents →
      extents.getLast? = some last → fm_start < uint64 (last.fe_logical + last.fe_length)) :
    ∃ r map' queries,
      build_allocation_map ioctl allocation_map = some (r, map', queries) ∧
      (r = 0 ∨ r = 1) ∧
      (r = 0 ↔ ∃ q ∈ queries, q.extents = none) ∧
      (∀ q ∈ queries, q.extents = ioctl q.fm_start q.fm_length) ∧
      queries_chained allocation_map.size 0 queries ∧
      (r = 1 → ∃ m, map' = some m ∧ m.size = allocation_map.size ∧
        m.resolution = allocation_map.resolution ∧
        (∀ i, bit_is_set allocation_map.bits i = true → bit_is_set m.bits i = true) ∧
        (0 < allocation_map.resolution → ∀ q ∈ queries, ∀ extents, q.extents = some extents →
          ∀ e ∈ extents, ∀ x, e.fe_logical ≤ x → x < e.fe_logical + e.fe_length →
            bitset_is_set_at m x = true)) := by
  obtain ⟨r, map', queries, hrun, hrest⟩ :=
    build_allocation_map_loop_spec ioctl hprogress allocation_map.size 0 allocation_map []
      hsize (by omega)
  refine ⟨r, map', queries, ?_, hrest⟩
  unfold build_allocation_map
  rw [hrun, List.nil_append]

/-- C28 at a concrete input: a map of 10000 bytes at resolution 4096 and a file
system that reports the one extent `[0, 4096)`. -/
theorem C28_build_allocation_map_witness :
    ∃ r map' queries,
      build_allocation_map ioctl_one_extent (bitset_alloc 10000 4096) = some (r, map', queries) ∧
      (r = 0 ∨ r = 1) ∧
      (r = 0 ↔ ∃ q ∈ queries, q.extents = none) ∧
      (∀ q ∈ queries, q.extents = ioctl_one_extent q.fm_start q.fm_length) ∧
      queries_chained (bitset_alloc 10000 4096).size 0 queries ∧
      (r = 1 → ∃ m, map' = some m ∧ m.size = (bitset_alloc 10000 4096).size ∧
        m.resolution = (bitset_alloc 10000 4096).resolution ∧
        (∀ i, bit_is_set (bitset_alloc 10000 4096).bits i = true → bit_is_set m.bits i = true) ∧
        (0 < (bitset_alloc 10000 4096).resolution → ∀ q ∈ queries, ∀ extents,
          q.extents = some extents →
          ∀ e ∈ extents, ∀ x, e.fe_logical ≤ x → x < e.fe_logical + e.fe_length →
            bitset_is_set_at m x = true)) :=
  C28_build_allocation_map ioctl_one_extent (bitset_alloc 10000 4096) (by decide)
    (by
      intro fm_start fm_length extents last h hl
      unfold ioctl_one_extent at h
      split_ifs at h with h0
      · simp only [Option.some.injEq] at h
        subst h
        simp only [List.getLast?_singleton, Option.some.injEq] at hl
        subst hl
        subst h0
        decide
      · simp only [Option.some.injEq] at h
        subst h
        simp at hl)

/-- The run of `build_allocation_map` on that input, and on a file system whose
query fails: two queries, `[0, 10000)` and `[4096, 10000)`, and bit 0 set; one
query and the return value 0. -/
theorem build_allocation_map_examples :
    ((build_allocation_map ioctl_one_extent (bitset_alloc 10000 4096)).map
        (fun r => (r.1, r.2.2)))
      = some (1, [{ fm_start := 0, fm_length := 10000,
                    extents := some [{ fe_logical := 0, fe_length := 4096 }] },
                  { fm_start := 4096, fm_length := 5904, extents := some [] }]) ∧
      ((build_allocation_map ioctl_one_extent (bitset_alloc 10000 4096)).map
        (fun r => r.2.1.map (fun m => (bit_is_set m.bits 0, bit_is_set m.bits 1))))
      = some (some (true, false)) ∧
      ((build_allocation_map ioctl_fails (bitset_alloc 10000 4096)).map
        (fun r => (r.1, r.2.1.isNone, r.2.2)))
      = some (0, true, [{ fm_start := 0, fm_length := 10000, extents := none }]) := by
  decide

end FlexNBD
